import Mathlib

/-!
Catalog of users, drivers and rides (`src/trabalho-pratico/src/catalog.c`).

A shallow embedding of the catalog module and of the range queries built on it.

Conventions of the embedding

* A `GPtrArray` is a `List`; `g_ptr_array_index` outside the array is a memory
  fault, modelled by the result `none`.
* A `GHashTable` is an association list with at most one entry per key.
* C `double` values that the catalog stores (price, tip) are rationals; the result
  of a `double` division is a `Double`, which keeps the non-finite results of a
  division by zero apart from the finite ones.
* `int` and `guint` values are integers and naturals; conversions between the two
  that the C code performs are written out (`gint_of_guint`, `guint_of_gint`), and an
  `int` result that can leave the 32 bits is wrapped (`gint_wrap`): the score that
  `driver_by_city_add_score` accumulates, the difference of two ids. Counters of rides
  (`rides_count`, `amount_rides`) are unbounded: they stay below the length of the
  arrays they count.
* A function that can use a `NULL` pointer or read outside an array returns an `Option`,
  `none` being the fault.
* A loop whose code does not bound its iterations (`alter_hash_to_gptr_array`) takes the
  number of iterations that are followed; `none` then also stands for a call that has
  not returned within them.
* What a query writes is a list of `OutputLine` values, the values that `fprintf` formats;
  the macro `DEBUG` is a Boolean parameter.
* A query function is embedded twice: on the values it reads, the result array of the
  caller being a value that is passed and returned; and on a `Memory`, which holds the
  catalog and the arrays of the caller and in which a store goes to the array that the
  pointer `result` refers to, an array of the caller or of the catalog.
-/

set_option autoImplicit false

namespace LI3

/-! ## Dates -/

/-- Modelled from the spec: the `Date` type of `date.h` (not part of the sources at hand),
a calendar date. -/
structure Date where
  year : Nat
  month : Nat
  day : Nat
deriving DecidableEq, Repr

/-- Modelled from the spec: `date_compare` of `date.h` (not part of the sources at hand), the
three-way comparison of the chronological order: negative when `a` is before `b`, zero when
they are the same date, positive when `a` is after `b`. -/
def date_compare (a b : Date) : Int :=
  if a.year ≠ b.year then (a.year : Int) - (b.year : Int)
  else if a.month ≠ b.month then (a.month : Int) - (b.month : Int)
  else (a.day : Int) - (b.day : Int)

/-! ## Rides -/

/-- Modelled from the spec: the `Ride` record of `ride.h` (not part of the sources at hand) with
the fields read by the catalog through `ride_get_*`. -/
structure Ride where
  id : Int
  date : Date
  driver_id : Int
  user_username : String
  city : String
  distance : Int
  score_user : Int
  score_driver : Int
  tip : ℚ
  price : ℚ
deriving DecidableEq

/-- Modelled from the spec: `ride_set_price` of `ride.h`, which fills the price field. -/
def ride_set_price (ride : Ride) (price : ℚ) : Ride :=
  { ride with price := price }

/-! ## GLib pointer arrays -/

/-- The macro `g_ptr_array_index(array, i)`: the element at position `i`; reading at or
beyond `array->len` is a fault (`none`). -/
def g_ptr_array_index {α : Type} (array : List α) (i : Nat) : Option α :=
  array[i]?

/-- The function `g_ptr_array_add`: appends at the end. -/
def g_ptr_array_add {α : Type} (array : List α) (x : α) : List α :=
  array ++ [x]

/-! ## Binary search for the date lower bound (`catalog.c`, lines 275-295) -/

/-- The `while (low < high)` loop of `ride_array_find_date_lower_bound`. -/
def ride_array_find_date_lower_bound_loop (array : List Ride) (date : Date)
    (low high : Nat) : Option Nat :=
  if low < high then
    let mid := low + (high - low) / 2
    match g_ptr_array_index array mid with
    | none => none
    | some ride =>
      if date_compare date ride.date ≤ 0 then
        ride_array_find_date_lower_bound_loop array date low mid
      else
        ride_array_find_date_lower_bound_loop array date (mid + 1) high
  else
    some low
termination_by high - low
decreasing_by
  all_goals simp_wf
  all_goals omega

/-- The function `ride_array_find_date_lower_bound`: `low = 0`, `high = array->len`. -/
def ride_array_find_date_lower_bound (array : List Ride) (date : Date) : Option Nat :=
  ride_array_find_date_lower_bound_loop array date 0 array.length

/-- A ride sequence ordered by date ascending. -/
def sorted_by_date (array : List Ride) : Prop :=
  List.Pairwise (fun a b => date_compare a.date b.date ≤ 0) array

instance (array : List Ride) : Decidable (sorted_by_date array) := by
  unfold sorted_by_date; infer_instance

/-! ## Doubles -/

/-- The value of a C `double` expression: a finite number, an infinity or NaN. Finite values
are exact rationals. -/
inductive Double
  | finite (q : ℚ)
  | inf (negative : Bool)
  | nan
deriving DecidableEq

/-- The C division of two `double` values with finite operands: a zero divisor gives NaN
(for `0 / 0`) or an infinity, as in IEEE 754. -/
def double_div (a b : ℚ) : Double :=
  if b = 0 then
    if a = 0 then Double.nan else Double.inf (decide (a < 0))
  else
    Double.finite (a / b)

/-! ## Machine integers -/

/-- The cast `(int) x` of a `guint` (32 bits, two's complement). -/
def gint_of_guint (x : Nat) : Int :=
  if x % 2 ^ 32 < 2 ^ 31 then ((x % 2 ^ 32 : Nat) : Int) else ((x % 2 ^ 32 : Nat) : Int) - 2 ^ 32

/-- The conversion of an `int` to `guint` that C applies when the two are compared. -/
def guint_of_gint (n : Int) : Nat :=
  (n % 2 ^ 32).toNat

/-- The result of an `int` operation whose exact value is `x`, in 32 bits two's
complement. -/
def gint_wrap (x : Int) : Int :=
  (x + 2 ^ 31) % 2 ^ 32 - 2 ^ 31

/-! ## GLib hash tables -/

/-- A `GHashTable`: the entries, at most one for each key. -/
abbrev GHashTable (K V : Type) := List (K × V)

/-- The function `g_hash_table_lookup`: the value stored for the key, `none` standing for
`NULL`. -/
def g_hash_table_lookup {K V : Type} [DecidableEq K] : GHashTable K V → K → Option V
  | [], _ => none
  | (k, v) :: rest, key => if k = key then some v else g_hash_table_lookup rest key

/-- The function `g_hash_table_contains`. -/
def g_hash_table_contains {K V : Type} [DecidableEq K] : GHashTable K V → K → Bool
  | [], _ => false
  | (k, _) :: rest, key => if k = key then true else g_hash_table_contains rest key

/-- The function `g_hash_table_insert`: a key already present keeps its entry and gets the new
value, a new key gets a new entry. The same operation stands for a write through a
pointer that the table holds (an array or a table stored as a value and changed in
place). -/
def g_hash_table_insert {K V : Type} [DecidableEq K] : GHashTable K V → K → V → GHashTable K V
  | [], key, value => [(key, value)]
  | (k, v) :: rest, key, value =>
    if k = key then (k, value) :: rest else (k, v) :: g_hash_table_insert rest key value

/-- The function `g_ptr_array_sort`, documented by GLib as a stable sort: `compare` is the
three-way comparison, an element goes before another when the comparison is not positive. -/
def g_ptr_array_sort {α : Type} (compare : α → α → Int) (array : List α) : List α :=
  List.insertionSort (fun a b => compare a b ≤ 0) array

/-! ## Users and drivers -/

inductive Gender
  | F
  | M
deriving DecidableEq

inductive AccountStatus
  | ACTIVE
  | INACTIVE
deriving DecidableEq

inductive CarClass
  | BASIC
  | GREEN
  | PREMIUM
deriving DecidableEq

/-- Modelled from the spec: the `User` record of `user.h` (not part of the sources at hand). -/
structure User where
  username : String
  name : String
  gender : Gender
  birthdate : Date
  account_status : AccountStatus
  number_of_rides : Int
  accumulated_score : Int
  total_spent : ℚ
  total_distance : Int
  last_ride_date : Date
deriving DecidableEq

/-- Modelled from the spec: the `Driver` record of `driver.h` (not part of the sources at
hand). -/
structure Driver where
  id : Int
  name : String
  gender : Gender
  birthdate : Date
  car_class : CarClass
  account_status : AccountStatus
  number_of_rides : Int
  accumulated_score : Int
  total_earned : ℚ
  last_ride_date : Date
deriving DecidableEq

/-- Modelled from the spec: `user_increment_number_of_rides` of `user.h`. -/
def user_increment_number_of_rides (user : User) : User :=
  { user with number_of_rides := user.number_of_rides + 1 }

/-- Modelled from the spec: `user_add_score` of `user.h`. -/
def user_add_score (user : User) (score : Int) : User :=
  { user with accumulated_score := user.accumulated_score + score }

/-- Modelled from the spec: `user_add_spent` of `user.h`. -/
def user_add_spent (user : User) (spent : ℚ) : User :=
  { user with total_spent := user.total_spent + spent }

/-- Modelled from the spec: `user_add_total_distance` of `user.h`. -/
def user_add_total_distance (user : User) (distance : Int) : User :=
  { user with total_distance := user.total_distance + distance }

/-- Modelled from the spec: `user_register_ride_date` of `user.h`, which keeps the date of the
most recent ride. -/
def user_register_ride_date (user : User) (date : Date) : User :=
  if date_compare date user.last_ride_date > 0 then { user with last_ride_date := date }
  else user

/-- Modelled from the spec: `driver_increment_number_of_rides` of `driver.h`. -/
def driver_increment_number_of_rides (driver : Driver) : Driver :=
  { driver with number_of_rides := driver.number_of_rides + 1 }

/-- Modelled from the spec: `driver_add_score` of `driver.h`. -/
def driver_add_score (driver : Driver) (score : Int) : Driver :=
  { driver with accumulated_score := driver.accumulated_score + score }

/-- Modelled from the spec: `driver_add_earned` of `driver.h`. -/
def driver_add_earned (driver : Driver) (earned : ℚ) : Driver :=
  { driver with total_earned := driver.total_earned + earned }

/-- Modelled from the spec: `driver_register_ride_date` of `driver.h`, which keeps the date of
the most recent ride. -/
def driver_register_ride_date (driver : Driver) (date : Date) : Driver :=
  if date_compare date driver.last_ride_date > 0 then { driver with last_ride_date := date }
  else driver

/-! ## Driver statistics of a city (`catalog.c`, lines 7-42) -/

/-- The record `struct DriverbyCity`. -/
structure DriverbyCity where
  id : Int
  name : String
  accumulated_score : Int
  amount_rides : Int
deriving DecidableEq

/-- The function `create_driver_by_city`. -/
def create_driver_by_city (id : Int) (name : String) : DriverbyCity :=
  { id := id, name := name, accumulated_score := 0, amount_rides := 0 }

/-- The function `driver_by_city_get_id`. -/
def driver_by_city_get_id (driver : DriverbyCity) : Int :=
  driver.id

/-- The function `driver_by_city_increment_number_of_rides`. -/
def driver_by_city_increment_number_of_rides (driver : DriverbyCity) : DriverbyCity :=
  { driver with amount_rides := driver.amount_rides + 1 }

/-- The function `driver_by_city_add_score`: `accumulated_score += score` on an `int`
field, the sum kept in 32 bits. -/
def driver_by_city_add_score (driver : DriverbyCity) (score : Int) : DriverbyCity :=
  { driver with accumulated_score := gint_wrap (driver.accumulated_score + score) }

/-- The union `GHashArray`: the drivers of a city, as a table by driver id or as an array of
pointers to records, `none` being a `NULL` pointer. -/
inductive GHashArray
  | drivers_in_city_hash (hash : GHashTable Int DriverbyCity)
  | drivers_in_city_array (array : List (Option DriverbyCity))
deriving DecidableEq

/-! ## The catalog (`catalog.c`, lines 54-231) -/

/-- The record `struct Catalog`, together with the `User` and `Driver` objects it owns. A
pointer to a user or driver is the position of the object in `user_heap` or `driver_heap`;
rides and driver statistics are not changed once another structure refers to them and
are held by value. -/
structure Catalog where
  user_heap : List User
  driver_heap : List Driver
  users_array : List Nat
  drivers_array : List Nat
  rides_array : List Ride
  user_from_username_hashtable : GHashTable String Nat
  driver_from_id_hashtable : GHashTable Int Nat
  rides_in_city_hashtable : GHashTable String (List Ride)
  drivers_in_city : GHashTable String GHashArray
deriving DecidableEq

/-- The function `create_catalog`. -/
def create_catalog : Catalog :=
  { user_heap := [], driver_heap := [], users_array := [], drivers_array := [],
    rides_array := [], user_from_username_hashtable := [], driver_from_id_hashtable := [],
    rides_in_city_hashtable := [], drivers_in_city := [] }

/-- The function `register_user`; the new object gets the next free position of the heap. -/
def register_user (catalog : Catalog) (user : User) : Catalog :=
  let pointer := catalog.user_heap.length
  let key := user.username
  { catalog with
    user_heap := catalog.user_heap ++ [user]
    users_array := g_ptr_array_add catalog.users_array pointer
    user_from_username_hashtable :=
      g_hash_table_insert catalog.user_from_username_hashtable key pointer }

/-- The function `register_driver`; the new object gets the next free position of the heap. -/
def register_driver (catalog : Catalog) (driver : Driver) : Catalog :=
  let pointer := catalog.driver_heap.length
  let key := driver.id
  { catalog with
    driver_heap := catalog.driver_heap ++ [driver]
    drivers_array := g_ptr_array_add catalog.drivers_array pointer
    driver_from_id_hashtable :=
      g_hash_table_insert catalog.driver_from_id_hashtable key pointer }

/-- The function `catalog_get_user`. -/
def catalog_get_user (catalog : Catalog) (username : String) : Option Nat :=
  g_hash_table_lookup catalog.user_from_username_hashtable username

/-- The function `catalog_get_driver`. -/
def catalog_get_driver (catalog : Catalog) (id : Int) : Option Nat :=
  g_hash_table_lookup catalog.driver_from_id_hashtable id

/-- The function `catalog_ride_index_city`. The bucket is changed through the pointer that the
table holds, which the embedding writes back at the key of the city; `g_ptr_array_add` on a
`NULL` array adds nothing. -/
def catalog_ride_index_city (catalog : Catalog) (ride : Ride) : Catalog :=
  let city := ride.city
  if g_hash_table_contains catalog.rides_in_city_hashtable city then
    match g_hash_table_lookup catalog.rides_in_city_hashtable city with
    | none => catalog
    | some rides_in_city =>
      { catalog with
        rides_in_city_hashtable :=
          g_hash_table_insert catalog.rides_in_city_hashtable city
            (g_ptr_array_add rides_in_city ride) }
  else
    let rides_in_city : List Ride := []
    let table := g_hash_table_insert catalog.rides_in_city_hashtable city rides_in_city
    { catalog with
      rides_in_city_hashtable := g_hash_table_insert table city (g_ptr_array_add rides_in_city ride) }

/-- The function `insert_new_driver_city`; a driver missing from the catalog is a `NULL`
passed to `driver_get_name`, a fault. -/
def insert_new_driver_city (driver_id : Int) (driver_by_city : GHashTable Int DriverbyCity)
    (catalog : Catalog) : Option (GHashTable Int DriverbyCity) := do
  let pointer ← catalog_get_driver catalog driver_id
  let driver ← catalog.driver_heap[pointer]?
  let new_driver := create_driver_by_city driver_id driver.name
  some (g_hash_table_insert driver_by_city driver_id new_driver)

/-- The function `add_score_to_driver_city`; the result is the table after the changes made
through the pointer `driver`. -/
def add_score_to_driver_city (score : Int) (driver_id : Int)
    (driver_by_city : GHashTable Int DriverbyCity) (catalog : Catalog) :
    Option (GHashTable Int DriverbyCity) := do
  let driver_by_city ←
    match g_hash_table_lookup driver_by_city driver_id with
    | none => insert_new_driver_city driver_id driver_by_city catalog
    | some _ => some driver_by_city
  let driver ← g_hash_table_lookup driver_by_city driver_id
  let driver := driver_by_city_add_score driver score
  let driver := driver_by_city_increment_number_of_rides driver
  some (g_hash_table_insert driver_by_city driver_id driver)

/-- The function `catalog_add_driver_by_city`; a value of `drivers_in_city` that is no longer
a table cannot be used as one (`none`). -/
def catalog_add_driver_by_city (catalog : Catalog) (ride : Ride) (city : String) :
    Option Catalog := do
  let driver_id := ride.driver_id
  match g_hash_table_lookup catalog.drivers_in_city city with
  | none =>
    let driver_in_city_hash : GHashTable Int DriverbyCity := []
    let catalog := { catalog with
      drivers_in_city := g_hash_table_insert catalog.drivers_in_city city
        (GHashArray.drivers_in_city_hash driver_in_city_hash) }
    let hash ← add_score_to_driver_city ride.score_driver driver_id driver_in_city_hash catalog
    some { catalog with
      drivers_in_city := g_hash_table_insert catalog.drivers_in_city city
        (GHashArray.drivers_in_city_hash hash) }
  | some (GHashArray.drivers_in_city_hash driver_in_city_hash) =>
    let hash ← add_score_to_driver_city ride.score_driver driver_id driver_in_city_hash catalog
    some { catalog with
      drivers_in_city := g_hash_table_insert catalog.drivers_in_city city
        (GHashArray.drivers_in_city_hash hash) }
  | some (GHashArray.drivers_in_city_array _) => none

/-- The function `register_ride`. The price function `compute_price` of `price_util.h` is a
parameter. A ride whose driver or user is not registered makes the function use a `NULL`
pointer, a fault (`none`). The ride is held by value, with the price that `ride_set_price`
gives it. -/
def register_ride (compute_price : Int → CarClass → ℚ) (catalog : Catalog) (ride : Ride) :
    Option Catalog := do
  let city := ride.city
  let driver_pointer ← catalog_get_driver catalog ride.driver_id
  let driver ← catalog.driver_heap[driver_pointer]?
  let price := compute_price ride.distance driver.car_class
  let ride := ride_set_price ride price
  let catalog := { catalog with rides_array := g_ptr_array_add catalog.rides_array ride }
  let total_price := ride.tip + price
  let driver := driver_increment_number_of_rides driver
  let driver := driver_add_score driver ride.score_driver
  let driver := driver_add_earned driver total_price
  let driver := driver_register_ride_date driver ride.date
  let catalog := { catalog with driver_heap := catalog.driver_heap.set driver_pointer driver }
  let username := ride.user_username
  let user_pointer ← catalog_get_user catalog username
  let user ← catalog.user_heap[user_pointer]?
  let user := user_increment_number_of_rides user
  let user := user_add_score user ride.score_user
  let user := user_add_spent user total_price
  let user := user_add_total_distance user ride.distance
  let user := user_register_ride_date user ride.date
  let catalog := { catalog with user_heap := catalog.user_heap.set user_pointer user }
  let catalog := catalog_ride_index_city catalog ride
  catalog_add_driver_by_city catalog ride city

/-! ## Sequences of registrations -/

/-- One call of the loading phase. -/
inductive Registration
  | user (user : User)
  | driver (driver : Driver)
  | ride (ride : Ride)
deriving DecidableEq

/-- The effect of one call of `register_user`, `register_driver` or `register_ride`. -/
def register (compute_price : Int → CarClass → ℚ) (catalog : Catalog) :
    Registration → Option Catalog
  | Registration.user user => some (register_user catalog user)
  | Registration.driver driver => some (register_driver catalog driver)
  | Registration.ride ride => register_ride compute_price catalog ride

/-- The calls of a list made one after the other, the first call first. -/
def register_all (compute_price : Int → CarClass → ℚ) :
    Catalog → List Registration → Option Catalog
  | catalog, [] => some catalog
  | catalog, call :: rest =>
    match register compute_price catalog call with
    | none => none
    | some next => register_all compute_price next rest

/-- Whether every ride of a list of calls refers to a username and a driver id that are in
`usernames` and `ids` or were registered by an earlier call of the list. -/
def references_registered_from (usernames : List String) (ids : List Int) :
    List Registration → Bool
  | [] => true
  | Registration.user user :: rest =>
    references_registered_from (user.username :: usernames) ids rest
  | Registration.driver driver :: rest =>
    references_registered_from usernames (driver.id :: ids) rest
  | Registration.ride ride :: rest =>
    decide (ride.user_username ∈ usernames) && decide (ride.driver_id ∈ ids) &&
      references_registered_from usernames ids rest

/-- Whether every ride of a list of calls refers to an already registered user and driver. -/
def references_registered (calls : List Registration) : Bool :=
  references_registered_from [] [] calls

/-- The sum of the lengths of all city buckets of a table. -/
def sum_bucket_lengths (table : GHashTable String (List Ride)) : Nat :=
  (table.map (fun entry => entry.2.length)).sum

/-- The table of driver statistics that `drivers_in_city` holds for a city, empty when the
city has none. -/
def drivers_in_city_hash_of (catalog : Catalog) (city : String) : GHashTable Int DriverbyCity :=
  match g_hash_table_lookup catalog.drivers_in_city city with
  | some (GHashArray.drivers_in_city_hash hash) => hash
  | _ => []

/-- The ride as `register_ride` stores it: with the price of its distance and of the car
class of its driver. -/
def priced_ride (compute_price : Int → CarClass → ℚ) (driver : Driver) (ride : Ride) : Ride :=
  ride_set_price ride (compute_price ride.distance driver.car_class)

/-- The driver after `register_ride` has recorded a ride (already priced) for it. -/
def driver_after_ride (driver : Driver) (ride : Ride) : Driver :=
  driver_register_ride_date
    (driver_add_earned
      (driver_add_score (driver_increment_number_of_rides driver) ride.score_driver)
      (ride.tip + ride.price))
    ride.date

/-- The user after `register_ride` has recorded a ride (already priced) for it. -/
def user_after_ride (user : User) (ride : Ride) : User :=
  user_register_ride_date
    (user_add_total_distance
      (user_add_spent
        (user_add_score (user_increment_number_of_rides user) ride.score_user)
        (ride.tip + ride.price))
      ride.distance)
    ride.date

/-- The statistics of a driver in a city after one more ride with the given score; `name` is
the name the record gets when it is created by this ride. -/
def driver_by_city_after_ride (hash : GHashTable Int DriverbyCity) (driver_id : Int)
    (name : String) (score : Int) : DriverbyCity :=
  driver_by_city_increment_number_of_rides
    (driver_by_city_add_score
      ((g_hash_table_lookup hash driver_id).getD (create_driver_by_city driver_id name)) score)

/-- The rides that a list of calls registers, in order, as they are passed to
`register_ride`. -/
def rides_of_calls : List Registration → List Ride
  | [] => []
  | Registration.ride ride :: rest => ride :: rides_of_calls rest
  | _ :: rest => rides_of_calls rest

/-- The rides of a sequence that have the given city, in order. -/
def rides_of_city (rides : List Ride) (city : String) : List Ride :=
  rides.filter (fun ride => decide (ride.city = city))

/-- Invariant of the loading phase: the pointers of the two lookup tables point into the
heaps, every value of `drivers_in_city` is a table, and the city buckets split the ride
array by city. -/
structure LoadingInvariant (catalog : Catalog) : Prop where
  driver_pointers : ∀ id pointer,
    g_hash_table_lookup catalog.driver_from_id_hashtable id = some pointer →
      pointer < catalog.driver_heap.length
  user_pointers : ∀ username pointer,
    g_hash_table_lookup catalog.user_from_username_hashtable username = some pointer →
      pointer < catalog.user_heap.length
  drivers_in_city_hash : ∀ city array,
    g_hash_table_lookup catalog.drivers_in_city city ≠
      some (GHashArray.drivers_in_city_array array)
  bucket_lookup : ∀ city,
    g_hash_table_lookup catalog.rides_in_city_hashtable city =
      if rides_of_city catalog.rides_array city = [] then none
      else some (rides_of_city catalog.rides_array city)
  bucket_count : ∀ p : Ride → Bool,
    ((catalog.rides_in_city_hashtable).map (fun entry => entry.2.countP p)).sum =
      catalog.rides_array.countP p
  bucket_city : ∀ entry ∈ catalog.rides_in_city_hashtable, ∀ ride ∈ entry.2,
    ride.city = entry.1

/-- A sample price function: the distance, whatever the car class. -/
def sample_compute_price (distance : Int) (_car_class : CarClass) : ℚ :=
  (distance : ℚ)

/-- A sample user. -/
def sample_user (username : String) : User :=
  { username := username, name := username, gender := Gender.F,
    birthdate := { year := 1990, month := 5, day := 17 }, account_status := AccountStatus.ACTIVE,
    number_of_rides := 0, accumulated_score := 0, total_spent := 0, total_distance := 0,
    last_ride_date := { year := 0, month := 0, day := 0 } }

/-- A sample driver. -/
def sample_driver (id : Int) (name : String) : Driver :=
  { id := id, name := name, gender := Gender.M,
    birthdate := { year := 1985, month := 2, day := 3 }, car_class := CarClass.BASIC,
    account_status := AccountStatus.ACTIVE, number_of_rides := 0, accumulated_score := 0,
    total_earned := 0, last_ride_date := { year := 0, month := 0, day := 0 } }

/-- A sample ride. -/
def sample_ride (id : Int) (day : Nat) (driver_id : Int) (username city : String) : Ride :=
  { id := id, date := { year := 2023, month := 1, day := day }, driver_id := driver_id,
    user_username := username, city := city, distance := 8, score_user := 4, score_driver := 5,
    tip := 1, price := 0 }

/-- A sample loading phase: two users, two drivers, two rides in Porto and one in Braga. -/
def sample_calls : List Registration :=
  [Registration.user (sample_user "ana"), Registration.user (sample_user "rui"),
    Registration.driver (sample_driver 1 "Eva"), Registration.driver (sample_driver 2 "Ivo"),
    Registration.ride (sample_ride 1 1 1 "ana" "Porto"),
    Registration.ride (sample_ride 2 2 2 "rui" "Braga"),
    Registration.ride (sample_ride 3 3 1 "rui" "Porto")]

/-- A sample loading phase with one driver and one ride, in Faro. -/
def one_driver_calls : List Registration :=
  [Registration.user (sample_user "ana"), Registration.driver (sample_driver 1 "Eva"),
    Registration.ride (sample_ride 1 1 1 "ana" "Faro")]

/-- The only ride of the sample loading phase with one driver, with its price. -/
def faro_ride : Ride :=
  ride_set_price (sample_ride 1 1 1 "ana" "Faro") 8

/-- The statistics of the only driver of Faro after the sample loading phase with one driver:
one ride with score 5. -/
def faro_driver_by_city : DriverbyCity :=
  { id := 1, name := "Eva", accumulated_score := 5, amount_rides := 1 }

/-! ## Top-N queries over the global arrays (`catalog.c`, lines 233-253) -/

/-- The loop `for (int i = 0; i < length; i++)` of `catalog_get_top_drivers_with_best_score`. -/
def catalog_get_top_drivers_with_best_score_loop (drivers_array : List Nat) (length : Int)
    (i : Nat) (result : List Nat) : Option (List Nat) :=
  if (i : Int) < length then
    match g_ptr_array_index drivers_array i with
    | none => none
    | some driver =>
      catalog_get_top_drivers_with_best_score_loop drivers_array length (i + 1)
        (g_ptr_array_add result driver)
  else
    some result
termination_by (length - i).toNat
decreasing_by
  all_goals simp_wf
  all_goals omega

/-- The function `catalog_get_top_drivers_with_best_score`: the returned `int` and the result
array after the call. -/
def catalog_get_top_drivers_with_best_score (catalog : Catalog) (n : Int) (result : List Nat) :
    Option (Int × List Nat) := do
  let length := min n (gint_of_guint catalog.drivers_array.length)
  let result ← catalog_get_top_drivers_with_best_score_loop catalog.drivers_array length 0 result
  some (length, result)

/-- The loop `for (int i = 0; i < n; i++)` of
`catalog_get_top_users_with_longest_total_distance`. -/
def catalog_get_top_users_with_longest_total_distance_loop (users_array : List Nat) (n : Int)
    (i : Nat) (result : List Nat) : Option (List Nat) :=
  if (i : Int) < n then
    match g_ptr_array_index users_array i with
    | none => none
    | some user =>
      catalog_get_top_users_with_longest_total_distance_loop users_array n (i + 1)
        (g_ptr_array_add result user)
  else
    some result
termination_by (n - i).toNat
decreasing_by
  all_goals simp_wf
  all_goals omega

/-- The function `catalog_get_top_users_with_longest_total_distance`: the returned `int` and
the result array after the call. -/
def catalog_get_top_users_with_longest_total_distance (catalog : Catalog) (n : Int)
    (result : List Nat) : Option (Int × List Nat) := do
  let length := min n (gint_of_guint catalog.users_array.length)
  let result ←
    catalog_get_top_users_with_longest_total_distance_loop catalog.users_array n 0 result
  some (length, result)

/-! ## Average price of a city (`catalog.c`, lines 255-270) -/

/-- The loop `for (guint i = 0; i < rides->len; i++)` of `catalog_get_average_price_in_city`. -/
def catalog_get_average_price_in_city_loop (rides : List Ride) (i : Nat) (total_price : ℚ) :
    Option ℚ :=
  if i < rides.length then
    match g_ptr_array_index rides i with
    | none => none
    | some ride => catalog_get_average_price_in_city_loop rides (i + 1) (total_price + ride.price)
  else
    some total_price
termination_by rides.length - i
decreasing_by
  all_goals simp_wf
  all_goals omega

/-- The function `catalog_get_average_price_in_city`. -/
def catalog_get_average_price_in_city (p_catalog : Catalog) (city : String) : Option Double :=
  match g_hash_table_lookup p_catalog.rides_in_city_hashtable city with
  | none => some (Double.finite 0)
  | some rides => do
    let total_price ← catalog_get_average_price_in_city_loop rides 0 0
    some (double_div total_price (rides.length : ℚ))

/-! ## Range queries (`catalog.c`, lines 302-376) -/

/-- The `while` loop of `catalog_get_average_price_in_date_range`: the total price and the
count when the loop is left. -/
def catalog_get_average_price_in_date_range_loop (rides : List Ride) (end_date : Date)
    (current_value_index : Nat) (total_price : ℚ) (rides_count : Int) : Option (ℚ × Int) :=
  if current_value_index < rides.length then
    match g_ptr_array_index rides current_value_index with
    | none => none
    | some current_ride =>
      if date_compare current_ride.date end_date > 0 then
        some (total_price, rides_count)
      else
        catalog_get_average_price_in_date_range_loop rides end_date (current_value_index + 1)
          (total_price + current_ride.price) (rides_count + 1)
  else
    some (total_price, rides_count)
termination_by rides.length - current_value_index
decreasing_by
  all_goals simp_wf
  all_goals omega

/-- The function `catalog_get_average_price_in_date_range`. -/
def catalog_get_average_price_in_date_range (catalog : Catalog) (start_date end_date : Date) :
    Option Double := do
  let rides := catalog.rides_array
  let current_value_index ← ride_array_find_date_lower_bound rides start_date
  let (total_price, rides_count) ←
    catalog_get_average_price_in_date_range_loop rides end_date current_value_index 0 0
  some (if rides_count ≠ 0 then double_div total_price (rides_count : ℚ) else Double.finite 0)

/-- The `while` loop of `catalog_get_average_distance_in_city_by_date`. -/
def catalog_get_average_distance_in_city_by_date_loop (rides_in_city : List Ride)
    (end_date : Date) (current_value_index : Nat) (total_distance : ℚ) (ride_count : Int) :
    Option (ℚ × Int) :=
  if current_value_index < rides_in_city.length then
    match g_ptr_array_index rides_in_city current_value_index with
    | none => none
    | some current_ride =>
      if date_compare current_ride.date end_date > 0 then
        some (total_distance, ride_count)
      else
        catalog_get_average_distance_in_city_by_date_loop rides_in_city end_date
          (current_value_index + 1) (total_distance + (current_ride.distance : ℚ))
          (ride_count + 1)
  else
    some (total_distance, ride_count)
termination_by rides_in_city.length - current_value_index
decreasing_by
  all_goals simp_wf
  all_goals omega

/-- The function `catalog_get_average_distance_in_city_by_date`. -/
def catalog_get_average_distance_in_city_by_date (catalog : Catalog)
    (start_date end_date : Date) (city : String) : Option Double :=
  match g_hash_table_lookup catalog.rides_in_city_hashtable city with
  | none => some (Double.finite 0)
  | some rides_in_city => do
    let current_value_index ← ride_array_find_date_lower_bound rides_in_city start_date
    let (total_distance, ride_count) ←
      catalog_get_average_distance_in_city_by_date_loop rides_in_city end_date
        current_value_index 0 0
    some (if ride_count ≠ 0 then double_div total_distance (ride_count : ℚ)
      else Double.finite 0)

/-- The `while` loop of `catalog_insert_passengers_that_gave_tip_in_date_range`. -/
def catalog_insert_passengers_that_gave_tip_in_date_range_loop (rides : List Ride)
    (end_date : Date) (current_value_index : Nat) (result : List Ride) : Option (List Ride) :=
  if current_value_index < rides.length then
    match g_ptr_array_index rides current_value_index with
    | none => none
    | some current_ride =>
      if date_compare current_ride.date end_date > 0 then
        some result
      else
        catalog_insert_passengers_that_gave_tip_in_date_range_loop rides end_date
          (current_value_index + 1)
          (if current_ride.tip > 0 then g_ptr_array_add result current_ride else result)
  else
    some result
termination_by rides.length - current_value_index
decreasing_by
  all_goals simp_wf
  all_goals omega

/-- The function `catalog_insert_passengers_that_gave_tip_in_date_range`: the result array
after the call. The comparison `glib_wrapper_compare_rides_by_distance` of `catalog_sort.h`
(not part of the sources at hand) is a parameter. -/
def catalog_insert_passengers_that_gave_tip_in_date_range
    (glib_wrapper_compare_rides_by_distance : Ride → Ride → Int) (catalog : Catalog)
    (result : List Ride) (start_date end_date : Date) : Option (List Ride) := do
  let rides := catalog.rides_array
  let current_value_index ← ride_array_find_date_lower_bound rides start_date
  let result ←
    catalog_insert_passengers_that_gave_tip_in_date_range_loop rides end_date
      current_value_index result
  some (g_ptr_array_sort glib_wrapper_compare_rides_by_distance result)

/-! ## Top-N drivers of a city (`catalog.c`, lines 477-485) -/

/-- What an element of the result array of `catalog_get_top_n_drivers_in_city` points to. The
function declares the elements as `DriverbyCity *`. -/
inductive gpointer
  | ride (r : Ride)
  | driver_by_city (d : DriverbyCity)
deriving DecidableEq

/-- The loop `for (guint i = 0; i < n; i++)` of `catalog_get_top_n_drivers_in_city`; `bound` is
`n` converted to `guint` for the comparison with `i`. -/
def catalog_get_top_n_drivers_in_city_loop (top_drivers_in_city : List Ride) (bound : Nat)
    (i : Nat) (result : List gpointer) : Option (List gpointer) :=
  if i < bound then
    match g_ptr_array_index top_drivers_in_city i with
    | none => none
    | some driver =>
      catalog_get_top_n_drivers_in_city_loop top_drivers_in_city bound (i + 1)
        (g_ptr_array_add result (gpointer.ride driver))
  else
    some result
termination_by bound - i
decreasing_by
  all_goals simp_wf
  all_goals omega

/-- The function `catalog_get_top_n_drivers_in_city`: the result array after the call. The
array it reads is the value of `rides_in_city_hashtable` for the city. -/
def catalog_get_top_n_drivers_in_city (catalog : Catalog) (n : Int) (city : String)
    (result : List gpointer) : Option (List gpointer) :=
  match g_hash_table_lookup catalog.rides_in_city_hashtable city with
  | none => some result
  | some top_drivers_in_city =>
    catalog_get_top_n_drivers_in_city_loop top_drivers_in_city (guint_of_gint n) 0 result

/-! ## Reference definitions, written from the specification -/

/-- Whether a date lies in the closed range from `start_date` to `end_date`. -/
def date_in_range (start_date end_date : Date) (date : Date) : Bool :=
  decide (date_compare start_date date ≤ 0) && decide (date_compare date end_date ≤ 0)

/-- The rides of a sequence whose date lies in the closed range. -/
def rides_in_date_range (rides : List Ride) (start_date end_date : Date) : List Ride :=
  rides.filter (fun ride => date_in_range start_date end_date ride.date)

/-- The naive average price: the sum of the prices of the rides in the range divided by
their number, or 0 when there are none. -/
def naive_average_price_in_date_range (rides : List Ride) (start_date end_date : Date) :
    Double :=
  let selected := rides_in_date_range rides start_date end_date
  if selected.length = 0 then Double.finite 0
  else Double.finite ((selected.map (fun ride => ride.price)).sum / (selected.length : ℚ))

/-- The naive average distance: the sum of the distances of the rides in the range divided
by their number, or 0 when there are none. -/
def naive_average_distance_in_date_range (rides : List Ride) (start_date end_date : Date) :
    Double :=
  let selected := rides_in_date_range rides start_date end_date
  if selected.length = 0 then Double.finite 0
  else Double.finite
    ((selected.map (fun ride => (ride.distance : ℚ))).sum / (selected.length : ℚ))

/-! ## Sample data -/

/-- A ride of the city Porto on day `k` of January 2023 with price `10 * k`. -/
def porto_ride (k : Nat) : Ride :=
  { id := k, date := { year := 2023, month := 1, day := k }, driver_id := 1,
    user_username := "ana", city := "Porto", distance := k, score_user := 4, score_driver := 5,
    tip := 0, price := 10 * k }

/-- Ten rides dated 2023-01-01 to 2023-01-10 with prices 10, 20, ..., 100. -/
def porto_rides : List Ride :=
  [porto_ride 1, porto_ride 2, porto_ride 3, porto_ride 4, porto_ride 5, porto_ride 6,
    porto_ride 7, porto_ride 8, porto_ride 9, porto_ride 10]

/-- A catalog whose ride array and only city bucket hold the ten rides of Porto. -/
def porto_catalog : Catalog :=
  { create_catalog with
    rides_array := porto_rides
    rides_in_city_hashtable := [("Porto", porto_rides)] }

/-- A ride of the city Braga on day `k` of January 2023 with distance `100 * k`. -/
def braga_ride (k : Nat) : Ride :=
  { id := 100 + k, date := { year := 2023, month := 1, day := k }, driver_id := 2,
    user_username := "rui", city := "Braga", distance := 100 * k, score_user := 3,
    score_driver := 2, tip := 1, price := 7 }

/-- A catalog with the ten rides of Porto and three rides of Braga, both buckets and the ride
array sorted by date. -/
def two_city_catalog : Catalog :=
  { create_catalog with
    rides_array := [porto_ride 1, porto_ride 2, porto_ride 3, braga_ride 3, porto_ride 4,
      braga_ride 4, porto_ride 5, braga_ride 5, porto_ride 6, porto_ride 7, porto_ride 8,
      porto_ride 9, porto_ride 10]
    rides_in_city_hashtable :=
      [("Porto", porto_rides), ("Braga", [braga_ride 3, braga_ride 4, braga_ride 5])] }

/-! ## Ranking of the drivers of a city (`catalog.c`, lines 40-42 and 392-416) -/

/-- The C comparison `a < b` of two `double` values; a comparison with NaN is false. -/
def double_lt : Double → Double → Bool
  | Double.finite a, Double.finite b => decide (a < b)
  | Double.finite _, Double.inf negative => !negative
  | Double.inf negative, Double.finite _ => negative
  | Double.inf negative, Double.inf negative' => negative && !negative'
  | _, _ => false

/-- The C comparison `a > b` of two `double` values. -/
def double_gt (a b : Double) : Bool :=
  double_lt b a

/-- The function `driver_by_city_get_average_score`. -/
def driver_by_city_get_average_score (driver : DriverbyCity) : Double :=
  double_div (driver.accumulated_score : ℚ) (driver.amount_rides : ℚ)

/-- The function `compare_driver_in_city_by_score`. -/
def compare_driver_in_city_by_score (a b : DriverbyCity) : Int :=
  let average_score_a := driver_by_city_get_average_score a
  let average_score_b := driver_by_city_get_average_score b
  (if double_gt average_score_a average_score_b then 1 else 0) -
    (if double_lt average_score_a average_score_b then 1 else 0)

/-- The function `compare_driver_in_city_by_id`. -/
def compare_driver_in_city_by_id (a b : DriverbyCity) : Int :=
  let a_driver_id := driver_by_city_get_id a
  let b_driver_id := driver_by_city_get_id b
  gint_wrap (a_driver_id - b_driver_id)

/-- The function `glib_wrapper_compare_drivers_in_city_by_score`, on the two records that its
arguments point to. -/
def glib_wrapper_compare_drivers_in_city_by_score (a_driver b_driver : DriverbyCity) : Int :=
  let by_score := compare_driver_in_city_by_score b_driver a_driver
  if by_score ≠ 0 then by_score
  else compare_driver_in_city_by_id b_driver a_driver

/-- A record with at least one ride and an id that is a non-negative `int`. -/
def ranked_driver_by_city (driver : DriverbyCity) : Prop :=
  0 < driver.amount_rides ∧ 0 ≤ driver.id ∧ driver.id < 2 ^ 31

/-- The order of the ranking as the specification states it: the higher average score first,
and among equal average scores the higher id first. -/
def ranks_before (a b : DriverbyCity) : Prop :=
  double_gt (driver_by_city_get_average_score a) (driver_by_city_get_average_score b) = true ∨
    (driver_by_city_get_average_score a = driver_by_city_get_average_score b ∧ a.id > b.id)

/-- Three sample records: average scores 5, 4 and 4. -/
def sample_ranking : List DriverbyCity :=
  [{ id := 3, name := "Ivo", accumulated_score := 8, amount_rides := 2 },
    { id := 7, name := "Eva", accumulated_score := 4, amount_rides := 1 },
    { id := 5, name := "Ana", accumulated_score := 10, amount_rides := 2 }]

/-- The exact average score and the id of a record: what the comparator looks at. -/
def ranking_key (driver : DriverbyCity) : ℚ × Int :=
  ((driver.accumulated_score : ℚ) / (driver.amount_rides : ℚ), driver.id)

/-- The order of the ranking on keys: higher average first, then higher id; equal keys are
related both ways. -/
def ranking_key_before (k₁ k₂ : ℚ × Int) : Prop :=
  k₂.1 < k₁.1 ∨ (k₁.1 = k₂.1 ∧ k₂.2 ≤ k₁.2)

instance : DecidableRel ranking_key_before := fun k₁ k₂ => by
  unfold ranking_key_before; infer_instance

/-! ## The queries as operations on the memory (`catalog.c`, lines 225-351 and 477-485) -/

/-- The memory that a query works on: the catalog with the arrays, the tables and the objects
that it owns, and the two arrays that the caller of a top-N function owns and can pass as
`result`, one of pointers to users or drivers and one of pointers to records of a city. -/
structure Memory where
  catalog : Catalog
  result : List Nat
  result_in_city : List gpointer
deriving DecidableEq

/-- What an argument `GPtrArray *result` of pointers to users or drivers can point to: the
array of the caller, or one of the arrays of that kind of the catalog. -/
inductive ResultPointer
  | caller
  | users_array
  | drivers_array
deriving DecidableEq

/-- The call `g_ptr_array_add(result, data)` on the memory: the store goes to the array that
`result` points to. -/
def memory_g_ptr_array_add (memory : Memory) : ResultPointer → Nat → Memory
  | ResultPointer.caller, data =>
    { memory with result := g_ptr_array_add memory.result data }
  | ResultPointer.users_array, data =>
    { memory with
      catalog := { memory.catalog with
        users_array := g_ptr_array_add memory.catalog.users_array data } }
  | ResultPointer.drivers_array, data =>
    { memory with
      catalog := { memory.catalog with
        drivers_array := g_ptr_array_add memory.catalog.drivers_array data } }

/-- What the argument `GPtrArray *result` of `catalog_get_top_n_drivers_in_city` can point to:
the array of the caller, or one of the arrays of rides of the catalog. -/
inductive ResultInCityPointer
  | caller
  | rides_array
  | rides_in_city (city : String)
deriving DecidableEq

/-- The call `g_ptr_array_add(result, driver)` of `catalog_get_top_n_drivers_in_city` on the
memory, `driver` being an element of a bucket of rides: the store goes to the array that
`result` points to; the bucket of a city without a bucket is `NULL`, to which nothing is
added. -/
def memory_g_ptr_array_add_in_city (memory : Memory) : ResultInCityPointer → Ride → Memory
  | ResultInCityPointer.caller, driver =>
    { memory with
      result_in_city := g_ptr_array_add memory.result_in_city (gpointer.ride driver) }
  | ResultInCityPointer.rides_array, driver =>
    { memory with
      catalog := { memory.catalog with
        rides_array := g_ptr_array_add memory.catalog.rides_array driver } }
  | ResultInCityPointer.rides_in_city city, driver =>
    match g_hash_table_lookup memory.catalog.rides_in_city_hashtable city with
    | none => memory
    | some rides_in_city =>
      { memory with
        catalog := { memory.catalog with
          rides_in_city_hashtable :=
            g_hash_table_insert memory.catalog.rides_in_city_hashtable city
              (g_ptr_array_add rides_in_city driver) } }

/-- The function `catalog_get_user` on the memory: one call of `g_hash_table_lookup`, which
reads. -/
def catalog_get_user_on_memory (memory : Memory) (username : String) :
    Option (Memory × Option Nat) :=
  some (memory, g_hash_table_lookup memory.catalog.user_from_username_hashtable username)

/-- The function `catalog_get_driver` on the memory: one call of `g_hash_table_lookup`, which
reads. -/
def catalog_get_driver_on_memory (memory : Memory) (id : Int) : Option (Memory × Option Nat) :=
  some (memory, g_hash_table_lookup memory.catalog.driver_from_id_hashtable id)

/-- The function `catalog_get_average_price_in_city` on the memory: the lookup of the bucket
and the loop read; the stores of the function go to its local variables. -/
def catalog_get_average_price_in_city_on_memory (memory : Memory) (city : String) :
    Option (Memory × Double) :=
  match g_hash_table_lookup memory.catalog.rides_in_city_hashtable city with
  | none => some (memory, Double.finite 0)
  | some rides => do
    let total_price ← catalog_get_average_price_in_city_loop rides 0 0
    some (memory, double_div total_price (rides.length : ℚ))

/-- The function `catalog_get_average_price_in_date_range` on the memory: the binary search
and the loop read; the stores of the function go to its local variables. -/
def catalog_get_average_price_in_date_range_on_memory (memory : Memory)
    (start_date end_date : Date) : Option (Memory × Double) := do
  let rides := memory.catalog.rides_array
  let current_value_index ← ride_array_find_date_lower_bound rides start_date
  let (total_price, rides_count) ←
    catalog_get_average_price_in_date_range_loop rides end_date current_value_index 0 0
  some (memory,
    if rides_count ≠ 0 then double_div total_price (rides_count : ℚ) else Double.finite 0)

/-- The function `catalog_get_average_distance_in_city_by_date` on the memory: the lookup of
the bucket, the binary search and the loop read; the stores of the function go to its local
variables. -/
def catalog_get_average_distance_in_city_by_date_on_memory (memory : Memory)
    (start_date end_date : Date) (city : String) : Option (Memory × Double) :=
  match g_hash_table_lookup memory.catalog.rides_in_city_hashtable city with
  | none => some (memory, Double.finite 0)
  | some rides_in_city => do
    let current_value_index ← ride_array_find_date_lower_bound rides_in_city start_date
    let (total_distance, ride_count) ←
      catalog_get_average_distance_in_city_by_date_loop rides_in_city end_date
        current_value_index 0 0
    some (memory,
      if ride_count ≠ 0 then double_div total_distance (ride_count : ℚ) else Double.finite 0)

/-- The loop of `catalog_get_top_drivers_with_best_score` on the memory: each iteration reads
`catalog->drivers_array` in the memory as it is then and stores through `result`. -/
def catalog_get_top_drivers_with_best_score_on_memory_loop (length : Int)
    (result : ResultPointer) (i : Nat) (memory : Memory) : Option Memory :=
  if (i : Int) < length then
    match g_ptr_array_index memory.catalog.drivers_array i with
    | none => none
    | some driver =>
      catalog_get_top_drivers_with_best_score_on_memory_loop length result (i + 1)
        (memory_g_ptr_array_add memory result driver)
  else
    some memory
termination_by (length - i).toNat
decreasing_by
  all_goals simp_wf
  all_goals omega

/-- The function `catalog_get_top_drivers_with_best_score` on the memory: the memory after
the call and the returned `int`. -/
def catalog_get_top_drivers_with_best_score_on_memory (memory : Memory) (n : Int)
    (result : ResultPointer) : Option (Memory × Int) := do
  let length := min n (gint_of_guint memory.catalog.drivers_array.length)
  let memory ← catalog_get_top_drivers_with_best_score_on_memory_loop length result 0 memory
  some (memory, length)

/-- The loop of `catalog_get_top_users_with_longest_total_distance` on the memory: each
iteration reads `catalog->users_array` in the memory as it is then and stores through
`result`. -/
def catalog_get_top_users_with_longest_total_distance_on_memory_loop (n : Int)
    (result : ResultPointer) (i : Nat) (memory : Memory) : Option Memory :=
  if (i : Int) < n then
    match g_ptr_array_index memory.catalog.users_array i with
    | none => none
    | some user =>
      catalog_get_top_users_with_longest_total_distance_on_memory_loop n result (i + 1)
        (memory_g_ptr_array_add memory result user)
  else
    some memory
termination_by (n - i).toNat
decreasing_by
  all_goals simp_wf
  all_goals omega

/-- The function `catalog_get_top_users_with_longest_total_distance` on the memory: the
memory after the call and the returned `int`. -/
def catalog_get_top_users_with_longest_total_distance_on_memory (memory : Memory) (n : Int)
    (result : ResultPointer) : Option (Memory × Int) := do
  let length := min n (gint_of_guint memory.catalog.users_array.length)
  let memory ←
    catalog_get_top_users_with_longest_total_distance_on_memory_loop n result 0 memory
  some (memory, length)

/-- The loop of `catalog_get_top_n_drivers_in_city` on the memory: `top_drivers_in_city`
points to the bucket of rides of the city, which each iteration reads in the memory as it
is then, and the store goes through `result`. -/
def catalog_get_top_n_drivers_in_city_on_memory_loop (city : String) (bound : Nat)
    (result : ResultInCityPointer) (i : Nat) (memory : Memory) : Option Memory :=
  if i < bound then
    match g_hash_table_lookup memory.catalog.rides_in_city_hashtable city with
    | none => none
    | some top_drivers_in_city =>
      match g_ptr_array_index top_drivers_in_city i with
      | none => none
      | some driver =>
        catalog_get_top_n_drivers_in_city_on_memory_loop city bound result (i + 1)
          (memory_g_ptr_array_add_in_city memory result driver)
  else
    some memory
termination_by bound - i
decreasing_by
  all_goals simp_wf
  all_goals omega

/-- The function `catalog_get_top_n_drivers_in_city` on the memory: the memory after the
call; the function returns no value. -/
def catalog_get_top_n_drivers_in_city_on_memory (memory : Memory) (n : Int) (city : String)
    (result : ResultInCityPointer) : Option (Memory × Unit) :=
  match g_hash_table_lookup memory.catalog.rides_in_city_hashtable city with
  | none => some (memory, ())
  | some _ => do
    let memory ←
      catalog_get_top_n_drivers_in_city_on_memory_loop city (guint_of_gint n) result 0 memory
    some (memory, ())

/-- A query that only reads: whenever it returns, the memory is as it was before the call,
and asked again it returns the same answer. -/
def reads_only {α : Type} (query : Memory → Option (Memory × α)) : Prop :=
  ∀ memory after answer, query memory = some (after, answer) →
    after = memory ∧ query after = some (after, answer)

/-- A query that stores to an array of the caller only: whenever it returns, the catalog is as
it was before the call and the array of the caller has got some elements at its end; asked
again on the memory that it has left, it returns the same answer, leaves the catalog as it
was and adds the same elements to the array once more. -/
def adds_to_result_only {α β : Type} (array : Memory → List β)
    (query : Memory → Option (Memory × α)) : Prop :=
  ∀ memory after answer, query memory = some (after, answer) →
    after.catalog = memory.catalog ∧
      ∃ added again, array after = array memory ++ added ∧
        query after = some (again, answer) ∧ again.catalog = memory.catalog ∧
        array again = array after ++ added

/-- A sample comparison of rides by distance, the longer distance first. -/
def sample_compare_rides_by_distance (a b : Ride) : Int :=
  b.distance - a.distance

/-! ## Query execution (`queries.c`) -/

/-- Modelled from the spec: `user_get_average_score` of `user.h` (not part of the sources at
hand), the accumulated score divided by the number of rides. -/
def user_get_average_score (user : User) : Double :=
  double_div (user.accumulated_score : ℚ) (user.number_of_rides : ℚ)

/-- Modelled from the spec: `driver_get_average_score` of `driver.h` (not part of the sources
at hand), the accumulated score divided by the number of rides. -/
def driver_get_average_score (driver : Driver) : Double :=
  double_div (driver.accumulated_score : ℚ) (driver.number_of_rides : ℚ)

/-- What a query writes to its output: a line of `fprintf_debug`, or a result line, held by
the values that `fprintf` formats. -/
inductive OutputLine
  | debug (message : String)
  | profile (name : String) (gender : Gender) (age : Int) (average_score : Double)
      (number_of_rides : Int) (total : ℚ)
  | top_driver (id : Int) (name : String) (average_score : Double)
deriving DecidableEq

/-- Whether an output line is a result line. -/
def OutputLine.is_result : OutputLine → Bool
  | OutputLine.debug _ => false
  | _ => true

/-- The function `fprintf_debug`: the message when the macro `DEBUG` is defined, nothing
otherwise. -/
def fprintf_debug (debug : Bool) (message : String) : List OutputLine :=
  if debug then [OutputLine.debug message] else []

/-- The function `execute_query_find_user_by_name`: the lines written. The function `get_age`
(not part of the sources at hand) is a parameter. -/
def execute_query_find_user_by_name (debug : Bool) (get_age : Date → Int) (catalog : Catalog)
    (username : String) : Option (List OutputLine) :=
  match catalog_get_user catalog username with
  | none => some (fprintf_debug debug ("User " ++ username ++ " not found\n"))
  | some pointer => do
    let user ← catalog.user_heap[pointer]?
    if user.account_status = AccountStatus.INACTIVE then
      some (fprintf_debug debug ("User " ++ username ++ " is inactive\n"))
    else
      some [OutputLine.profile user.name user.gender (get_age user.birthdate)
        (user_get_average_score user) user.number_of_rides user.total_spent]

/-- The C function `isspace` in the C locale: the space and the characters 9 to 13. -/
def isspace (c : Char) : Bool :=
  decide (c.toNat = 32) || (decide (9 ≤ c.toNat) && decide (c.toNat ≤ 13))

/-- Whether a character is a decimal digit. -/
def isdigit (c : Char) : Bool :=
  decide (48 ≤ c.toNat) && decide (c.toNat ≤ 57)

/-- The digits at the front of a string: their value on top of `value`, and the rest of the
string. -/
def strtol_digits : List Char → Int → Int × List Char
  | [], value => (value, [])
  | c :: rest, value =>
    if isdigit c then strtol_digits rest (value * 10 + ((c.toNat : Int) - 48))
    else (value, c :: rest)

/-- The C function `strtol(nptr, &endptr, 10)` with a 64-bit `long`: the value and the
string that `endptr` points to. White space is skipped, a sign is optional; without a digit
the value is 0 and `endptr` is `nptr`; a value outside `long` is clamped. -/
def strtol (nptr : List Char) : Int × List Char :=
  let after_space := nptr.dropWhile isspace
  let negative := decide (after_space.head?.map Char.toNat = some 45)
  let after_sign :=
    if after_space.head?.map Char.toNat = some 45 ∨ after_space.head?.map Char.toNat = some 43
    then after_space.tail else after_space
  match after_sign with
  | [] => (0, nptr)
  | c :: _ =>
    if isdigit c then
      let parsed := strtol_digits after_sign 0
      let value := if negative then -parsed.1 else parsed.1
      (max (-(2 ^ 63)) (min value (2 ^ 63 - 1)), parsed.2)
    else (0, nptr)

/-- Modelled from the spec: `catalog_get_top_n_drivers` of `catalog.h`, which `queries.c` calls
and `catalog.c` does not define: it appends to the result the first `n` drivers of the
ranking, or all of them when there are fewer. -/
def catalog_get_top_n_drivers (catalog : Catalog) (n : Int) (result : List Nat) : List Nat :=
  result ++ catalog.drivers_array.take n.toNat

/-- The loop `for (int i = 0; i < n; i++)` of `execute_query_top_n_drivers`: the lines written
so far are `output`. -/
def execute_query_top_n_drivers_loop (catalog : Catalog) (result : List Nat) (n : Int)
    (i : Nat) (output : List OutputLine) : Option (List OutputLine) :=
  if (i : Int) < n then
    match g_ptr_array_index result i with
    | none => none
    | some pointer =>
      match catalog.driver_heap[pointer]? with
      | none => none
      | some driver =>
        execute_query_top_n_drivers_loop catalog result n (i + 1)
          (output ++ [OutputLine.top_driver driver.id driver.name
            (driver_get_average_score driver)])
  else
    some output
termination_by (n - i).toNat
decreasing_by
  all_goals simp_wf
  all_goals omega

/-- The function `execute_query_top_n_drivers`: the lines written; `args[0]` is the first
string of `args`. -/
def execute_query_top_n_drivers (debug : Bool) (catalog : Catalog) (args : List String) :
    Option (List OutputLine) := do
  let argument ← args[0]?
  let parsed := strtol argument.data
  let n := gint_wrap parsed.1
  let end_ptr := parsed.2
  if end_ptr ≠ [] then
    some (fprintf_debug debug ("Couldn\x27t parse number of drivers \x27" ++ argument ++ "\x27\n"))
  else
    let result : List Nat := []
    let result := catalog_get_top_n_drivers catalog n result
    execute_query_top_n_drivers_loop catalog result n 0 []

/-! ## The end of the loading phase (`catalog.c`, lines 385-475) -/

/-- The loop `for (guint i = 0; gptr_array_hash_table_keys->len; i++)` of
`alter_hash_to_gptr_array`. The condition of the loop is the length of the array of keys;
the key that is looked up is the pointer to that array itself, at whose address the hash
function of the table reads some `int`, `key_read`. The first argument bounds the number
of iterations that are followed: `none` when the loop has not ended within them. -/
def alter_hash_to_gptr_array_loop (hastable : GHashTable Int DriverbyCity)
    (gptr_array_hash_table_keys : List Int) (key_read : Int) :
    Nat → Nat → List (Option DriverbyCity) → Option (List (Option DriverbyCity))
  | 0, _, _ => none
  | fuel + 1, i, gptr_array_hash_table_values =>
    if gptr_array_hash_table_keys.length ≠ 0 then
      alter_hash_to_gptr_array_loop hastable gptr_array_hash_table_keys key_read fuel
        ((i + 1) % 2 ^ 32)
        (g_ptr_array_add gptr_array_hash_table_values (g_hash_table_lookup hastable key_read))
    else
      some gptr_array_hash_table_values

/-- The function `alter_hash_to_gptr_array`. The function `g_hash_table_get_keys_as_array`
returns an array of the keys that ends with a `NULL`, and line 435 reads the first element of
that array as the pointer `gptr_array_hash_table_keys`. For a table without a key that
element is the `NULL` at the end, and the condition of the loop reads `->len` through it: a
fault, `none`. For a table with a key the pointer is read as its declaration says, as an
array that holds the keys of the table; what the cast does to the memory in that case is
not modelled. -/
def alter_hash_to_gptr_array (fuel : Nat) (key_read : Int)
    (hastable : GHashTable Int DriverbyCity) : Option (List (Option DriverbyCity)) :=
  match hastable.map (fun entry => entry.1) with
  | [] => none
  | key :: keys =>
    let gptr_array_hash_table_keys := key :: keys
    alter_hash_to_gptr_array_loop hastable gptr_array_hash_table_keys key_read fuel 0 []

/-- The function `glib_wrapper_alter_hash_to_gptr_array`: the value of the city after the call.
The argument is read as the `GHashArray` of the city, as the declaration of `value` says;
what the cast of line 452 does to the memory is not modelled. A value that is already an
array cannot be used as a table (`none`). -/
def glib_wrapper_alter_hash_to_gptr_array (fuel : Nat) (key_read : Int) :
    GHashArray → Option GHashArray
  | GHashArray.drivers_in_city_hash hash =>
    match alter_hash_to_gptr_array fuel key_read hash with
    | none => none
    | some gptr_array_values => some (GHashArray.drivers_in_city_array gptr_array_values)
  | GHashArray.drivers_in_city_array _ => none

/-- The function `g_hash_table_foreach` with a callback that changes the value it is given and
may not return: the table after all the calls, made in the order of the entries. -/
def g_hash_table_foreach_update {K V : Type} (callback : V → Option V) :
    GHashTable K V → Option (GHashTable K V)
  | [] => some []
  | (k, v) :: rest =>
    match callback v with
    | none => none
    | some v' =>
      match g_hash_table_foreach_update callback rest with
      | none => none
      | some rest' => some ((k, v') :: rest')

/-- The function `hash_table_sort_array_values_by_date`; the comparison
`glib_wrapper_compare_rides_by_date` of `catalog_sort.h` (not part of the sources at hand) is a
parameter. -/
def hash_table_sort_array_values_by_date
    (glib_wrapper_compare_rides_by_date : Ride → Ride → Int) (value : List Ride) : List Ride :=
  g_ptr_array_sort glib_wrapper_compare_rides_by_date value

/-- The function `hash_table_sort_array_values_by_score`: the value after the call. The
comparator reads the records that the elements point to, so an array of two or more
elements with a `NULL` among them, and a value that is a table, are faults. -/
def hash_table_sort_array_values_by_score : GHashArray → Option GHashArray
  | GHashArray.drivers_in_city_array array =>
    match array.mapM (fun element => element) with
    | some records =>
      some (GHashArray.drivers_in_city_array
        ((g_ptr_array_sort glib_wrapper_compare_drivers_in_city_by_score records).map some))
    | none => if array.length < 2 then some (GHashArray.drivers_in_city_array array) else none
  | GHashArray.drivers_in_city_hash _ => none

/-- A comparison of two objects, applied to two pointers into a heap; a pointer of an array of
the catalog always points into its heap. -/
def compare_through {α : Type} (heap : List α) (compare : α → α → Int) (a b : Nat) : Int :=
  match heap[a]?, heap[b]? with
  | some x, some y => compare x y
  | _, _ => 0

/-- The function `notify_stop_registering`: the catalog after the call, `none` when the call
faults or has not returned within `fuel` iterations of a conversion loop. The comparisons of
`catalog_sort.h` (not part of the sources at hand) are parameters. -/
def notify_stop_registering (fuel : Nat) (key_read : Int)
    (glib_wrapper_compare_drivers_by_score : Driver → Driver → Int)
    (glib_wrapper_compare_users_by_total_distance : User → User → Int)
    (glib_wrapper_compare_rides_by_date : Ride → Ride → Int) (catalog : Catalog) :
    Option Catalog := do
  let drivers_in_city ←
    g_hash_table_foreach_update (glib_wrapper_alter_hash_to_gptr_array fuel key_read)
      catalog.drivers_in_city
  let catalog := { catalog with drivers_in_city := drivers_in_city }
  let catalog := { catalog with
    drivers_array := g_ptr_array_sort
      (compare_through catalog.driver_heap glib_wrapper_compare_drivers_by_score)
      catalog.drivers_array }
  let catalog := { catalog with
    users_array := g_ptr_array_sort
      (compare_through catalog.user_heap glib_wrapper_compare_users_by_total_distance)
      catalog.users_array }
  let catalog := { catalog with
    rides_array := g_ptr_array_sort glib_wrapper_compare_rides_by_date catalog.rides_array }
  let catalog := { catalog with
    rides_in_city_hashtable :=
      List.map (fun (entry : String × List Ride) =>
        (entry.1, hash_table_sort_array_values_by_date glib_wrapper_compare_rides_by_date entry.2))
        catalog.rides_in_city_hashtable }
  let drivers_in_city ←
    g_hash_table_foreach_update hash_table_sort_array_values_by_score catalog.drivers_in_city
  some { catalog with drivers_in_city := drivers_in_city }

/-! ## What a loading phase has registered -/

/-- The usernames that a list of calls registers. -/
def usernames_of_calls : List Registration → List String
  | [] => []
  | Registration.user user :: rest => user.username :: usernames_of_calls rest
  | _ :: rest => usernames_of_calls rest

/-- The driver ids that a list of calls registers. -/
def driver_ids_of_calls : List Registration → List Int
  | [] => []
  | Registration.driver driver :: rest => driver.id :: driver_ids_of_calls rest
  | _ :: rest => driver_ids_of_calls rest

/-- The name of the driver that a call registers under the id, or else the name so far. -/
def latest_driver_name_step (id : Int) (name : Option String) : Registration → Option String
  | Registration.driver driver => if driver.id = id then some driver.name else name
  | _ => name

/-- The name of the driver registered last under the id by a list of calls. -/
def latest_driver_name (calls : List Registration) (id : Int) : Option String :=
  calls.foldl (latest_driver_name_step id) none

/-- Whether a call registers a ride of the given city and driver. -/
def is_ride_of (city : String) (id : Int) : Registration → Bool
  | Registration.ride ride => decide (ride.city = city) && decide (ride.driver_id = id)
  | _ => false

/-- The rides of the given city and driver that a list of calls registers, in order. -/
def rides_of_city_and_driver (calls : List Registration) (city : String) (id : Int) :
    List Ride :=
  (rides_of_calls calls).filter
    (fun ride => decide (ride.city = city) && decide (ride.driver_id = id))

/-- The name of the driver registered last under the id before the first ride of the given
city and driver. -/
def driver_name_at_first_ride (calls : List Registration) (city : String) (id : Int) :
    Option String :=
  latest_driver_name (calls.takeWhile (fun call => !is_ride_of city id call)) id

/-- What the record of a city and a driver must be after a list of calls: none without a ride
of that city and driver, and otherwise a record that counts those rides, adds up their
driver scores in the 32 bits of its `int` field and has the name of the driver at the first
of them. -/
def driver_by_city_matches (calls : List Registration) (city : String) (id : Int) :
    Option DriverbyCity → Prop
  | none => rides_of_city_and_driver calls city id = []
  | some record =>
    rides_of_city_and_driver calls city id ≠ [] ∧ record.id = id ∧
      some record.name = driver_name_at_first_ride calls city id ∧
      record.accumulated_score =
        gint_wrap
          ((rides_of_city_and_driver calls city id).map (fun ride => ride.score_driver)).sum ∧
      record.amount_rides = ((rides_of_city_and_driver calls city id).length : Int)

/-- Invariant of the loading phase that refers to the calls made so far. -/
structure HistoryInvariant (calls : List Registration) (catalog : Catalog) : Prop where
  loading : LoadingInvariant catalog
  user_registered : ∀ username,
    (catalog_get_user catalog username).isSome = true ↔ username ∈ usernames_of_calls calls
  user_object : ∀ username pointer, catalog_get_user catalog username = some pointer →
    ∃ user, catalog.user_heap[pointer]? = some user ∧ user.username = username
  driver_registered : ∀ id,
    (catalog_get_driver catalog id).isSome = true ↔ id ∈ driver_ids_of_calls calls
  driver_object : ∀ id pointer, catalog_get_driver catalog id = some pointer →
    ∃ driver, catalog.driver_heap[pointer]? = some driver ∧ driver.id = id ∧
      some driver.name = latest_driver_name calls id
  records : ∀ city id,
    driver_by_city_matches calls city id
      (g_hash_table_lookup (drivers_in_city_hash_of catalog city) id)

/-- A sample loading phase in which the driver id 1 is registered a second time, under another
name, between two rides of that driver in Porto. -/
def renamed_driver_calls : List Registration :=
  [Registration.user (sample_user "ana"), Registration.driver (sample_driver 1 "Eva"),
    Registration.ride (sample_ride 1 1 1 "ana" "Porto"),
    Registration.driver (sample_driver 1 "Ema"),
    Registration.ride (sample_ride 2 2 1 "ana" "Porto")]

/-! ## The binary search with the indices it reads -/

/-- The loop of `ride_array_find_date_lower_bound` with a record of its iterations: for each
iteration the values of `low`, `mid` and `high` with which the array is read, in order, and
then the result of the loop. -/
def ride_array_find_date_lower_bound_trace (array : List Ride) (date : Date)
    (low high : Nat) : List (Nat × Nat × Nat) × Option Nat :=
  if low < high then
    let mid := low + (high - low) / 2
    match g_ptr_array_index array mid with
    | none => ([(low, mid, high)], none)
    | some ride =>
      if date_compare date ride.date ≤ 0 then
        ((low, mid, high) :: (ride_array_find_date_lower_bound_trace array date low mid).1,
          (ride_array_find_date_lower_bound_trace array date low mid).2)
      else
        ((low, mid, high) ::
            (ride_array_find_date_lower_bound_trace array date (mid + 1) high).1,
          (ride_array_find_date_lower_bound_trace array date (mid + 1) high).2)
  else
    ([], some low)
termination_by high - low
decreasing_by
  all_goals simp_wf
  all_goals omega

/-- Three rides that are not in the order of their dates: days 9, 2 and 5. -/
def unsorted_rides : List Ride :=
  [porto_ride 9, porto_ride 2, porto_ride 5]

/-- A sample record of a driver with the given id. -/
def driver_by_city_with_id (id : Int) : DriverbyCity :=
  { id := id, name := "Eva", accumulated_score := 5, amount_rides := 1 }

/-- The catalog at the end of the sample loading phase. -/
def loaded_sample_catalog : Catalog :=
  (register_all sample_compute_price create_catalog sample_calls).getD create_catalog

/-- The memory at the end of the sample loading phase, the arrays of the caller being empty. -/
def loaded_sample_memory : Memory :=
  { catalog := loaded_sample_catalog, result := [], result_in_city := [] }

/-- Every record of every driver map of the catalog has at least one ride. -/
def records_have_rides (catalog : Catalog) : Prop :=
  ∀ city value, (city, value) ∈ catalog.drivers_in_city →
    ∀ hash, value = GHashArray.drivers_in_city_hash hash →
      ∀ id record, (id, record) ∈ hash → 1 ≤ record.amount_rides

/-! # Theorems -/

/-! ## Facts about `date_compare` -/

theorem date_compare_self (a : Date) : date_compare a a = 0 := by
  simp [date_compare]

theorem date_compare_lt_iff_gt (a b : Date) : date_compare a b < 0 ↔ 0 < date_compare b a := by
  unfold date_compare
  split_ifs <;> omega

theorem date_compare_le_iff_ge (a b : Date) : date_compare a b ≤ 0 ↔ 0 ≤ date_compare b a := by
  unfold date_compare
  split_ifs <;> omega

theorem date_compare_le_trans {a b c : Date} (h₁ : date_compare a b ≤ 0)
    (h₂ : date_compare b c ≤ 0) : date_compare a c ≤ 0 := by
  unfold date_compare at *
  split_ifs at * <;> omega

theorem date_compare_lt_of_lt_of_le {a b c : Date} (h₁ : date_compare a b < 0)
    (h₂ : date_compare b c ≤ 0) : date_compare a c < 0 := by
  unfold date_compare at *
  split_ifs at * <;> omega

theorem date_compare_lt_of_le_of_lt {a b c : Date} (h₁ : date_compare a b ≤ 0)
    (h₂ : date_compare b c < 0) : date_compare a c < 0 := by
  unfold date_compare at *
  split_ifs at * <;> omega

/-- In a date-sorted sequence the element at an earlier position is not after the element
at a later one. -/
theorem sorted_by_date_get {array : List Ride} (h : sorted_by_date array) {i j : Nat}
    {a b : Ride} (hij : i ≤ j) (ha : array[i]? = some a) (hb : array[j]? = some b) :
    date_compare a.date b.date ≤ 0 := by
  rcases Nat.eq_or_lt_of_le hij with heq | hlt
  · subst heq
    rw [ha] at hb
    cases hb
    rw [date_compare_self]
  · obtain ⟨hi, rfl⟩ := List.getElem?_eq_some.mp ha
    obtain ⟨hj, rfl⟩ := List.getElem?_eq_some.mp hb
    exact (List.pairwise_iff_getElem.mp h) i j hi hj hlt

/-- Invariant of the binary search: started with every element before `low` before the
target date and every element from `high` on not before it, the loop ends with an index
that splits the whole sequence in that way. -/
theorem ride_array_find_date_lower_bound_loop_spec (array : List Ride) (date : Date)
    (hs : sorted_by_date array) :
    ∀ (n low high : Nat), high - low = n → low ≤ high → high ≤ array.length →
      (∀ j r, j < low → array[j]? = some r → date_compare r.date date < 0) →
      (∀ j r, high ≤ j → array[j]? = some r → 0 ≤ date_compare r.date date) →
      ∃ i, ride_array_find_date_lower_bound_loop array date low high = some i ∧
        i ≤ array.length ∧
        (∀ j r, j < i → array[j]? = some r → date_compare r.date date < 0) ∧
        (∀ j r, i ≤ j → array[j]? = some r → 0 ≤ date_compare r.date date) := by
  intro n
  induction n using Nat.strong_induction_on with
  | _ n ih =>
    intro low high hn hle hlen hlow hhigh
    rw [ride_array_find_date_lower_bound_loop]
    by_cases hlt : low < high
    · have hmid : low + (high - low) / 2 < array.length := by omega
      simp only [hlt, if_true, g_ptr_array_index, List.getElem?_eq_getElem hmid]
      have hget : array[low + (high - low) / 2]? = some array[low + (high - low) / 2] :=
        List.getElem?_eq_getElem hmid
      by_cases hc : date_compare date array[low + (high - low) / 2].date ≤ 0
      · simp only [hc, if_true]
        refine ih (low + (high - low) / 2 - low) (by omega) low _ rfl (by omega) (by omega)
          hlow ?_
        intro j r hj hr
        have h1 := sorted_by_date_get hs hj hget hr
        have h2 := date_compare_le_trans hc h1
        exact (date_compare_le_iff_ge _ _).mp h2
      · simp only [hc, if_false]
        refine ih (high - (low + (high - low) / 2 + 1)) (by omega) _ high rfl (by omega) hlen
          ?_ hhigh
        intro j r hj hr
        have h1 := sorted_by_date_get hs (Nat.lt_succ_iff.mp hj) hr hget
        have h2 : date_compare array[low + (high - low) / 2].date date < 0 :=
          (date_compare_lt_iff_gt _ _).mpr (not_le.mp hc)
        exact date_compare_lt_of_le_of_lt h1 h2
    · have : low = high := by omega
      subst this
      simp only [hlt, if_false]
      exact ⟨low, rfl, hlen, hlow, hhigh⟩

/-- Claim C1. On a ride sequence sorted by date ascending, `ride_array_find_date_lower_bound`
returns an index `i` with `i ≤ length` such that every element before `i` has a date
before the target and every element from `i` on has a date equal to or after the target;
when no element has a date equal to or after the target, `i` is the length. -/
theorem C1_lower_bound_correct (array : List Ride) (date : Date)
    (hs : sorted_by_date array) :
    ∃ i, ride_array_find_date_lower_bound array date = some i ∧
      i ≤ array.length ∧
      (∀ j r, j < i → array[j]? = some r → date_compare r.date date < 0) ∧
      (∀ j r, i ≤ j → array[j]? = some r → 0 ≤ date_compare r.date date) ∧
      ((∀ r ∈ array, date_compare r.date date < 0) → i = array.length) := by
  obtain ⟨i, hi, hlen, hbefore, hafter⟩ :=
    ride_array_find_date_lower_bound_loop_spec array date hs array.length 0 array.length rfl
      (Nat.zero_le _) le_rfl (fun j r hj _ => absurd hj (Nat.not_lt_zero j))
      (fun j r hj hr => by
        have := (List.getElem?_eq_some.mp hr).1
        omega)
  refine ⟨i, hi, hlen, hbefore, hafter, ?_⟩
  intro hall
  by_contra hne
  have hlt : i < array.length := lt_of_le_of_ne hlen hne
  have h1 := hafter i array[i] le_rfl (List.getElem?_eq_getElem hlt)
  have h2 := hall array[i] (List.getElem_mem hlt)
  omega

/-- The lower bound splits a date-sorted sequence: the rides before the returned index are
before the target date, the rides from it on are not. -/
theorem ride_array_find_date_lower_bound_split (array : List Ride) (date : Date)
    (hs : sorted_by_date array) :
    ∃ i, ride_array_find_date_lower_bound array date = some i ∧ i ≤ array.length ∧
      (∀ r ∈ array.take i, date_compare r.date date < 0) ∧
      (∀ r ∈ array.drop i, 0 ≤ date_compare r.date date) := by
  obtain ⟨i, hi, hlen, hbefore, hafter⟩ :=
    ride_array_find_date_lower_bound_loop_spec array date hs array.length 0 array.length rfl
      (Nat.zero_le _) le_rfl (fun j r hj _ => absurd hj (Nat.not_lt_zero j))
      (fun j r hj hr => by
        have := (List.getElem?_eq_some.mp hr).1
        omega)
  refine ⟨i, hi, hlen, ?_, ?_⟩
  · intro r hr
    obtain ⟨n, hn⟩ := List.mem_iff_getElem?.mp hr
    rw [List.getElem?_take] at hn
    by_cases hlt : n < i
    · rw [if_pos hlt] at hn
      exact hbefore n r hlt hn
    · rw [if_neg hlt] at hn
      cases hn
  · intro r hr
    obtain ⟨n, hn⟩ := List.mem_iff_getElem?.mp hr
    rw [List.getElem?_drop] at hn
    exact hafter (i + n) r (Nat.le_add_right i n) hn

/-- On a date-sorted sequence, keeping the rides not after `end_date` is the same as taking
rides from the front until the first one after `end_date`. -/
theorem filter_eq_takeWhile_of_sorted (end_date : Date) :
    ∀ (l : List Ride), sorted_by_date l →
      l.filter (fun r => decide (date_compare r.date end_date ≤ 0)) =
        l.takeWhile (fun r => decide (date_compare r.date end_date ≤ 0))
  | [], _ => rfl
  | a :: t, hs => by
    have hs' : sorted_by_date t := (List.pairwise_cons.mp hs).2
    have hat := (List.pairwise_cons.mp hs).1
    by_cases ha : date_compare a.date end_date ≤ 0
    · simp only [List.filter_cons, List.takeWhile_cons, ha, decide_True, if_true]
      rw [filter_eq_takeWhile_of_sorted end_date t hs']
    · simp only [List.filter_cons, List.takeWhile_cons, ha, decide_False]
      simp only [Bool.false_eq_true, if_false]
      apply List.filter_eq_nil_iff.mpr
      intro b hb
      simp only [decide_eq_true_eq]
      intro hbe
      exact ha (date_compare_le_trans (hat b hb) hbe)

/-- The rides of a date-sorted sequence that lie in a date range are the rides from the lower
bound of the start date up to the first ride after the end date. -/
theorem rides_in_date_range_eq_takeWhile (array : List Ride) (start_date end_date : Date)
    (hs : sorted_by_date array) (i : Nat)
    (hbefore : ∀ r ∈ array.take i, date_compare r.date start_date < 0)
    (hafter : ∀ r ∈ array.drop i, 0 ≤ date_compare r.date start_date) :
    rides_in_date_range array start_date end_date =
      (array.drop i).takeWhile (fun r => decide (date_compare r.date end_date ≤ 0)) := by
  have hsd : sorted_by_date (array.drop i) :=
    List.Pairwise.sublist (List.drop_sublist i array) hs
  rw [← filter_eq_takeWhile_of_sorted end_date _ hsd]
  unfold rides_in_date_range
  conv_lhs => rw [← List.take_append_drop i array]
  rw [List.filter_append]
  have h1 : (array.take i).filter (fun ride => date_in_range start_date end_date ride.date)
      = [] := by
    apply List.filter_eq_nil_iff.mpr
    intro r hr
    have := (date_compare_lt_iff_gt _ _).mp (hbefore r hr)
    simp only [date_in_range, Bool.and_eq_true, decide_eq_true_eq, not_and]
    intro h
    omega
  rw [h1, List.nil_append]
  apply List.filter_congr
  intro r hr
  have := (date_compare_le_iff_ge _ _).mpr (hafter r hr)
  simp [date_in_range, this]

/-- The scan of `catalog_get_average_price_in_date_range` adds up the rides from the start
index up to the first ride after the end date. -/
theorem catalog_get_average_price_in_date_range_loop_eq (rides : List Ride) (end_date : Date) :
    ∀ (n i : Nat) (total_price : ℚ) (rides_count : Int), rides.length - i = n →
      catalog_get_average_price_in_date_range_loop rides end_date i total_price rides_count =
        some
          (total_price + (((rides.drop i).takeWhile
              (fun r => decide (date_compare r.date end_date ≤ 0))).map
                (fun ride => ride.price)).sum,
            rides_count + (((rides.drop i).takeWhile
              (fun r => decide (date_compare r.date end_date ≤ 0))).length : Int)) := by
  intro n
  induction n with
  | zero =>
    intro i total_price rides_count hn
    rw [catalog_get_average_price_in_date_range_loop]
    have hge : rides.length ≤ i := by omega
    simp [Nat.not_lt.mpr hge, List.drop_eq_nil_of_le hge]
  | succ n ih =>
    intro i total_price rides_count hn
    rw [catalog_get_average_price_in_date_range_loop]
    have hlt : i < rides.length := by omega
    rw [List.drop_eq_getElem_cons hlt]
    simp only [hlt, if_true, g_ptr_array_index, List.getElem?_eq_getElem hlt]
    by_cases hc : date_compare rides[i].date end_date > 0
    · have hc' : ¬ date_compare rides[i].date end_date ≤ 0 := by omega
      simp only [hc, if_true, List.takeWhile_cons, hc', decide_False, Bool.false_eq_true,
        if_false, List.map_nil, List.sum_nil, List.length_nil, add_zero, Int.ofNat_zero,
        Nat.cast_zero]
    · have hc' : date_compare rides[i].date end_date ≤ 0 := by omega
      simp only [hc, if_false]
      rw [ih (i + 1) _ _ (by omega)]
      simp only [List.takeWhile_cons, hc', decide_True, if_true, List.map_cons, List.sum_cons,
        List.length_cons]
      congr 2
      · ring
      · push_cast
        ring

/-- The binary search ends without a fault on every sequence, sorted or not, with an index
between the bounds it started from. -/
theorem ride_array_find_date_lower_bound_loop_total (array : List Ride) (date : Date) :
    ∀ (n low high : Nat), high - low = n → low ≤ high → high ≤ array.length →
      ∃ i, ride_array_find_date_lower_bound_loop array date low high = some i ∧
        low ≤ i ∧ i ≤ high := by
  intro n
  induction n using Nat.strong_induction_on with
  | _ n ih =>
    intro low high hn hle hlen
    rw [ride_array_find_date_lower_bound_loop]
    by_cases hlt : low < high
    · have hmid : low + (high - low) / 2 < array.length := by omega
      simp only [hlt, if_true, g_ptr_array_index, List.getElem?_eq_getElem hmid]
      by_cases hc : date_compare date array[low + (high - low) / 2].date ≤ 0
      · simp only [hc, if_true]
        obtain ⟨i, hi, h1, h2⟩ :=
          ih (low + (high - low) / 2 - low) (by omega) low _ rfl (by omega) (by omega)
        exact ⟨i, hi, h1, by omega⟩
      · simp only [hc, if_false]
        obtain ⟨i, hi, h1, h2⟩ :=
          ih (high - (low + (high - low) / 2 + 1)) (by omega) _ high rfl (by omega) hlen
        exact ⟨i, hi, by omega, h2⟩
    · simp only [hlt, if_false]
      exact ⟨low, rfl, le_rfl, hle⟩

/-- The function `ride_array_find_date_lower_bound` returns an index that is at most the length,
on every sequence. -/
theorem ride_array_find_date_lower_bound_total (array : List Ride) (date : Date) :
    ∃ i, ride_array_find_date_lower_bound array date = some i ∧ i ≤ array.length := by
  obtain ⟨i, hi, _, h2⟩ :=
    ride_array_find_date_lower_bound_loop_total array date array.length 0 array.length rfl
      (Nat.zero_le _) le_rfl
  exact ⟨i, hi, h2⟩

/-- The average price over a date range of a date-sorted ride sequence is the naive one. -/
theorem average_price_in_date_range_eq_naive (catalog : Catalog)
    (start_date end_date : Date) (hs : sorted_by_date catalog.rides_array) :
    catalog_get_average_price_in_date_range catalog start_date end_date =
      some (naive_average_price_in_date_range catalog.rides_array start_date end_date) := by
  obtain ⟨i, hi, _, hbefore, hafter⟩ :=
    ride_array_find_date_lower_bound_split catalog.rides_array start_date hs
  have hsel := rides_in_date_range_eq_takeWhile catalog.rides_array start_date end_date hs i
    hbefore hafter
  unfold catalog_get_average_price_in_date_range naive_average_price_in_date_range
  simp only [hi, Option.bind_eq_bind, Option.some_bind,
    catalog_get_average_price_in_date_range_loop_eq catalog.rides_array end_date _ i 0 0 rfl,
    hsel, zero_add]
  by_cases hz : ((catalog.rides_array.drop i).takeWhile
      (fun r => decide (date_compare r.date end_date ≤ 0))).length = 0
  · simp [hz]
  · have hq : ((((catalog.rides_array.drop i).takeWhile
        (fun r => decide (date_compare r.date end_date ≤ 0))).length : Int) : ℚ) ≠ 0 := by
      exact_mod_cast hz
    simp [hz, double_div, hq]

/-- Claim C2. On a catalog whose global ride sequence is sorted by date ascending,
`catalog_get_average_price_in_date_range` equals the naive definition: the sum of the prices
of exactly the rides with `start_date ≤ date ≤ end_date` divided by their number, or 0
when there are none; the rides that the naive definition selects are the rides of the
sequence whose date is neither before `start_date` nor after `end_date`. -/
theorem C2_average_price_in_date_range_refines_naive (catalog : Catalog)
    (start_date end_date : Date) (hs : sorted_by_date catalog.rides_array) :
    catalog_get_average_price_in_date_range catalog start_date end_date =
        some (naive_average_price_in_date_range catalog.rides_array start_date end_date) ∧
      ∀ ride, ride ∈ rides_in_date_range catalog.rides_array start_date end_date ↔
        ride ∈ catalog.rides_array ∧ date_compare start_date ride.date ≤ 0 ∧
          date_compare ride.date end_date ≤ 0 := by
  refine ⟨average_price_in_date_range_eq_naive catalog start_date end_date hs, ?_⟩
  intro ride
  simp only [rides_in_date_range, date_in_range, List.mem_filter, Bool.and_eq_true,
    decide_eq_true_eq]

/-- Witness of C2 and the scenario of the specification: ten rides dated 2023-01-01 to
2023-01-10 with prices 10, 20, ..., 100 and the range 2023-01-03 to 2023-01-05 give
(30 + 40 + 50) / 3 = 40. -/
theorem C2_average_price_in_date_range_witness :
    sorted_by_date porto_catalog.rides_array ∧
      catalog_get_average_price_in_date_range porto_catalog
        { year := 2023, month := 1, day := 3 } { year := 2023, month := 1, day := 5 } =
        some (Double.finite 40) :=
  ⟨by decide,
    (C2_average_price_in_date_range_refines_naive porto_catalog _ _ (by decide)).1.trans (by
      simp [naive_average_price_in_date_range, rides_in_date_range, date_in_range,
        porto_catalog, create_catalog, porto_rides, porto_ride, date_compare]
      norm_num)⟩

/-- Witness of C1: the lower bound of 2023-01-03 in the ten rides of Porto. -/
theorem C1_lower_bound_correct_witness :
    sorted_by_date porto_rides ∧
      ∃ i, ride_array_find_date_lower_bound porto_rides { year := 2023, month := 1, day := 3 }
          = some i ∧
        i ≤ porto_rides.length ∧
        (∀ j r, j < i → porto_rides[j]? = some r →
          date_compare r.date { year := 2023, month := 1, day := 3 } < 0) ∧
        (∀ j r, i ≤ j → porto_rides[j]? = some r →
          0 ≤ date_compare r.date { year := 2023, month := 1, day := 3 }) ∧
        ((∀ r ∈ porto_rides, date_compare r.date { year := 2023, month := 1, day := 3 } < 0) →
          i = porto_rides.length) :=
  ⟨by decide, C1_lower_bound_correct porto_rides _ (by decide)⟩

/-- The scan of `catalog_get_average_distance_in_city_by_date` adds up the rides from the
start index up to the first ride after the end date. -/
theorem catalog_get_average_distance_in_city_by_date_loop_eq (rides : List Ride)
    (end_date : Date) :
    ∀ (n i : Nat) (total_distance : ℚ) (ride_count : Int), rides.length - i = n →
      catalog_get_average_distance_in_city_by_date_loop rides end_date i total_distance
          ride_count =
        some
          (total_distance + (((rides.drop i).takeWhile
              (fun r => decide (date_compare r.date end_date ≤ 0))).map
                (fun ride => (ride.distance : ℚ))).sum,
            ride_count + (((rides.drop i).takeWhile
              (fun r => decide (date_compare r.date end_date ≤ 0))).length : Int)) := by
  intro n
  induction n with
  | zero =>
    intro i total_distance ride_count hn
    rw [catalog_get_average_distance_in_city_by_date_loop]
    have hge : rides.length ≤ i := by omega
    simp [Nat.not_lt.mpr hge, List.drop_eq_nil_of_le hge]
  | succ n ih =>
    intro i total_distance ride_count hn
    rw [catalog_get_average_distance_in_city_by_date_loop]
    have hlt : i < rides.length := by omega
    rw [List.drop_eq_getElem_cons hlt]
    simp only [hlt, if_true, g_ptr_array_index, List.getElem?_eq_getElem hlt]
    by_cases hc : date_compare rides[i].date end_date > 0
    · have hc' : ¬ date_compare rides[i].date end_date ≤ 0 := by omega
      simp only [hc, if_true, List.takeWhile_cons, hc', decide_False, Bool.false_eq_true,
        if_false, List.map_nil, List.sum_nil, List.length_nil, add_zero, Int.ofNat_zero,
        Nat.cast_zero]
    · have hc' : date_compare rides[i].date end_date ≤ 0 := by omega
      simp only [hc, if_false]
      rw [ih (i + 1) _ _ (by omega)]
      simp only [List.takeWhile_cons, hc', decide_True, if_true, List.map_cons, List.sum_cons,
        List.length_cons]
      congr 2
      · ring
      · push_cast
        ring

/-- The average distance over a date range in a city with a date-sorted bucket is the naive
one, computed on the bucket. -/
theorem average_distance_in_city_by_date_eq_naive (catalog : Catalog)
    (start_date end_date : Date) (city : String) (rides_in_city : List Ride)
    (hb : g_hash_table_lookup catalog.rides_in_city_hashtable city = some rides_in_city)
    (hs : sorted_by_date rides_in_city) :
    catalog_get_average_distance_in_city_by_date catalog start_date end_date city =
      some (naive_average_distance_in_date_range rides_in_city start_date end_date) := by
  obtain ⟨i, hi, _, hbefore, hafter⟩ :=
    ride_array_find_date_lower_bound_split rides_in_city start_date hs
  have hsel := rides_in_date_range_eq_takeWhile rides_in_city start_date end_date hs i
    hbefore hafter
  unfold catalog_get_average_distance_in_city_by_date naive_average_distance_in_date_range
  simp only [hb, hi, Option.bind_eq_bind, Option.some_bind,
    catalog_get_average_distance_in_city_by_date_loop_eq rides_in_city end_date _ i 0 0 rfl,
    hsel, zero_add]
  by_cases hz : ((rides_in_city.drop i).takeWhile
      (fun r => decide (date_compare r.date end_date ≤ 0))).length = 0
  · simp [hz]
  · have hq : ((((rides_in_city.drop i).takeWhile
        (fun r => decide (date_compare r.date end_date ≤ 0))).length : Int) : ℚ) ≠ 0 := by
      exact_mod_cast hz
    simp [hz, double_div, hq]

/-- Claim C3. For a city whose bucket is sorted by date ascending,
`catalog_get_average_distance_in_city_by_date` equals the sum of the distances of exactly
the rides of that bucket with `start_date ≤ date ≤ end_date` divided by their number (0
when there are none); the result is the same in every catalog that has the same bucket for
the city, so rides outside the bucket never contribute. -/
theorem C3_average_distance_in_city_by_date (catalog : Catalog)
    (start_date end_date : Date) (city : String) (rides_in_city : List Ride)
    (hb : g_hash_table_lookup catalog.rides_in_city_hashtable city = some rides_in_city)
    (hs : sorted_by_date rides_in_city) :
    catalog_get_average_distance_in_city_by_date catalog start_date end_date city =
        some (naive_average_distance_in_date_range rides_in_city start_date end_date) ∧
      ∀ other : Catalog,
        g_hash_table_lookup other.rides_in_city_hashtable city = some rides_in_city →
        catalog_get_average_distance_in_city_by_date other start_date end_date city =
          catalog_get_average_distance_in_city_by_date catalog start_date end_date city := by
  refine ⟨average_distance_in_city_by_date_eq_naive catalog start_date end_date city
    rides_in_city hb hs, ?_⟩
  intro other ho
  rw [average_distance_in_city_by_date_eq_naive catalog start_date end_date city
      rides_in_city hb hs,
    average_distance_in_city_by_date_eq_naive other start_date end_date city
      rides_in_city ho hs]

/-- Witness of C3: in a catalog with rides of Porto and of Braga on the same days, the average
distance in Porto from 2023-01-03 to 2023-01-05 is (3 + 4 + 5) / 3 = 4. -/
theorem C3_average_distance_in_city_by_date_witness :
    catalog_get_average_distance_in_city_by_date two_city_catalog
        { year := 2023, month := 1, day := 3 } { year := 2023, month := 1, day := 5 } "Porto" =
      some (Double.finite 4) :=
  (C3_average_distance_in_city_by_date two_city_catalog _ _ "Porto" porto_rides
    (by simp [g_hash_table_lookup, two_city_catalog, create_catalog]) (by decide)).1.trans (by
      simp [naive_average_distance_in_date_range, rides_in_date_range, date_in_range,
        porto_rides, porto_ride, date_compare]
      norm_num)

/-- No ride in the range: the naive averages are 0. -/
theorem naive_average_price_of_nil (rides : List Ride) (start_date end_date : Date)
    (h : rides_in_date_range rides start_date end_date = []) :
    naive_average_price_in_date_range rides start_date end_date = Double.finite 0 := by
  simp [naive_average_price_in_date_range, h]

theorem naive_average_distance_of_nil (rides : List Ride) (start_date end_date : Date)
    (h : rides_in_date_range rides start_date end_date = []) :
    naive_average_distance_in_date_range rides start_date end_date = Double.finite 0 := by
  simp [naive_average_distance_in_date_range, h]

/-- The average price over a date range is a finite number on every catalog: the division
is reached with a count that is not zero only. -/
theorem average_price_in_date_range_finite (catalog : Catalog) (start_date end_date : Date) :
    ∃ q, catalog_get_average_price_in_date_range catalog start_date end_date =
      some (Double.finite q) := by
  obtain ⟨i, hi, _⟩ := ride_array_find_date_lower_bound_total catalog.rides_array start_date
  unfold catalog_get_average_price_in_date_range
  simp only [hi, Option.bind_eq_bind, Option.some_bind,
    catalog_get_average_price_in_date_range_loop_eq catalog.rides_array end_date _ i 0 0 rfl,
    zero_add]
  by_cases hz : ((catalog.rides_array.drop i).takeWhile
      (fun r => decide (date_compare r.date end_date ≤ 0))).length = 0
  · exact ⟨0, by simp [hz]⟩
  · have hq : ((((catalog.rides_array.drop i).takeWhile
        (fun r => decide (date_compare r.date end_date ≤ 0))).length : Int) : ℚ) ≠ 0 := by
      exact_mod_cast hz
    simp only [double_div, hq, if_false, ne_eq, Nat.cast_eq_zero, hz, not_false_eq_true,
      if_true]
    exact ⟨_, rfl⟩

/-- The average distance in a city over a date range is a finite number on every catalog. -/
theorem average_distance_in_city_by_date_finite (catalog : Catalog)
    (start_date end_date : Date) (city : String) :
    ∃ q, catalog_get_average_distance_in_city_by_date catalog start_date end_date city =
      some (Double.finite q) := by
  unfold catalog_get_average_distance_in_city_by_date
  cases hb : g_hash_table_lookup catalog.rides_in_city_hashtable city with
  | none => exact ⟨0, rfl⟩
  | some rides_in_city =>
    obtain ⟨i, hi, _⟩ := ride_array_find_date_lower_bound_total rides_in_city start_date
    simp only [hi, Option.bind_eq_bind, Option.some_bind,
      catalog_get_average_distance_in_city_by_date_loop_eq rides_in_city end_date _ i 0 0 rfl,
      zero_add]
    by_cases hz : ((rides_in_city.drop i).takeWhile
        (fun r => decide (date_compare r.date end_date ≤ 0))).length = 0
    · exact ⟨0, by simp [hz]⟩
    · have hq : ((((rides_in_city.drop i).takeWhile
          (fun r => decide (date_compare r.date end_date ≤ 0))).length : Int) : ℚ) ≠ 0 := by
        exact_mod_cast hz
      simp only [double_div, hq, if_false, ne_eq, Nat.cast_eq_zero, hz, not_false_eq_true,
        if_true]
      exact ⟨_, rfl⟩

/-- Claim C4. Zero-safe aggregates. On a catalog whose ride array and city buckets are sorted by
date (a finalized catalog), `catalog_get_average_price_in_date_range` returns exactly 0 when
no ride lies in the range, and `catalog_get_average_distance_in_city_by_date` returns
exactly 0 when the city has no bucket or no ride of its bucket lies in the range. Both
functions return a finite number in every case: the result of a division by a zero count
(NaN or an infinity) never arises. -/
theorem C4_zero_safe_aggregates (catalog : Catalog) (start_date end_date : Date)
    (city : String) (hs : sorted_by_date catalog.rides_array)
    (hbuckets : ∀ rides_in_city,
      g_hash_table_lookup catalog.rides_in_city_hashtable city = some rides_in_city →
      sorted_by_date rides_in_city) :
    (rides_in_date_range catalog.rides_array start_date end_date = [] →
        catalog_get_average_price_in_date_range catalog start_date end_date =
          some (Double.finite 0)) ∧
      (g_hash_table_lookup catalog.rides_in_city_hashtable city = none →
        catalog_get_average_distance_in_city_by_date catalog start_date end_date city =
          some (Double.finite 0)) ∧
      (∀ rides_in_city,
        g_hash_table_lookup catalog.rides_in_city_hashtable city = some rides_in_city →
        rides_in_date_range rides_in_city start_date end_date = [] →
        catalog_get_average_distance_in_city_by_date catalog start_date end_date city =
          some (Double.finite 0)) ∧
      (∃ q, catalog_get_average_price_in_date_range catalog start_date end_date =
        some (Double.finite q)) ∧
      (∃ q, catalog_get_average_distance_in_city_by_date catalog start_date end_date city =
        some (Double.finite q)) := by
  refine ⟨?_, ?_, ?_, average_price_in_date_range_finite catalog start_date end_date,
    average_distance_in_city_by_date_finite catalog start_date end_date city⟩
  · intro hnil
    rw [average_price_in_date_range_eq_naive catalog start_date end_date hs,
      naive_average_price_of_nil _ _ _ hnil]
  · intro hnone
    simp [catalog_get_average_distance_in_city_by_date, hnone]
  · intro rides_in_city hb hnil
    rw [average_distance_in_city_by_date_eq_naive catalog start_date end_date city
        rides_in_city hb (hbuckets rides_in_city hb),
      naive_average_distance_of_nil _ _ _ hnil]

/-- Witness of C4: no ride of the two-city catalog lies in February 2023, and the catalog has
no bucket for Lisboa; both averages are 0. The average distance in Braga is 0 as well. -/
theorem C4_zero_safe_aggregates_witness :
    catalog_get_average_price_in_date_range two_city_catalog
        { year := 2023, month := 2, day := 1 } { year := 2023, month := 2, day := 28 } =
        some (Double.finite 0) ∧
      catalog_get_average_distance_in_city_by_date two_city_catalog
        { year := 2023, month := 2, day := 1 } { year := 2023, month := 2, day := 28 }
        "Lisboa" = some (Double.finite 0) :=
  have h := C4_zero_safe_aggregates two_city_catalog
    { year := 2023, month := 2, day := 1 } { year := 2023, month := 2, day := 28 } "Lisboa"
    (by decide)
    (by
      intro rides_in_city hb
      simp [g_hash_table_lookup, two_city_catalog, create_catalog] at hb)
  ⟨h.1 (by
      simp [rides_in_date_range, date_in_range, two_city_catalog, create_catalog, porto_ride,
        braga_ride, date_compare]),
    h.2.1 (by simp [g_hash_table_lookup, two_city_catalog, create_catalog])⟩

/-- A range whose start is after its end holds no ride. -/
theorem rides_in_date_range_of_start_after_end (rides : List Ride) (start_date end_date : Date)
    (h : date_compare start_date end_date > 0) :
    rides_in_date_range rides start_date end_date = [] := by
  unfold rides_in_date_range
  apply List.filter_eq_nil_iff.mpr
  intro r _
  simp only [date_in_range, Bool.and_eq_true, decide_eq_true_eq, not_and]
  intro h1 h2
  have := date_compare_le_trans h1 h2
  omega

/-- The scan of `catalog_insert_passengers_that_gave_tip_in_date_range` appends the rides with
a tip among the rides from the start index up to the first ride after the end date. -/
theorem catalog_insert_passengers_that_gave_tip_in_date_range_loop_eq (rides : List Ride)
    (end_date : Date) :
    ∀ (n i : Nat) (result : List Ride), rides.length - i = n →
      catalog_insert_passengers_that_gave_tip_in_date_range_loop rides end_date i result =
        some (result ++ (((rides.drop i).takeWhile
          (fun r => decide (date_compare r.date end_date ≤ 0))).filter
            (fun r => decide (r.tip > 0)))) := by
  intro n
  induction n with
  | zero =>
    intro i result hn
    rw [catalog_insert_passengers_that_gave_tip_in_date_range_loop]
    have hge : rides.length ≤ i := by omega
    simp [Nat.not_lt.mpr hge, List.drop_eq_nil_of_le hge]
  | succ n ih =>
    intro i result hn
    rw [catalog_insert_passengers_that_gave_tip_in_date_range_loop]
    have hlt : i < rides.length := by omega
    rw [List.drop_eq_getElem_cons hlt]
    simp only [hlt, if_true, g_ptr_array_index, List.getElem?_eq_getElem hlt]
    by_cases hc : date_compare rides[i].date end_date > 0
    · have hc' : ¬ date_compare rides[i].date end_date ≤ 0 := by omega
      simp only [hc, if_true, List.takeWhile_cons, hc', decide_False, Bool.false_eq_true,
        if_false, List.filter_nil, List.append_nil]
    · have hc' : date_compare rides[i].date end_date ≤ 0 := by omega
      simp only [hc, if_false]
      rw [ih (i + 1) _ (by omega)]
      simp only [List.takeWhile_cons, hc', decide_True, if_true, List.filter_cons]
      by_cases ht : rides[i].tip > 0
      · simp only [ht, if_true, decide_True, g_ptr_array_add, List.append_assoc,
          List.singleton_append]
      · simp only [ht, if_false, decide_False, Bool.false_eq_true]

/-- On a date-sorted ride array the tip query appends the rides of the range that have a tip,
in the order of the array, and sorts the result array. -/
theorem insert_passengers_that_gave_tip_eq (compare : Ride → Ride → Int) (catalog : Catalog)
    (result : List Ride) (start_date end_date : Date)
    (hs : sorted_by_date catalog.rides_array) :
    catalog_insert_passengers_that_gave_tip_in_date_range compare catalog result start_date
        end_date =
      some (g_ptr_array_sort compare
        (result ++ (rides_in_date_range catalog.rides_array start_date end_date).filter
          (fun r => decide (r.tip > 0)))) := by
  obtain ⟨i, hi, _, hbefore, hafter⟩ :=
    ride_array_find_date_lower_bound_split catalog.rides_array start_date hs
  have hsel := rides_in_date_range_eq_takeWhile catalog.rides_array start_date end_date hs i
    hbefore hafter
  unfold catalog_insert_passengers_that_gave_tip_in_date_range
  simp only [hi, Option.bind_eq_bind, Option.some_bind,
    catalog_insert_passengers_that_gave_tip_in_date_range_loop_eq catalog.rides_array end_date
      _ i result rfl, hsel]

/-- Claim C5. On a catalog with date-sorted rides and a range whose start is after its end, the
range queries match nothing: the average price and the average distance in a city are 0,
and the tip query returns the result array it was given, sorted, with no ride added (the
same elements, and the empty array when it was empty); none of them faults. -/
theorem C5_start_after_end_matches_nothing (compare : Ride → Ride → Int) (catalog : Catalog)
    (result : List Ride) (start_date end_date : Date) (city : String)
    (hgt : date_compare start_date end_date > 0)
    (hs : sorted_by_date catalog.rides_array)
    (hbuckets : ∀ rides_in_city,
      g_hash_table_lookup catalog.rides_in_city_hashtable city = some rides_in_city →
      sorted_by_date rides_in_city) :
    catalog_get_average_price_in_date_range catalog start_date end_date =
        some (Double.finite 0) ∧
      catalog_get_average_distance_in_city_by_date catalog start_date end_date city =
        some (Double.finite 0) ∧
      catalog_insert_passengers_that_gave_tip_in_date_range compare catalog result start_date
        end_date = some (g_ptr_array_sort compare result) ∧
      List.Perm (g_ptr_array_sort compare result) result ∧
      catalog_insert_passengers_that_gave_tip_in_date_range compare catalog [] start_date
        end_date = some [] := by
  refine ⟨?_, ?_, ?_, ?_, ?_⟩
  · rw [average_price_in_date_range_eq_naive catalog start_date end_date hs,
      naive_average_price_of_nil _ _ _
        (rides_in_date_range_of_start_after_end _ _ _ hgt)]
  · cases hb : g_hash_table_lookup catalog.rides_in_city_hashtable city with
    | none => simp [catalog_get_average_distance_in_city_by_date, hb]
    | some rides_in_city =>
      rw [average_distance_in_city_by_date_eq_naive catalog start_date end_date city
          rides_in_city hb (hbuckets rides_in_city hb),
        naive_average_distance_of_nil _ _ _
          (rides_in_date_range_of_start_after_end _ _ _ hgt)]
  · rw [insert_passengers_that_gave_tip_eq compare catalog result start_date end_date hs,
      rides_in_date_range_of_start_after_end _ _ _ hgt, List.filter_nil, List.append_nil]
  · exact List.perm_insertionSort _ _
  · rw [insert_passengers_that_gave_tip_eq compare catalog [] start_date end_date hs,
      rides_in_date_range_of_start_after_end _ _ _ hgt]
    rfl

/-- Witness of C5: the range from 2023-01-05 back to 2023-01-03 on the two-city catalog, with
the rides compared by distance. -/
theorem C5_start_after_end_matches_nothing_witness :
    catalog_get_average_price_in_date_range two_city_catalog
        { year := 2023, month := 1, day := 5 } { year := 2023, month := 1, day := 3 } =
        some (Double.finite 0) ∧
      catalog_get_average_distance_in_city_by_date two_city_catalog
        { year := 2023, month := 1, day := 5 } { year := 2023, month := 1, day := 3 }
        "Braga" = some (Double.finite 0) ∧
      catalog_insert_passengers_that_gave_tip_in_date_range
        (fun a b => a.distance - b.distance) two_city_catalog []
        { year := 2023, month := 1, day := 5 } { year := 2023, month := 1, day := 3 } =
        some [] :=
  have h := C5_start_after_end_matches_nothing (fun a b => a.distance - b.distance)
    two_city_catalog [] { year := 2023, month := 1, day := 5 }
    { year := 2023, month := 1, day := 3 } "Braga" (by decide) (by decide)
    (by
      intro rides_in_city hb
      simp only [g_hash_table_lookup, two_city_catalog, create_catalog] at hb
      simp only [String.reduceEq, if_false, if_true, Option.some.injEq] at hb
      subst hb
      decide)
  ⟨h.1, h.2.1, h.2.2.2.2⟩

/-! ## Facts about hash tables -/

theorem g_hash_table_lookup_insert_self {K V : Type} [DecidableEq K] (t : GHashTable K V)
    (k : K) (v : V) : g_hash_table_lookup (g_hash_table_insert t k v) k = some v := by
  induction t with
  | nil => simp [g_hash_table_insert, g_hash_table_lookup]
  | cons e rest ih =>
    obtain ⟨k', v'⟩ := e
    by_cases h : k' = k
    · simp [g_hash_table_insert, g_hash_table_lookup, h]
    · simp [g_hash_table_insert, g_hash_table_lookup, h, ih]

theorem g_hash_table_lookup_insert_ne {K V : Type} [DecidableEq K] (t : GHashTable K V)
    (k k' : K) (v : V) (hne : k ≠ k') :
    g_hash_table_lookup (g_hash_table_insert t k v) k' = g_hash_table_lookup t k' := by
  induction t with
  | nil => simp [g_hash_table_insert, g_hash_table_lookup, hne]
  | cons e rest ih =>
    obtain ⟨k₀, v₀⟩ := e
    by_cases h : k₀ = k
    · subst h
      simp [g_hash_table_insert, g_hash_table_lookup, hne]
    · by_cases h' : k₀ = k'
      · subst h'
        simp [g_hash_table_insert, g_hash_table_lookup, h]
      · simp [g_hash_table_insert, g_hash_table_lookup, h, h', ih]

theorem g_hash_table_insert_insert {K V : Type} [DecidableEq K] (t : GHashTable K V)
    (k : K) (v v' : V) :
    g_hash_table_insert (g_hash_table_insert t k v) k v' = g_hash_table_insert t k v' := by
  induction t with
  | nil => simp [g_hash_table_insert]
  | cons e rest ih =>
    obtain ⟨k₀, v₀⟩ := e
    by_cases h : k₀ = k
    · simp [g_hash_table_insert, h]
    · simp [g_hash_table_insert, h, ih]

theorem g_hash_table_contains_eq_isSome {K V : Type} [DecidableEq K] (t : GHashTable K V)
    (k : K) : g_hash_table_contains t k = (g_hash_table_lookup t k).isSome := by
  induction t with
  | nil => simp [g_hash_table_contains, g_hash_table_lookup]
  | cons e rest ih =>
    obtain ⟨k₀, v₀⟩ := e
    by_cases h : k₀ = k
    · simp [g_hash_table_contains, g_hash_table_lookup, h]
    · simp [g_hash_table_contains, g_hash_table_lookup, h, ih]

/-- An entry of a table after an insertion is an entry of the table before it or the
inserted one. -/
theorem mem_g_hash_table_insert {K V : Type} [DecidableEq K] (t : GHashTable K V)
    (k : K) (v : V) (e : K × V) (he : e ∈ g_hash_table_insert t k v) :
    e ∈ t ∨ e = (k, v) := by
  induction t with
  | nil =>
    simp only [g_hash_table_insert, List.mem_singleton] at he
    exact Or.inr he
  | cons e₀ rest ih =>
    obtain ⟨k₀, v₀⟩ := e₀
    by_cases h : k₀ = k
    · simp only [g_hash_table_insert, h, if_true, List.mem_cons] at he
      rcases he with he | he
      · exact Or.inr he
      · exact Or.inl (List.mem_cons_of_mem _ he)
    · simp only [g_hash_table_insert, h, if_false, List.mem_cons] at he
      rcases he with he | he
      · exact Or.inl (by rw [he]; exact List.mem_cons_self _ _)
      · rcases ih he with h' | h'
        · exact Or.inl (List.mem_cons_of_mem _ h')
        · exact Or.inr h'

/-- Replacing the value of a key changes a sum over the values by the difference at that
key. -/
theorem sum_g_hash_table_insert_of_lookup_some {K V : Type} [DecidableEq K] (f : V → Nat)
    (t : GHashTable K V) (k : K) (v v' : V) (h : g_hash_table_lookup t k = some v) :
    ((g_hash_table_insert t k v').map (fun e => f e.2)).sum + f v =
      (t.map (fun e => f e.2)).sum + f v' := by
  induction t with
  | nil => simp [g_hash_table_lookup] at h
  | cons e rest ih =>
    obtain ⟨k₀, v₀⟩ := e
    by_cases hk : k₀ = k
    · simp only [g_hash_table_lookup, hk, if_true, Option.some.injEq] at h
      subst h
      simp only [g_hash_table_insert, hk, if_true, List.map_cons, List.sum_cons]
      omega
    · simp only [g_hash_table_lookup, hk, if_false] at h
      have := ih h
      simp only [g_hash_table_insert, hk, if_false, List.map_cons, List.sum_cons]
      omega

/-- Inserting a new key adds the value of the new entry to a sum over the values. -/
theorem sum_g_hash_table_insert_of_lookup_none {K V : Type} [DecidableEq K] (f : V → Nat)
    (t : GHashTable K V) (k : K) (v' : V) (h : g_hash_table_lookup t k = none) :
    ((g_hash_table_insert t k v').map (fun e => f e.2)).sum =
      (t.map (fun e => f e.2)).sum + f v' := by
  induction t with
  | nil => simp [g_hash_table_insert]
  | cons e rest ih =>
    obtain ⟨k₀, v₀⟩ := e
    by_cases hk : k₀ = k
    · simp [g_hash_table_lookup, hk] at h
    · simp only [g_hash_table_lookup, hk, if_false] at h
      have := ih h
      simp only [g_hash_table_insert, hk, if_false, List.map_cons, List.sum_cons]
      omega

/-! ## The city index -/

/-- What `catalog_ride_index_city` does to the catalog: the bucket of the city of the ride,
empty when the city is new, gets the ride at its end; nothing else changes. -/
theorem catalog_ride_index_city_eq (catalog : Catalog) (ride : Ride) :
    catalog_ride_index_city catalog ride =
      { catalog with
        rides_in_city_hashtable :=
          g_hash_table_insert catalog.rides_in_city_hashtable ride.city
            (((g_hash_table_lookup catalog.rides_in_city_hashtable ride.city).getD []) ++
              [ride]) } := by
  unfold catalog_ride_index_city
  simp only [g_hash_table_contains_eq_isSome]
  cases h : g_hash_table_lookup catalog.rides_in_city_hashtable ride.city with
  | none => simp [g_hash_table_insert_insert, g_ptr_array_add]
  | some rides_in_city => simp [g_ptr_array_add]

/-! ## Registration of a ride -/

theorem driver_after_ride_name (driver : Driver) (ride : Ride) :
    (driver_after_ride driver ride).name = driver.name := by
  unfold driver_after_ride driver_register_ride_date
  split_ifs <;> rfl

/-- What `add_score_to_driver_city` does to the table of a city when the driver is
registered. -/
theorem add_score_to_driver_city_eq (score : Int) (driver_id : Int)
    (hash : GHashTable Int DriverbyCity) (catalog : Catalog) (pointer : Nat) (driver : Driver)
    (hp : catalog_get_driver catalog driver_id = some pointer)
    (hd : catalog.driver_heap[pointer]? = some driver) :
    add_score_to_driver_city score driver_id hash catalog =
      some (g_hash_table_insert hash driver_id
        (driver_by_city_after_ride hash driver_id driver.name score)) := by
  unfold add_score_to_driver_city driver_by_city_after_ride
  cases hl : g_hash_table_lookup hash driver_id with
  | none =>
    simp [insert_new_driver_city, hp, hd, g_hash_table_lookup_insert_self,
      g_hash_table_insert_insert]
  | some stat =>
    simp [hl]

/-- What `catalog_add_driver_by_city` does to the catalog when the driver is registered and
the value for the city, if any, is a table. -/
theorem catalog_add_driver_by_city_eq (catalog : Catalog) (ride : Ride) (city : String)
    (pointer : Nat) (driver : Driver)
    (hp : catalog_get_driver catalog ride.driver_id = some pointer)
    (hd : catalog.driver_heap[pointer]? = some driver)
    (hhash : ∀ array, g_hash_table_lookup catalog.drivers_in_city city ≠
      some (GHashArray.drivers_in_city_array array)) :
    catalog_add_driver_by_city catalog ride city =
      some { catalog with
        drivers_in_city := g_hash_table_insert catalog.drivers_in_city city
          (GHashArray.drivers_in_city_hash
            (g_hash_table_insert (drivers_in_city_hash_of catalog city) ride.driver_id
              (driver_by_city_after_ride (drivers_in_city_hash_of catalog city) ride.driver_id
                driver.name ride.score_driver))) } := by
  unfold catalog_add_driver_by_city drivers_in_city_hash_of
  cases hl : g_hash_table_lookup catalog.drivers_in_city city with
  | none =>
    have hp' : catalog_get_driver
        { catalog with
          drivers_in_city := g_hash_table_insert catalog.drivers_in_city city
            (GHashArray.drivers_in_city_hash []) } ride.driver_id = some pointer := hp
    simp [add_score_to_driver_city_eq _ _ _ _ pointer driver hp' hd,
      g_hash_table_insert_insert]
  | some value =>
    cases value with
    | drivers_in_city_hash hash =>
      simp [add_score_to_driver_city_eq _ _ _ _ pointer driver hp hd]
    | drivers_in_city_array array => exact absurd hl (hhash array)

/-- What `register_ride` does to the catalog when the driver and the user of the ride are
registered and the value of `drivers_in_city` for the city, if any, is a table. -/
theorem register_ride_eq (compute_price : Int → CarClass → ℚ) (catalog : Catalog) (ride : Ride)
    (driver_pointer user_pointer : Nat) (driver : Driver) (user : User)
    (hp : catalog_get_driver catalog ride.driver_id = some driver_pointer)
    (hd : catalog.driver_heap[driver_pointer]? = some driver)
    (hu : catalog_get_user catalog ride.user_username = some user_pointer)
    (hud : catalog.user_heap[user_pointer]? = some user)
    (hhash : ∀ array, g_hash_table_lookup catalog.drivers_in_city ride.city ≠
      some (GHashArray.drivers_in_city_array array)) :
    register_ride compute_price catalog ride =
      some { catalog with
        user_heap := catalog.user_heap.set user_pointer
          (user_after_ride user (priced_ride compute_price driver ride))
        driver_heap := catalog.driver_heap.set driver_pointer
          (driver_after_ride driver (priced_ride compute_price driver ride))
        rides_array := catalog.rides_array ++ [priced_ride compute_price driver ride]
        rides_in_city_hashtable :=
          g_hash_table_insert catalog.rides_in_city_hashtable ride.city
            (((g_hash_table_lookup catalog.rides_in_city_hashtable ride.city).getD []) ++
              [priced_ride compute_price driver ride])
        drivers_in_city := g_hash_table_insert catalog.drivers_in_city ride.city
          (GHashArray.drivers_in_city_hash
            (g_hash_table_insert (drivers_in_city_hash_of catalog ride.city) ride.driver_id
              (driver_by_city_after_ride (drivers_in_city_hash_of catalog ride.city)
                ride.driver_id driver.name ride.score_driver))) } := by
  have hlt : driver_pointer < catalog.driver_heap.length := (List.getElem?_eq_some.mp hd).1
  unfold register_ride
  simp only [Option.bind_eq_bind, hp, Option.some_bind, hd]
  have hu' : g_hash_table_lookup catalog.user_from_username_hashtable
      (ride_set_price ride (compute_price ride.distance driver.car_class)).user_username =
        some user_pointer := hu
  simp only [catalog_get_user, hu', Option.some_bind, hud, catalog_ride_index_city_eq]
  rw [catalog_add_driver_by_city_eq _ _ _ driver_pointer
    (driver_after_ride driver (priced_ride compute_price driver ride))]
  · simp only [driver_after_ride_name, drivers_in_city_hash_of]
    rfl
  · exact hp
  · simp only [List.getElem?_set, hlt]
    simp [driver_after_ride, priced_ride, ride_set_price]
  · exact hhash

/-! ## The invariant of the loading phase -/

theorem loadingInvariant_create_catalog : LoadingInvariant create_catalog where
  driver_pointers := by intro id pointer h; simp [create_catalog, g_hash_table_lookup] at h
  user_pointers := by intro u pointer h; simp [create_catalog, g_hash_table_lookup] at h
  drivers_in_city_hash := by intro city array; simp [create_catalog, g_hash_table_lookup]
  bucket_lookup := by intro city; simp [create_catalog, g_hash_table_lookup, rides_of_city]
  bucket_count := by intro p; simp [create_catalog]
  bucket_city := by intro entry h; simp [create_catalog] at h

theorem loadingInvariant_register_user (catalog : Catalog) (user : User)
    (inv : LoadingInvariant catalog) : LoadingInvariant (register_user catalog user) where
  driver_pointers := inv.driver_pointers
  user_pointers := by
    intro username pointer h
    simp only [register_user, List.length_append, List.length_singleton] at h ⊢
    by_cases hk : user.username = username
    · subst hk
      rw [g_hash_table_lookup_insert_self] at h
      cases h
      omega
    · rw [g_hash_table_lookup_insert_ne _ _ _ _ hk] at h
      have := inv.user_pointers username pointer h
      omega
  drivers_in_city_hash := inv.drivers_in_city_hash
  bucket_lookup := inv.bucket_lookup
  bucket_count := inv.bucket_count
  bucket_city := inv.bucket_city

theorem loadingInvariant_register_driver (catalog : Catalog) (driver : Driver)
    (inv : LoadingInvariant catalog) : LoadingInvariant (register_driver catalog driver) where
  driver_pointers := by
    intro id pointer h
    simp only [register_driver, List.length_append, List.length_singleton] at h ⊢
    by_cases hk : driver.id = id
    · subst hk
      rw [g_hash_table_lookup_insert_self] at h
      cases h
      omega
    · rw [g_hash_table_lookup_insert_ne _ _ _ _ hk] at h
      have := inv.driver_pointers id pointer h
      omega
  user_pointers := inv.user_pointers
  drivers_in_city_hash := inv.drivers_in_city_hash
  bucket_lookup := inv.bucket_lookup
  bucket_count := inv.bucket_count
  bucket_city := inv.bucket_city

theorem priced_ride_city (compute_price : Int → CarClass → ℚ) (driver : Driver) (ride : Ride) :
    (priced_ride compute_price driver ride).city = ride.city := rfl

/-- The bucket that the table holds for a city is the list of the rides of the city. -/
theorem bucket_getD_eq (catalog : Catalog) (inv : LoadingInvariant catalog) (city : String) :
    (g_hash_table_lookup catalog.rides_in_city_hashtable city).getD [] =
      rides_of_city catalog.rides_array city := by
  rw [inv.bucket_lookup city]
  by_cases h : rides_of_city catalog.rides_array city = []
  · simp [h]
  · simp [h]

/-- A ride whose driver and user are registered is registered without a fault, and the
invariant holds afterwards; the ride array gets the ride, priced, at its end and the lookup
tables of users and drivers stay as they are. -/
theorem loadingInvariant_register_ride (compute_price : Int → CarClass → ℚ)
    (catalog : Catalog) (ride : Ride) (inv : LoadingInvariant catalog)
    (hdriver : (catalog_get_driver catalog ride.driver_id).isSome = true)
    (huser : (catalog_get_user catalog ride.user_username).isSome = true) :
    ∃ next driver, register_ride compute_price catalog ride = some next ∧
      LoadingInvariant next ∧
      next.rides_array = catalog.rides_array ++ [priced_ride compute_price driver ride] ∧
      next.user_from_username_hashtable = catalog.user_from_username_hashtable ∧
      next.driver_from_id_hashtable = catalog.driver_from_id_hashtable := by
  obtain ⟨driver_pointer, hp⟩ := Option.isSome_iff_exists.mp hdriver
  obtain ⟨user_pointer, hu⟩ := Option.isSome_iff_exists.mp huser
  have hdlt := inv.driver_pointers _ _ hp
  have hult := inv.user_pointers _ _ hu
  have hd : catalog.driver_heap[driver_pointer]? = some catalog.driver_heap[driver_pointer] :=
    List.getElem?_eq_getElem hdlt
  have hud : catalog.user_heap[user_pointer]? = some catalog.user_heap[user_pointer] :=
    List.getElem?_eq_getElem hult
  refine ⟨_, catalog.driver_heap[driver_pointer],
    register_ride_eq compute_price catalog ride driver_pointer user_pointer _ _ hp hd hu hud
      (inv.drivers_in_city_hash ride.city), ?_, rfl, rfl, rfl⟩
  set pr := priced_ride compute_price catalog.driver_heap[driver_pointer] ride with hpr
  have hprc : pr.city = ride.city := rfl
  constructor
  · intro id pointer h
    simp only [List.length_set]
    exact inv.driver_pointers id pointer h
  · intro username pointer h
    simp only [List.length_set]
    exact inv.user_pointers username pointer h
  · intro city array
    simp only
    by_cases hc : ride.city = city
    · subst hc
      rw [g_hash_table_lookup_insert_self]
      simp
    · rw [g_hash_table_lookup_insert_ne _ _ _ _ hc]
      exact inv.drivers_in_city_hash city array
  · intro city
    simp only [bucket_getD_eq catalog inv]
    by_cases hc : ride.city = city
    · subst hc
      rw [g_hash_table_lookup_insert_self]
      simp [rides_of_city, List.filter_append, hprc]
    · rw [g_hash_table_lookup_insert_ne _ _ _ _ hc, inv.bucket_lookup city]
      simp [rides_of_city, List.filter_append, hprc, hc]
  · intro p
    simp only [bucket_getD_eq catalog inv]
    have hcount := inv.bucket_count p
    rw [List.countP_append]
    cases hl : g_hash_table_lookup catalog.rides_in_city_hashtable ride.city with
    | none =>
      have hnil : rides_of_city catalog.rides_array ride.city = [] := by
        have := bucket_getD_eq catalog inv ride.city
        rw [hl] at this
        exact this.symm
      rw [sum_g_hash_table_insert_of_lookup_none (fun l => List.countP p l) _ _ _ hl, hcount,
        hnil]
      simp
    | some bucket =>
      have hb : rides_of_city catalog.rides_array ride.city = bucket := by
        have := bucket_getD_eq catalog inv ride.city
        rw [hl] at this
        exact this.symm
      have := sum_g_hash_table_insert_of_lookup_some (fun l => List.countP p l) _ _ _
        (bucket ++ [pr]) hl
      rw [hb]
      simp only [List.countP_append] at this
      omega
  · intro entry hentry r hr
    simp only [bucket_getD_eq catalog inv] at hentry
    rcases mem_g_hash_table_insert _ _ _ _ hentry with hold | hnew
    · exact inv.bucket_city entry hold r hr
    · subst hnew
      simp only [List.mem_append, List.mem_singleton] at hr
      rcases hr with hr | hr
      · simp only [rides_of_city, List.mem_filter, decide_eq_true_eq] at hr
        exact hr.2
      · rw [hr]
        exact hprc

theorem isSome_g_hash_table_lookup_insert {K V : Type} [DecidableEq K] (t : GHashTable K V)
    (k k' : K) (v : V) (h : (g_hash_table_lookup t k').isSome = true) :
    (g_hash_table_lookup (g_hash_table_insert t k v) k').isSome = true := by
  by_cases hk : k = k'
  · subst hk
    rw [g_hash_table_lookup_insert_self]
    rfl
  · rw [g_hash_table_lookup_insert_ne _ _ _ _ hk]
    exact h

/-- A loading phase in which every ride refers to a registered user and driver runs without
a fault; the invariant holds at its end, and the ride array has grown by the registered
rides, in order, each with its price filled in. -/
theorem register_all_spec (compute_price : Int → CarClass → ℚ) :
    ∀ (calls : List Registration) (catalog : Catalog) (usernames : List String)
      (ids : List Int), LoadingInvariant catalog →
      (∀ u ∈ usernames, (catalog_get_user catalog u).isSome = true) →
      (∀ i ∈ ids, (catalog_get_driver catalog i).isSome = true) →
      references_registered_from usernames ids calls = true →
      ∃ final, register_all compute_price catalog calls = some final ∧
        LoadingInvariant final ∧
        final.rides_array.map (fun r => ride_set_price r 0) =
          catalog.rides_array.map (fun r => ride_set_price r 0) ++
            (rides_of_calls calls).map (fun r => ride_set_price r 0) := by
  intro calls
  induction calls with
  | nil =>
    intro catalog usernames ids inv _ _ _
    exact ⟨catalog, rfl, inv, by simp [rides_of_calls]⟩
  | cons call rest ih =>
    intro catalog usernames ids inv hus hds href
    cases call with
    | user user =>
      simp only [references_registered_from] at href
      obtain ⟨final, hfinal, hinv, hrides⟩ :=
        ih (register_user catalog user) (user.username :: usernames) ids
          (loadingInvariant_register_user catalog user inv)
          (by
            intro u hu
            simp only [catalog_get_user, register_user]
            rcases List.mem_cons.mp hu with h | h
            · subst h
              rw [g_hash_table_lookup_insert_self]
              rfl
            · exact isSome_g_hash_table_lookup_insert _ _ _ _ (hus u h))
          hds href
      exact ⟨final, by simpa [register_all, register] using hfinal, hinv,
        by simpa [rides_of_calls, register_user] using hrides⟩
    | driver driver =>
      simp only [references_registered_from] at href
      obtain ⟨final, hfinal, hinv, hrides⟩ :=
        ih (register_driver catalog driver) usernames (driver.id :: ids)
          (loadingInvariant_register_driver catalog driver inv) hus
          (by
            intro i hi
            simp only [catalog_get_driver, register_driver]
            rcases List.mem_cons.mp hi with h | h
            · subst h
              rw [g_hash_table_lookup_insert_self]
              rfl
            · exact isSome_g_hash_table_lookup_insert _ _ _ _ (hds i h))
          href
      exact ⟨final, by simpa [register_all, register] using hfinal, hinv,
        by simpa [rides_of_calls, register_driver] using hrides⟩
    | ride ride =>
      simp only [references_registered_from, Bool.and_eq_true, decide_eq_true_eq] at href
      obtain ⟨⟨hmu, hmd⟩, hrest⟩ := href
      obtain ⟨next, driver, hnext, hinvn, hra, hut, hdt⟩ :=
        loadingInvariant_register_ride compute_price catalog ride inv (hds _ hmd) (hus _ hmu)
      obtain ⟨final, hfinal, hinv, hrides⟩ :=
        ih next usernames ids hinvn
          (by intro u hu; simpa [catalog_get_user, hut] using hus u hu)
          (by intro i hi; simpa [catalog_get_driver, hdt] using hds i hi)
          hrest
      refine ⟨final, by simpa [register_all, register, hnext] using hfinal, hinv, ?_⟩
      rw [hrides, hra]
      simp [rides_of_calls, priced_ride, ride_set_price]

/-- Claim C7. Bucket partition. A sequence of registrations on the catalog of `create_catalog`
in which every ride refers to an already registered user and driver runs without a fault,
and in the catalog it produces: the ride array holds the registered rides, in order, each
with its price filled in; the sum of the lengths of all city buckets equals the length of
the ride array; every ride occurs over all buckets as often as in the ride array (once,
when it is registered once); every ride of a bucket has the city that keys the bucket; and
the bucket of a city holds exactly the rides of the ride array with that city. -/
theorem C7_bucket_partition (compute_price : Int → CarClass → ℚ) (calls : List Registration)
    (href : references_registered calls = true) :
    ∃ catalog, register_all compute_price create_catalog calls = some catalog ∧
      catalog.rides_array.map (fun r => ride_set_price r 0) =
        (rides_of_calls calls).map (fun r => ride_set_price r 0) ∧
      sum_bucket_lengths catalog.rides_in_city_hashtable = catalog.rides_array.length ∧
      (∀ ride, ((catalog.rides_in_city_hashtable).map (fun entry => entry.2.count ride)).sum =
        catalog.rides_array.count ride) ∧
      (∀ entry ∈ catalog.rides_in_city_hashtable, ∀ ride ∈ entry.2, ride.city = entry.1) ∧
      (∀ city, g_hash_table_lookup catalog.rides_in_city_hashtable city =
        if rides_of_city catalog.rides_array city = [] then none
        else some (rides_of_city catalog.rides_array city)) := by
  obtain ⟨catalog, hrun, inv, hrides⟩ :=
    register_all_spec compute_price calls create_catalog [] [] loadingInvariant_create_catalog
      (by intro u hu; cases hu) (by intro i hi; cases hi) href
  refine ⟨catalog, hrun, ?_, ?_, ?_, inv.bucket_city, inv.bucket_lookup⟩
  · simpa [create_catalog] using hrides
  · have := inv.bucket_count (fun _ => true)
    simpa [sum_bucket_lengths] using this
  · intro ride
    exact inv.bucket_count (fun r => r == ride)

/-- Witness of C7: two users, two drivers, two rides in Porto and one in Braga. -/
theorem C7_bucket_partition_witness :
    ∃ catalog, register_all sample_compute_price create_catalog sample_calls = some catalog ∧
      catalog.rides_array.map (fun r => ride_set_price r 0) =
        (rides_of_calls sample_calls).map (fun r => ride_set_price r 0) ∧
      sum_bucket_lengths catalog.rides_in_city_hashtable = catalog.rides_array.length ∧
      (∀ ride, ((catalog.rides_in_city_hashtable).map (fun entry => entry.2.count ride)).sum =
        catalog.rides_array.count ride) ∧
      (∀ entry ∈ catalog.rides_in_city_hashtable, ∀ ride ∈ entry.2, ride.city = entry.1) ∧
      (∀ city, g_hash_table_lookup catalog.rides_in_city_hashtable city =
        if rides_of_city catalog.rides_array city = [] then none
        else some (rides_of_city catalog.rides_array city)) :=
  C7_bucket_partition sample_compute_price sample_calls (by decide)

/-! ## Average price of a city -/

/-- The function `catalog_get_average_price_in_city` guards the missing bucket only: a
bucket without a ride, which no registration leaves in the table, would make it divide 0
by 0. -/
theorem average_price_in_city_of_empty_bucket (catalog : Catalog) (city : String)
    (hb : g_hash_table_lookup catalog.rides_in_city_hashtable city = some []) :
    catalog_get_average_price_in_city catalog city = some Double.nan := by
  simp [catalog_get_average_price_in_city, hb, catalog_get_average_price_in_city_loop,
    double_div]

/-! ## Top-N queries -/

theorem gint_of_guint_of_lt (x : Nat) (h : x < 2 ^ 31) : gint_of_guint x = (x : Int) := by
  have h1 : x % 2 ^ 32 = x := Nat.mod_eq_of_lt (by omega)
  unfold gint_of_guint
  rw [h1, if_pos h]

/-- The loop of `catalog_get_top_drivers_with_best_score`, run with a bound that is at most the
length of the array, appends the elements from index `i` up to the bound, without a fault. -/
theorem catalog_get_top_drivers_with_best_score_loop_eq (drivers_array : List Nat)
    (length : Nat) (hlen : length ≤ drivers_array.length) :
    ∀ (m i : Nat) (result : List Nat), length - i = m → i ≤ length →
      catalog_get_top_drivers_with_best_score_loop drivers_array (length : Int) i result =
        some (result ++ (drivers_array.drop i).take (length - i)) := by
  intro m
  induction m with
  | zero =>
    intro i result hm hi
    rw [catalog_get_top_drivers_with_best_score_loop]
    have : ¬ ((i : Int) < (length : Int)) := by omega
    simp [this, hm]
  | succ m ih =>
    intro i result hm hi
    rw [catalog_get_top_drivers_with_best_score_loop]
    have hlt : i < drivers_array.length := by omega
    have hlt' : (i : Int) < (length : Int) := by omega
    simp only [hlt', if_true, g_ptr_array_index, List.getElem?_eq_getElem hlt]
    rw [ih (i + 1) _ (by omega) (by omega), List.drop_eq_getElem_cons hlt]
    have hsub : length - i = (length - (i + 1)) + 1 := by omega
    rw [hsub, List.take_succ_cons]
    simp [g_ptr_array_add]

/-- Claim C10. For every `n ≥ 0` and every catalog whose number of drivers fits an `int`,
`catalog_get_top_drivers_with_best_score` runs without reading outside `drivers_array`,
appends to the result exactly the first `min n (number of drivers)` elements of
`drivers_array` in order, and returns that number. -/
theorem C10_top_drivers_with_best_score (catalog : Catalog) (n : Int) (result : List Nat)
    (hn : 0 ≤ n) (hfit : catalog.drivers_array.length < 2 ^ 31) :
    catalog_get_top_drivers_with_best_score catalog n result =
      some (((min n.toNat catalog.drivers_array.length : Nat) : Int),
        result ++ catalog.drivers_array.take (min n.toNat catalog.drivers_array.length)) := by
  unfold catalog_get_top_drivers_with_best_score
  rw [gint_of_guint_of_lt _ hfit]
  have hmin : min n (catalog.drivers_array.length : Int) =
      ((min n.toNat catalog.drivers_array.length : Nat) : Int) := by
    omega
  simp only [hmin, Option.bind_eq_bind]
  rw [catalog_get_top_drivers_with_best_score_loop_eq catalog.drivers_array _
    (Nat.min_le_right _ _) _ 0 result rfl (Nat.zero_le _)]
  simp

/-- Witness of C10: the three best drivers of a catalog with two drivers are the two
drivers. -/
theorem C10_top_drivers_with_best_score_witness :
    catalog_get_top_drivers_with_best_score
        (register_driver (register_driver create_catalog (sample_driver 1 "Eva"))
          (sample_driver 2 "Ivo")) 3 [] = some (2, [0, 1]) :=
  (C10_top_drivers_with_best_score _ 3 [] (by decide) (by decide)).trans (by decide)

/-- The loop of `catalog_get_top_users_with_longest_total_distance`, run with a bound `n` that
is greater than the length of the array, reaches the end of the array and reads outside
it. -/
theorem catalog_get_top_users_with_longest_total_distance_loop_fault (users_array : List Nat)
    (n : Int) (hn : (users_array.length : Int) < n) :
    ∀ (m i : Nat) (result : List Nat), users_array.length - i = m → i ≤ users_array.length →
      catalog_get_top_users_with_longest_total_distance_loop users_array n i result = none := by
  intro m
  induction m with
  | zero =>
    intro i result hm hi
    rw [catalog_get_top_users_with_longest_total_distance_loop]
    have hlt : (i : Int) < n := by omega
    have hge : users_array.length ≤ i := by omega
    simp [hlt, g_ptr_array_index, List.getElem?_eq_none hge]
  | succ m ih =>
    intro i result hm hi
    rw [catalog_get_top_users_with_longest_total_distance_loop]
    have hlt : (i : Int) < n := by omega
    have hlt' : i < users_array.length := by omega
    simp only [hlt, if_true, g_ptr_array_index, List.getElem?_eq_getElem hlt']
    exact ih (i + 1) _ (by omega) (by omega)

/-- A request for more users than the catalog has makes
`catalog_get_top_users_with_longest_total_distance` read outside `users_array`. -/
theorem catalog_get_top_users_with_longest_total_distance_fault (catalog : Catalog) (n : Int)
    (result : List Nat) (hn : (catalog.users_array.length : Int) < n) :
    catalog_get_top_users_with_longest_total_distance catalog n result = none := by
  unfold catalog_get_top_users_with_longest_total_distance
  simp [catalog_get_top_users_with_longest_total_distance_loop_fault catalog.users_array n hn
    _ 0 result rfl (Nat.zero_le _)]

/-- Behaviour of the code for C9: in a catalog with one user, a request for the two users with
the longest total distance reads `users_array` at index 1, outside the array (a fault),
because the loop runs to `n` and not to the clipped `length`; the request for the two best
drivers in a catalog with one driver, which clips, appends one element and returns 1. -/
theorem C9_top_users_reads_outside_users_array :
    (register_user create_catalog (sample_user "ana")).users_array = [0] ∧
      catalog_get_top_users_with_longest_total_distance
        (register_user create_catalog (sample_user "ana")) 2 [] = none ∧
      catalog_get_top_users_with_longest_total_distance
        (register_user create_catalog (sample_user "ana")) 1 [] = some (1, [0]) ∧
      catalog_get_top_drivers_with_best_score
        (register_driver create_catalog (sample_driver 1 "Eva")) 2 [] = some (1, [0]) := by
  refine ⟨rfl, ?_, ?_, ?_⟩
  · simp [catalog_get_top_users_with_longest_total_distance,
      catalog_get_top_users_with_longest_total_distance_loop, register_user, create_catalog,
      g_ptr_array_add, g_ptr_array_index]
  · simp [catalog_get_top_users_with_longest_total_distance,
      catalog_get_top_users_with_longest_total_distance_loop, register_user, create_catalog,
      g_ptr_array_add, g_ptr_array_index, gint_of_guint]
  · simp [catalog_get_top_drivers_with_best_score,
      catalog_get_top_drivers_with_best_score_loop, register_driver, create_catalog,
      g_ptr_array_add, g_ptr_array_index, gint_of_guint]

/-- The result of `catalog_get_top_n_drivers_in_city` depends on the table of city buckets of
rides only; `drivers_in_city` is not read. -/
theorem catalog_get_top_n_drivers_in_city_reads_ride_buckets (catalog other : Catalog)
    (n : Int) (city : String) (result : List gpointer)
    (h : catalog.rides_in_city_hashtable = other.rides_in_city_hashtable) :
    catalog_get_top_n_drivers_in_city catalog n city result =
      catalog_get_top_n_drivers_in_city other n city result := by
  unfold catalog_get_top_n_drivers_in_city
  rw [h]

/-- Behaviour of the code for C8: after a loading phase with one driver and one ride in Faro,
the driver statistics of Faro hold exactly one driver, but a request for the top 2 drivers
of Faro reads index 1 of the bucket of rides of Faro (the array the function looks up),
outside the array (a fault); a request for the top 1 appends the ride of the bucket, not
the statistics of the driver. -/
theorem C8_top_n_drivers_in_city_reads_ride_bucket :
    ∃ catalog, register_all sample_compute_price create_catalog one_driver_calls =
        some catalog ∧
      g_hash_table_lookup catalog.drivers_in_city "Faro" =
        some (GHashArray.drivers_in_city_hash [(1, faro_driver_by_city)]) ∧
      g_hash_table_lookup catalog.rides_in_city_hashtable "Faro" = some [faro_ride] ∧
      catalog_get_top_n_drivers_in_city catalog 2 "Faro" [] = none ∧
      catalog_get_top_n_drivers_in_city catalog 1 "Faro" [] = some [gpointer.ride faro_ride] ∧
      catalog_get_top_n_drivers_in_city catalog 1 "Faro" [] ≠
        some [gpointer.driver_by_city faro_driver_by_city] := by
  have h1 : ∀ catalog : Catalog,
      g_hash_table_lookup catalog.rides_in_city_hashtable "Faro" = some [faro_ride] →
      catalog_get_top_n_drivers_in_city catalog 1 "Faro" [] =
        some [gpointer.ride faro_ride] := by
    intro catalog hb
    simp [catalog_get_top_n_drivers_in_city, hb, catalog_get_top_n_drivers_in_city_loop,
      guint_of_gint, g_ptr_array_index, g_ptr_array_add]
  have h2 : ∀ catalog : Catalog,
      g_hash_table_lookup catalog.rides_in_city_hashtable "Faro" = some [faro_ride] →
      catalog_get_top_n_drivers_in_city catalog 2 "Faro" [] = none := by
    intro catalog hb
    simp [catalog_get_top_n_drivers_in_city, hb, catalog_get_top_n_drivers_in_city_loop,
      guint_of_gint, g_ptr_array_index, g_ptr_array_add]
  refine ⟨_, rfl, rfl, rfl, h2 _ rfl, h1 _ rfl, ?_⟩
  intro hc
  rw [h1] at hc
  · simp at hc
  · rfl

/-! ## Ranking of the drivers of a city -/

/-- The average score of a record with at least one ride is the finite quotient. -/
theorem driver_by_city_get_average_score_of_pos (driver : DriverbyCity)
    (h : 0 < driver.amount_rides) :
    driver_by_city_get_average_score driver =
      Double.finite ((driver.accumulated_score : ℚ) / (driver.amount_rides : ℚ)) := by
  have hq : (driver.amount_rides : ℚ) ≠ 0 := by
    have : driver.amount_rides ≠ 0 := by omega
    exact_mod_cast this
  simp [driver_by_city_get_average_score, double_div, hq]

theorem gint_wrap_add_left (x y : Int) : gint_wrap (gint_wrap x + y) = gint_wrap (x + y) := by
  unfold gint_wrap
  omega

theorem gint_wrap_of_bounds (x : Int) (h1 : -(2 ^ 31) ≤ x) (h2 : x < 2 ^ 31) :
    gint_wrap x = x := by
  unfold gint_wrap
  omega

/-- The accumulated score is kept in the 32 bits of an `int`: adding 1 to the greatest `int`
gives the least one. -/
theorem driver_by_city_add_score_wraps :
    (driver_by_city_add_score
      { id := 1, name := "Eva", accumulated_score := 2147483647, amount_rides := 1 }
      1).accumulated_score = -2147483648 := by
  decide

/-- The comparator on two ranked records, in terms of their exact average scores `p` and
`q`: negative exactly when the first has the higher average, or the same average and the
higher id; zero exactly when the averages and the ids are equal. -/
theorem glib_wrapper_compare_drivers_in_city_by_score_sign (a b : DriverbyCity)
    (ha : ranked_driver_by_city a) (hb : ranked_driver_by_city b) :
    (glib_wrapper_compare_drivers_in_city_by_score a b < 0 ↔ ranks_before a b) ∧
      (glib_wrapper_compare_drivers_in_city_by_score a b = 0 ↔
        driver_by_city_get_average_score a = driver_by_city_get_average_score b ∧
          a.id = b.id) := by
  obtain ⟨ha1, ha2, ha3⟩ := ha
  obtain ⟨hb1, hb2, hb3⟩ := hb
  have hwrap : gint_wrap (b.id - a.id) = b.id - a.id :=
    gint_wrap_of_bounds _ (by omega) (by omega)
  unfold ranks_before glib_wrapper_compare_drivers_in_city_by_score
    compare_driver_in_city_by_score compare_driver_in_city_by_id driver_by_city_get_id
  rw [driver_by_city_get_average_score_of_pos a ha1,
    driver_by_city_get_average_score_of_pos b hb1]
  simp only [double_gt, double_lt, decide_eq_true_eq, Double.finite.injEq, hwrap]
  rcases lt_trichotomy ((a.accumulated_score : ℚ) / (a.amount_rides : ℚ))
      ((b.accumulated_score : ℚ) / (b.amount_rides : ℚ)) with hlt | heq | hgt
  · have h1 : ¬ ((b.accumulated_score : ℚ) / (b.amount_rides : ℚ) <
        (a.accumulated_score : ℚ) / (a.amount_rides : ℚ)) := not_lt.mpr hlt.le
    have h2 : ¬ ((a.accumulated_score : ℚ) / (a.amount_rides : ℚ) =
        (b.accumulated_score : ℚ) / (b.amount_rides : ℚ)) := ne_of_lt hlt
    simp [hlt, h1, h2]
  · rw [heq]
    simp
    omega
  · have h1 : ¬ ((a.accumulated_score : ℚ) / (a.amount_rides : ℚ) <
        (b.accumulated_score : ℚ) / (b.amount_rides : ℚ)) := not_lt.mpr hgt.le
    have h2 : ¬ ((a.accumulated_score : ℚ) / (a.amount_rides : ℚ) =
        (b.accumulated_score : ℚ) / (b.amount_rides : ℚ)) := (ne_of_lt hgt).symm
    simp [hgt, h1, h2]

instance : IsTotal (ℚ × Int) ranking_key_before where
  total := by
    intro k₁ k₂
    unfold ranking_key_before
    rcases lt_trichotomy k₁.1 k₂.1 with h | h | h
    · exact Or.inr (Or.inl h)
    · rcases le_total k₁.2 k₂.2 with h' | h'
      · exact Or.inr (Or.inr ⟨h.symm, h'⟩)
      · exact Or.inl (Or.inr ⟨h, h'⟩)
    · exact Or.inl (Or.inl h)

instance : IsTrans (ℚ × Int) ranking_key_before where
  trans := by
    intro k₁ k₂ k₃ h₁ h₂
    unfold ranking_key_before at *
    rcases h₁ with h₁ | ⟨h₁, h₁'⟩ <;> rcases h₂ with h₂ | ⟨h₂, h₂'⟩
    · exact Or.inl (lt_trans h₂ h₁)
    · exact Or.inl (by rw [← h₂]; exact h₁)
    · exact Or.inl (by rw [h₁]; exact h₂)
    · exact Or.inr ⟨h₁.trans h₂, le_trans h₂' h₁'⟩

/-- On ranked records the comparator is not positive exactly when the keys are in the order
of the ranking. -/
theorem glib_wrapper_compare_drivers_in_city_by_score_le_iff (a b : DriverbyCity)
    (ha : ranked_driver_by_city a) (hb : ranked_driver_by_city b) :
    glib_wrapper_compare_drivers_in_city_by_score a b ≤ 0 ↔
      ranking_key_before (ranking_key a) (ranking_key b) := by
  obtain ⟨h1, h2⟩ := glib_wrapper_compare_drivers_in_city_by_score_sign a b ha hb
  rw [le_iff_lt_or_eq, h1, h2]
  unfold ranks_before ranking_key_before ranking_key
  rw [driver_by_city_get_average_score_of_pos a ha.1,
    driver_by_city_get_average_score_of_pos b hb.1]
  simp only [double_gt, double_lt, decide_eq_true_eq, Double.finite.injEq]
  constructor
  · rintro ((h | ⟨h, h'⟩) | ⟨h, h'⟩)
    · exact Or.inl h
    · exact Or.inr ⟨h, le_of_lt h'⟩
    · exact Or.inr ⟨h, le_of_eq h'.symm⟩
  · rintro (h | ⟨h, h'⟩)
    · exact Or.inl (Or.inl h)
    · rcases lt_or_eq_of_le h' with h'' | h''
      · exact Or.inl (Or.inr ⟨h, h''⟩)
      · exact Or.inr ⟨h, h''.symm⟩

/-- A sequence of ranked records sorted by `g_ptr_array_sort` with the comparator is in the
order of the comparator. -/
theorem pairwise_g_ptr_array_sort_drivers_in_city (l : List DriverbyCity)
    (hl : ∀ d ∈ l, ranked_driver_by_city d) :
    List.Pairwise (fun x y => glib_wrapper_compare_drivers_in_city_by_score x y ≤ 0)
      (g_ptr_array_sort glib_wrapper_compare_drivers_in_city_by_score l) := by
  unfold g_ptr_array_sort
  have hmap := List.map_insertionSort
    (fun x y => glib_wrapper_compare_drivers_in_city_by_score x y ≤ 0) ranking_key_before
    ranking_key l
    (fun a ha b hb => glib_wrapper_compare_drivers_in_city_by_score_le_iff a b (hl a ha)
      (hl b hb))
  have hsorted := List.sorted_insertionSort ranking_key_before (l.map ranking_key)
  rw [← hmap] at hsorted
  have hp := List.pairwise_map.mp hsorted
  refine List.Pairwise.imp_of_mem ?_ hp
  intro a b ha hb hab
  rw [List.mem_insertionSort] at ha hb
  exact (glib_wrapper_compare_drivers_in_city_by_score_le_iff a b (hl a ha) (hl b hb)).mpr hab

/-- Claim C11. Ranking order. For two records `a` and `b` with positive ride counts and
non-negative `int` ids, `glib_wrapper_compare_drivers_in_city_by_score` is negative (places `a`
before `b`) exactly when the average score of `a` is greater, or the averages are equal and
the id of `a` is greater; it is zero exactly when averages and ids are equal. Hence in every
sequence of such records that is in the order of the comparator, and in particular in the
result of sorting with it, an earlier element and a later element satisfy that relation or
have the same average and id. -/
theorem C11_ranking_order (a b : DriverbyCity) (ha : ranked_driver_by_city a)
    (hb : ranked_driver_by_city b) :
    (glib_wrapper_compare_drivers_in_city_by_score a b < 0 ↔ ranks_before a b) ∧
      (glib_wrapper_compare_drivers_in_city_by_score a b = 0 ↔
        driver_by_city_get_average_score a = driver_by_city_get_average_score b ∧
          a.id = b.id) ∧
      (∀ l : List DriverbyCity, (∀ d ∈ l, ranked_driver_by_city d) →
        List.Pairwise (fun x y => glib_wrapper_compare_drivers_in_city_by_score x y ≤ 0) l →
        List.Pairwise (fun x y => ranks_before x y ∨
          (driver_by_city_get_average_score x = driver_by_city_get_average_score y ∧
            x.id = y.id)) l) ∧
      (∀ l : List DriverbyCity, (∀ d ∈ l, ranked_driver_by_city d) →
        List.Perm (g_ptr_array_sort glib_wrapper_compare_drivers_in_city_by_score l) l ∧
        List.Pairwise (fun x y => ranks_before x y ∨
          (driver_by_city_get_average_score x = driver_by_city_get_average_score y ∧
            x.id = y.id))
          (g_ptr_array_sort glib_wrapper_compare_drivers_in_city_by_score l)) := by
  have hseq : ∀ l : List DriverbyCity, (∀ d ∈ l, ranked_driver_by_city d) →
      List.Pairwise (fun x y => glib_wrapper_compare_drivers_in_city_by_score x y ≤ 0) l →
      List.Pairwise (fun x y => ranks_before x y ∨
        (driver_by_city_get_average_score x = driver_by_city_get_average_score y ∧
          x.id = y.id)) l := by
    intro l hl hp
    refine List.Pairwise.imp_of_mem ?_ hp
    intro x y hx hy hxy
    obtain ⟨h1, h2⟩ := glib_wrapper_compare_drivers_in_city_by_score_sign x y (hl x hx) (hl y hy)
    rcases lt_or_eq_of_le hxy with h | h
    · exact Or.inl (h1.mp h)
    · exact Or.inr (h2.mp h)
  refine ⟨(glib_wrapper_compare_drivers_in_city_by_score_sign a b ha hb).1,
    (glib_wrapper_compare_drivers_in_city_by_score_sign a b ha hb).2, hseq, ?_⟩
  intro l hl
  have hperm : List.Perm (g_ptr_array_sort glib_wrapper_compare_drivers_in_city_by_score l) l :=
    List.perm_insertionSort _ _
  refine ⟨hperm, hseq _ ?_ (pairwise_g_ptr_array_sort_drivers_in_city l hl)⟩
  intro d hd
  exact hl d (hperm.mem_iff.mp hd)

/-- Witness of C11: a record with average 5 and id 5 against a record with average 4 and id 7,
and the sorted sample ranking (averages 5, 4, 4 with ids 5, 7, 3). -/
theorem C11_ranking_order_witness :
    glib_wrapper_compare_drivers_in_city_by_score
        { id := 5, name := "Ana", accumulated_score := 10, amount_rides := 2 }
        { id := 7, name := "Eva", accumulated_score := 4, amount_rides := 1 } < 0 ∧
      (g_ptr_array_sort glib_wrapper_compare_drivers_in_city_by_score sample_ranking).map
        (fun d => d.id) = [5, 7, 3] := by
  have h := C11_ranking_order
    { id := 5, name := "Ana", accumulated_score := 10, amount_rides := 2 }
    { id := 7, name := "Eva", accumulated_score := 4, amount_rides := 1 }
    ⟨by decide, by decide, by decide⟩ ⟨by decide, by decide, by decide⟩
  refine ⟨h.1.mpr ?_, ?_⟩
  · left
    simp [driver_by_city_get_average_score, double_div, double_gt, double_lt]
    norm_num
  · simp [g_ptr_array_sort, sample_ranking, glib_wrapper_compare_drivers_in_city_by_score,
      compare_driver_in_city_by_score, compare_driver_in_city_by_id, driver_by_city_get_id,
      driver_by_city_get_average_score, double_div, double_gt, double_lt, gint_wrap,
      List.orderedInsert]
    norm_num

/-! ## Rides with a tip, frame of the queries, average of a new record -/

/-- Claim C16. On a catalog with date-sorted rides and an initially empty result array,
`catalog_insert_passengers_that_gave_tip_in_date_range` returns an array that holds exactly
the rides with `start_date ≤ date ≤ end_date` and `tip > 0`, each as often as the ride
array holds it, arranged in the order of the distance comparator (a total and transitive
comparison, the comparator itself being a parameter). -/
theorem C16_passengers_that_gave_tip (compare : Ride → Ride → Int) (catalog : Catalog)
    (start_date end_date : Date) (hs : sorted_by_date catalog.rides_array)
    (htotal : ∀ a b, compare a b ≤ 0 ∨ compare b a ≤ 0)
    (htrans : ∀ a b c, compare a b ≤ 0 → compare b c ≤ 0 → compare a c ≤ 0) :
    ∃ result,
      catalog_insert_passengers_that_gave_tip_in_date_range compare catalog [] start_date
        end_date = some result ∧
      List.Perm result
        (catalog.rides_array.filter (fun ride =>
          date_in_range start_date end_date ride.date && decide (ride.tip > 0))) ∧
      (∀ ride, ride ∈ result ↔
        ride ∈ catalog.rides_array ∧ date_compare start_date ride.date ≤ 0 ∧
          date_compare ride.date end_date ≤ 0 ∧ ride.tip > 0) ∧
      List.Pairwise (fun a b => compare a b ≤ 0) result := by
  have hperm : List.Perm
      (g_ptr_array_sort compare
        ([] ++ (rides_in_date_range catalog.rides_array start_date end_date).filter
          (fun r => decide (r.tip > 0))))
      (catalog.rides_array.filter (fun ride =>
        date_in_range start_date end_date ride.date && decide (ride.tip > 0))) := by
    have h := List.perm_insertionSort (fun a b => compare a b ≤ 0)
      ([] ++ (rides_in_date_range catalog.rides_array start_date end_date).filter
        (fun r => decide (r.tip > 0)))
    simpa [g_ptr_array_sort, rides_in_date_range, List.filter_filter, Bool.and_comm] using h
  refine ⟨_, insert_passengers_that_gave_tip_eq compare catalog [] start_date end_date hs,
    hperm, ?_, ?_⟩
  · intro ride
    rw [hperm.mem_iff]
    simp only [date_in_range, List.mem_filter, Bool.and_eq_true, decide_eq_true_eq]
    tauto
  · haveI : IsTotal Ride (fun a b => compare a b ≤ 0) := ⟨htotal⟩
    haveI : IsTrans Ride (fun a b => compare a b ≤ 0) := ⟨htrans⟩
    exact List.sorted_insertionSort (fun a b => compare a b ≤ 0) _

/-- Witness of C16: the rides of the two-city catalog from 2023-01-03 to 2023-01-04, compared
by distance with the longer distance first; the two rides of Braga have a tip. -/
theorem C16_passengers_that_gave_tip_witness :
    ∃ result,
      catalog_insert_passengers_that_gave_tip_in_date_range sample_compare_rides_by_distance
        two_city_catalog [] { year := 2023, month := 1, day := 3 }
        { year := 2023, month := 1, day := 4 } = some result ∧
      List.Perm result
        (two_city_catalog.rides_array.filter (fun ride =>
          date_in_range { year := 2023, month := 1, day := 3 }
            { year := 2023, month := 1, day := 4 } ride.date && decide (ride.tip > 0))) ∧
      (∀ ride, ride ∈ result ↔
        ride ∈ two_city_catalog.rides_array ∧
          date_compare { year := 2023, month := 1, day := 3 } ride.date ≤ 0 ∧
          date_compare ride.date { year := 2023, month := 1, day := 4 } ≤ 0 ∧ ride.tip > 0) ∧
      List.Pairwise (fun a b => sample_compare_rides_by_distance a b ≤ 0) result :=
  C16_passengers_that_gave_tip sample_compare_rides_by_distance two_city_catalog _ _
    (by decide)
    (by intro a b; unfold sample_compare_rides_by_distance; omega)
    (by intro a b c; unfold sample_compare_rides_by_distance; omega)

/-- The average score of a record as `create_driver_by_city` returns it is the quotient
`0 / 0` of two doubles, NaN. -/
theorem driver_by_city_get_average_score_create (id : Int) (name : String) :
    driver_by_city_get_average_score (create_driver_by_city id name) = Double.nan := by
  simp [driver_by_city_get_average_score, create_driver_by_city, double_div]

/-- Counterexample to C18 as stated: the record that `create_driver_by_city` returns for the
driver 1, Eva, has the accumulated score 0 and the ride count 0, and for it
`driver_by_city_get_average_score` evaluates the quotient `0 / 0` and yields NaN, not 0. -/
theorem C18_average_score_of_new_record_counterexample :
    (create_driver_by_city 1 "Eva").accumulated_score = 0 ∧
      (create_driver_by_city 1 "Eva").amount_rides = 0 ∧
      driver_by_city_get_average_score (create_driver_by_city 1 "Eva") = Double.nan ∧
      driver_by_city_get_average_score (create_driver_by_city 1 "Eva") ≠ Double.finite 0 := by
  refine ⟨rfl, rfl, driver_by_city_get_average_score_create 1 "Eva", ?_⟩
  rw [driver_by_city_get_average_score_create]
  simp

/-! ## Query execution -/

/-- An argument that `strtol` reads to its end makes `execute_query_top_n_drivers` ask the
catalog and run its loop over the result. -/
theorem execute_query_top_n_drivers_of_parsed (debug : Bool) (catalog : Catalog)
    (args : List String) (argument : String) (value : Int) (h0 : args[0]? = some argument)
    (hs : strtol argument.data = (value, [])) :
    execute_query_top_n_drivers debug catalog args =
      execute_query_top_n_drivers_loop catalog
        (catalog_get_top_n_drivers catalog (gint_wrap value) []) (gint_wrap value) 0 [] := by
  unfold execute_query_top_n_drivers
  simp only [h0, hs, Option.bind_eq_bind, Option.some_bind, ne_eq, not_true_eq_false, if_false]

/-- An argument of which `strtol` leaves a rest makes `execute_query_top_n_drivers` return after
the debug message. -/
theorem execute_query_top_n_drivers_of_rest (debug : Bool) (catalog : Catalog)
    (args : List String) (argument : String) (h0 : args[0]? = some argument)
    (hs : (strtol argument.data).2 ≠ []) :
    execute_query_top_n_drivers debug catalog args =
      some (fprintf_debug debug
        ("Couldn\x27t parse number of drivers \x27" ++ argument ++ "\x27\n")) := by
  unfold execute_query_top_n_drivers
  simp only [h0, Option.bind_eq_bind, Option.some_bind, ne_eq, hs, not_false_eq_true, if_true]

/-- The loop of `execute_query_top_n_drivers`, run to a bound `n` that is greater than the
length of the result array, does not end normally: it reads the result array outside its
elements. -/
theorem execute_query_top_n_drivers_loop_fault (catalog : Catalog) (result : List Nat) (n : Int)
    (hn : (result.length : Int) < n) :
    ∀ (m i : Nat) (output : List OutputLine), result.length - i = m → i ≤ result.length →
      execute_query_top_n_drivers_loop catalog result n i output = none := by
  intro m
  induction m with
  | zero =>
    intro i output hm hi
    rw [execute_query_top_n_drivers_loop]
    have hlt : (i : Int) < n := by omega
    have hge : result.length ≤ i := by omega
    simp [hlt, g_ptr_array_index, List.getElem?_eq_none hge]
  | succ m ih =>
    intro i output hm hi
    rw [execute_query_top_n_drivers_loop]
    have hlt : (i : Int) < n := by omega
    have hlt' : i < result.length := by omega
    simp only [hlt, if_true, g_ptr_array_index, List.getElem?_eq_getElem hlt']
    cases catalog.driver_heap[result[i]]? with
    | none => rfl
    | some driver => exact ih (i + 1) _ (by omega) (by omega)

/-- Behaviour of the code for C19: in a catalog with one driver the catalog returns one driver
for a request of two, and `execute_query_top_n_drivers` with the argument "2" reads the
result array at index 1, outside its elements (a fault), because its loop runs to `n` and
not to the length of the result; with the argument "1" it writes one line. -/
theorem C19_top_n_drivers_reads_outside_result :
    (catalog_get_top_n_drivers (register_driver create_catalog (sample_driver 1 "Eva")) 2
        []).length = 1 ∧
      execute_query_top_n_drivers false
        (register_driver create_catalog (sample_driver 1 "Eva")) ["2"] = none ∧
      (execute_query_top_n_drivers false
        (register_driver create_catalog (sample_driver 1 "Eva")) ["1"]).map List.length =
          some 1 := by
  have hw2 : gint_wrap 2 = 2 := by decide
  have hw1 : gint_wrap 1 = 1 := by decide
  refine ⟨by decide, ?_, ?_⟩
  · rw [execute_query_top_n_drivers_of_parsed _ _ _ "2" 2 rfl (by decide), hw2]
    exact execute_query_top_n_drivers_loop_fault _ _ 2 (by decide) _ 0 [] rfl (Nat.zero_le _)
  · rw [execute_query_top_n_drivers_of_parsed _ _ _ "1" 1 rfl (by decide), hw1]
    simp [catalog_get_top_n_drivers, register_driver, create_catalog, g_ptr_array_add,
      execute_query_top_n_drivers_loop, g_ptr_array_index]

/-- Claim C20. For every argument of which `strtol` leaves a rest that is not empty,
`execute_query_top_n_drivers` skips the query: it returns normally, what it writes is the
debug message only (nothing without `DEBUG`), no result line, and the same whatever the
catalog is, so the catalog is not consulted. -/
theorem C20_unparsed_argument_skips_query (debug : Bool) (catalog : Catalog)
    (args : List String) (argument : String) (h0 : args[0]? = some argument)
    (hrest : (strtol argument.data).2 ≠ []) :
    execute_query_top_n_drivers debug catalog args =
        some (fprintf_debug debug
          ("Couldn\x27t parse number of drivers \x27" ++ argument ++ "\x27\n")) ∧
      (∀ output, execute_query_top_n_drivers debug catalog args = some output →
        ∀ line ∈ output, line.is_result = false) ∧
      (∀ other : Catalog, execute_query_top_n_drivers debug other args =
        execute_query_top_n_drivers debug catalog args) ∧
      execute_query_top_n_drivers false catalog args = some [] := by
  refine ⟨execute_query_top_n_drivers_of_rest debug catalog args argument h0 hrest, ?_, ?_, ?_⟩
  · intro output hout line hline
    rw [execute_query_top_n_drivers_of_rest debug catalog args argument h0 hrest] at hout
    cases hout
    unfold fprintf_debug at hline
    split_ifs at hline
    · rw [List.mem_singleton] at hline
      rw [hline]
      rfl
    · cases hline
  · intro other
    rw [execute_query_top_n_drivers_of_rest debug other args argument h0 hrest,
      execute_query_top_n_drivers_of_rest debug catalog args argument h0 hrest]
  · rw [execute_query_top_n_drivers_of_rest false catalog args argument h0 hrest]
    rfl

/-- Witness of C20: the argument "12abc", of which `strtol` leaves "abc", on a catalog with
one driver. -/
theorem C20_unparsed_argument_skips_query_witness :
    (strtol "12abc".data).2 = "abc".data ∧
      execute_query_top_n_drivers false
        (register_driver create_catalog (sample_driver 1 "Eva")) ["12abc"] = some [] :=
  ⟨by decide,
    (C20_unparsed_argument_skips_query false
      (register_driver create_catalog (sample_driver 1 "Eva")) ["12abc"] "12abc" rfl
      (by decide)).2.2.2⟩

/-! ## The end of the loading phase -/

/-- The conversion loop does not end when the table has a key, however many iterations are
followed. -/
theorem alter_hash_to_gptr_array_loop_none (hastable : GHashTable Int DriverbyCity)
    (keys : List Int) (key_read : Int) (hkeys : keys.length ≠ 0) :
    ∀ (fuel i : Nat) (values : List (Option DriverbyCity)),
      alter_hash_to_gptr_array_loop hastable keys key_read fuel i values = none := by
  intro fuel
  induction fuel with
  | zero => intro i values; rfl
  | succ fuel ih =>
    intro i values
    simp only [alter_hash_to_gptr_array_loop, hkeys, ne_eq, not_false_eq_true, if_true]
    exact ih _ _

/-- The conversion of a table that is not empty does not return. -/
theorem alter_hash_to_gptr_array_none (fuel : Nat) (key_read : Int)
    (hastable : GHashTable Int DriverbyCity) (hne : hastable ≠ []) :
    alter_hash_to_gptr_array fuel key_read hastable = none := by
  cases hastable with
  | nil => exact absurd rfl hne
  | cons entry rest =>
    simp only [alter_hash_to_gptr_array, List.map_cons]
    exact alter_hash_to_gptr_array_loop_none _ _ _ (by simp) _ _ _

/-- Behaviour of the code for C15: for every table of driver records that is not empty, and so
for the table that holds the one driver of Faro, `alter_hash_to_gptr_array` returns no
sequence however many iterations of its loop are followed, because the condition of the loop
is the number of keys and never becomes false; for the empty table it returns no sequence
either, because the condition of the loop reads through a `NULL` pointer. -/
theorem C15_conversion_returns_no_sequence :
    (∀ (fuel : Nat) (key_read : Int) (hastable : GHashTable Int DriverbyCity),
        hastable ≠ [] → alter_hash_to_gptr_array fuel key_read hastable = none) ∧
      (∀ (fuel : Nat) (key_read : Int),
        alter_hash_to_gptr_array fuel key_read [(1, faro_driver_by_city)] = none) ∧
      (∀ (fuel : Nat) (key_read : Int),
        alter_hash_to_gptr_array fuel key_read [] = none) := by
  refine ⟨alter_hash_to_gptr_array_none, ?_, ?_⟩
  · intro fuel key_read
    exact alter_hash_to_gptr_array_none fuel key_read _ (by simp)
  · intro fuel key_read
    rfl

theorem g_hash_table_foreach_update_none {K V : Type} (callback : V → Option V) :
    ∀ (table : GHashTable K V) (entry : K × V), entry ∈ table → callback entry.2 = none →
      g_hash_table_foreach_update callback table = none
  | [], entry, hmem, _ => by cases hmem
  | (k, v) :: rest, entry, hmem, hnone => by
    rcases List.mem_cons.mp hmem with h | h
    · subst h
      simp [g_hash_table_foreach_update, hnone]
    · have ih := g_hash_table_foreach_update_none callback rest entry h hnone
      simp only [g_hash_table_foreach_update, ih]
      cases callback v <;> rfl

/-- When some city has a table of driver records that is not empty, `notify_stop_registering`
does not return. -/
theorem notify_stop_registering_none (fuel : Nat) (key_read : Int)
    (compare_drivers : Driver → Driver → Int) (compare_users : User → User → Int)
    (compare_rides : Ride → Ride → Int) (catalog : Catalog) (city : String)
    (hash : GHashTable Int DriverbyCity)
    (hmem : (city, GHashArray.drivers_in_city_hash hash) ∈ catalog.drivers_in_city)
    (hne : hash ≠ []) :
    notify_stop_registering fuel key_read compare_drivers compare_users compare_rides
      catalog = none := by
  unfold notify_stop_registering
  rw [g_hash_table_foreach_update_none _ _ _ hmem
    (by simp [glib_wrapper_alter_hash_to_gptr_array,
      alter_hash_to_gptr_array_none fuel key_read hash hne])]
  rfl

/-- Behaviour of the code for C14: after a loading phase with one driver and one ride in Faro,
`notify_stop_registering` does not return, however many iterations of the conversion loop are
followed and whatever the comparators are: the conversion of the driver records of Faro,
the first step of the function, never ends, so the sorts by date are not reached. -/
theorem C14_notify_stop_registering_does_not_return :
    ∃ catalog, register_all sample_compute_price create_catalog one_driver_calls =
        some catalog ∧
      catalog.rides_array = [faro_ride] ∧
      ∀ (fuel : Nat) (key_read : Int) (compare_drivers : Driver → Driver → Int)
        (compare_users : User → User → Int) (compare_rides : Ride → Ride → Int),
        notify_stop_registering fuel key_read compare_drivers compare_users compare_rides
          catalog = none := by
  refine ⟨_, rfl, rfl, ?_⟩
  intro fuel key_read compare_drivers compare_users compare_rides
  exact notify_stop_registering_none fuel key_read compare_drivers compare_users compare_rides
    _ "Faro" [(1, faro_driver_by_city)] (List.mem_singleton.mpr rfl) (by simp)

/-! ## The history of the loading phase -/

theorem register_all_append (compute_price : Int → CarClass → ℚ) :
    ∀ (first : List Registration) (catalog : Catalog) (second : List Registration),
      register_all compute_price catalog (first ++ second) =
        (register_all compute_price catalog first).bind
          (fun next => register_all compute_price next second)
  | [], catalog, second => rfl
  | call :: rest, catalog, second => by
    simp only [List.cons_append, register_all]
    cases register compute_price catalog call with
    | none => rfl
    | some next => exact register_all_append compute_price rest next second

theorem usernames_of_calls_append :
    ∀ (first second : List Registration),
      usernames_of_calls (first ++ second) =
        usernames_of_calls first ++ usernames_of_calls second
  | [], second => rfl
  | call :: rest, second => by
    cases call <;> simp [usernames_of_calls, usernames_of_calls_append rest second]

theorem driver_ids_of_calls_append :
    ∀ (first second : List Registration),
      driver_ids_of_calls (first ++ second) =
        driver_ids_of_calls first ++ driver_ids_of_calls second
  | [], second => rfl
  | call :: rest, second => by
    cases call <;> simp [driver_ids_of_calls, driver_ids_of_calls_append rest second]

theorem rides_of_calls_append :
    ∀ (first second : List Registration),
      rides_of_calls (first ++ second) = rides_of_calls first ++ rides_of_calls second
  | [], second => rfl
  | call :: rest, second => by
    cases call <;> simp [rides_of_calls, rides_of_calls_append rest second]

theorem latest_driver_name_append_singleton (calls : List Registration) (call : Registration)
    (id : Int) :
    latest_driver_name (calls ++ [call]) id =
      latest_driver_name_step id (latest_driver_name calls id) call := by
  simp [latest_driver_name, List.foldl_append]

/-- A list of calls followed by one more call refers to registered users and drivers exactly
when the list does and the last call, if it is a ride, refers to a user and a driver that
are given or registered by the list. -/
theorem references_registered_from_append_singleton :
    ∀ (calls : List Registration) (usernames : List String) (ids : List Int)
      (call : Registration),
      references_registered_from usernames ids (calls ++ [call]) = true ↔
        references_registered_from usernames ids calls = true ∧
          (∀ ride, call = Registration.ride ride →
            (ride.user_username ∈ usernames_of_calls calls ∨ ride.user_username ∈ usernames) ∧
              (ride.driver_id ∈ driver_ids_of_calls calls ∨ ride.driver_id ∈ ids))
  | [], usernames, ids, call => by
    cases call <;>
      simp [references_registered_from, usernames_of_calls, driver_ids_of_calls]
  | head :: rest, usernames, ids, call => by
    cases head with
    | user user =>
      simp only [List.cons_append, references_registered_from, usernames_of_calls,
        driver_ids_of_calls, List.mem_cons, List.append_eq]
      rw [references_registered_from_append_singleton rest (user.username :: usernames) ids
        call]
      simp only [List.mem_cons]
      constructor
      · rintro ⟨h1, h2⟩
        refine ⟨h1, fun ride hr => ?_⟩
        obtain ⟨h3, h4⟩ := h2 ride hr
        exact ⟨by tauto, h4⟩
      · rintro ⟨h1, h2⟩
        refine ⟨h1, fun ride hr => ?_⟩
        obtain ⟨h3, h4⟩ := h2 ride hr
        exact ⟨by tauto, h4⟩
    | driver driver =>
      simp only [List.cons_append, references_registered_from, usernames_of_calls,
        driver_ids_of_calls, List.mem_cons, List.append_eq]
      rw [references_registered_from_append_singleton rest usernames (driver.id :: ids) call]
      simp only [List.mem_cons]
      constructor
      · rintro ⟨h1, h2⟩
        refine ⟨h1, fun ride hr => ?_⟩
        obtain ⟨h3, h4⟩ := h2 ride hr
        exact ⟨h3, by tauto⟩
      · rintro ⟨h1, h2⟩
        refine ⟨h1, fun ride hr => ?_⟩
        obtain ⟨h3, h4⟩ := h2 ride hr
        exact ⟨h3, by tauto⟩
    | ride ride₀ =>
      simp only [List.cons_append, references_registered_from, usernames_of_calls,
        driver_ids_of_calls, Bool.and_eq_true, decide_eq_true_eq, List.append_eq]
      rw [references_registered_from_append_singleton rest usernames ids call]
      tauto

theorem rides_of_city_and_driver_append_of_not (calls : List Registration)
    (call : Registration) (city : String) (id : Int) (h : is_ride_of city id call = false) :
    rides_of_city_and_driver (calls ++ [call]) city id =
      rides_of_city_and_driver calls city id := by
  unfold rides_of_city_and_driver
  rw [rides_of_calls_append, List.filter_append]
  cases call with
  | user user => simp [rides_of_calls]
  | driver driver => simp [rides_of_calls]
  | ride ride =>
    simp only [is_ride_of] at h
    simp [rides_of_calls, h]

theorem rides_of_city_and_driver_append_ride (calls : List Registration) (ride : Ride) :
    rides_of_city_and_driver (calls ++ [Registration.ride ride]) ride.city ride.driver_id =
      rides_of_city_and_driver calls ride.city ride.driver_id ++ [ride] := by
  unfold rides_of_city_and_driver
  rw [rides_of_calls_append, List.filter_append]
  simp [rides_of_calls]

theorem rides_of_city_and_driver_eq_nil_iff :
    ∀ (calls : List Registration) (city : String) (id : Int),
      rides_of_city_and_driver calls city id = [] ↔
        ∀ call ∈ calls, (!is_ride_of city id call) = true
  | [], city, id => by simp [rides_of_city_and_driver, rides_of_calls]
  | call :: rest, city, id => by
    have ih := rides_of_city_and_driver_eq_nil_iff rest city id
    unfold rides_of_city_and_driver at ih ⊢
    cases call with
    | user user => simpa [rides_of_calls, is_ride_of] using ih
    | driver driver => simpa [rides_of_calls, is_ride_of] using ih
    | ride ride =>
      have hhead : is_ride_of city id (Registration.ride ride) =
          (decide (ride.city = city) && decide (ride.driver_id = id)) := rfl
      simp only [rides_of_calls, List.filter_cons, List.mem_cons, forall_eq_or_imp, hhead]
      by_cases hm : (decide (ride.city = city) && decide (ride.driver_id = id)) = true
      · simp [hm]
      · have hm' : (decide (ride.city = city) && decide (ride.driver_id = id)) = false := by
          simpa using hm
        rw [hm']
        simp only [Bool.false_eq_true, if_false, Bool.not_false, true_and]
        exact ih

theorem takeWhile_append_of_exists_not {α : Type} (p : α → Bool) :
    ∀ (first second : List α), (∃ a ∈ first, p a = false) →
      (first ++ second).takeWhile p = first.takeWhile p
  | [], second, h => by
    obtain ⟨a, ha, _⟩ := h
    cases ha
  | a :: rest, second, h => by
    by_cases hp : p a = true
    · have hrest : ∃ b ∈ rest, p b = false := by
        obtain ⟨b, hb, hpb⟩ := h
        rcases List.mem_cons.mp hb with hb' | hb'
        · subst hb'
          rw [hp] at hpb
          cases hpb
        · exact ⟨b, hb', hpb⟩
      simp only [List.cons_append, List.takeWhile_cons, hp, if_true]
      rw [takeWhile_append_of_exists_not p rest second hrest]
    · simp [List.takeWhile_cons, hp]

/-- Once a ride of the city and driver is registered, later calls do not change the name at
the first such ride. -/
theorem driver_name_at_first_ride_append_of_ne_nil (calls : List Registration)
    (call : Registration) (city : String) (id : Int)
    (h : rides_of_city_and_driver calls city id ≠ []) :
    driver_name_at_first_ride (calls ++ [call]) city id =
      driver_name_at_first_ride calls city id := by
  unfold driver_name_at_first_ride
  rw [takeWhile_append_of_exists_not]
  by_contra hcon
  apply h
  rw [rides_of_city_and_driver_eq_nil_iff]
  intro c hc
  by_contra hc'
  exact hcon ⟨c, hc, by simpa using hc'⟩

/-- The first ride of a city and driver takes the name of the driver registered last under
the id before it. -/
theorem driver_name_at_first_ride_append_first (calls : List Registration) (ride : Ride)
    (h : rides_of_city_and_driver calls ride.city ride.driver_id = []) :
    driver_name_at_first_ride (calls ++ [Registration.ride ride]) ride.city ride.driver_id =
      latest_driver_name calls ride.driver_id := by
  unfold driver_name_at_first_ride
  rw [List.takeWhile_append_of_pos ((rides_of_city_and_driver_eq_nil_iff _ _ _).mp h)]
  simp [is_ride_of]

/-- A call that is not a ride of the city and driver leaves the expected record as it is. -/
theorem driver_by_city_matches_append_of_not (calls : List Registration) (call : Registration)
    (city : String) (id : Int) (record : Option DriverbyCity)
    (hnot : is_ride_of city id call = false)
    (h : driver_by_city_matches calls city id record) :
    driver_by_city_matches (calls ++ [call]) city id record := by
  cases record with
  | none =>
    simp only [driver_by_city_matches] at h ⊢
    rw [rides_of_city_and_driver_append_of_not calls call city id hnot]
    exact h
  | some record =>
    simp only [driver_by_city_matches] at h ⊢
    rw [rides_of_city_and_driver_append_of_not calls call city id hnot,
      driver_name_at_first_ride_append_of_ne_nil calls call city id h.1]
    exact h

/-- A ride of the city and driver changes the expected record as `add_score_to_driver_city`
changes the record of the table. -/
theorem driver_by_city_matches_append_ride (calls : List Registration) (ride : Ride)
    (hash : GHashTable Int DriverbyCity) (name : String)
    (hname : some name = latest_driver_name calls ride.driver_id)
    (h : driver_by_city_matches calls ride.city ride.driver_id
      (g_hash_table_lookup hash ride.driver_id)) :
    driver_by_city_matches (calls ++ [Registration.ride ride]) ride.city ride.driver_id
      (some (driver_by_city_after_ride hash ride.driver_id name ride.score_driver)) := by
  unfold driver_by_city_after_ride
  cases hl : g_hash_table_lookup hash ride.driver_id with
  | none =>
    rw [hl] at h
    simp only [driver_by_city_matches] at h ⊢
    rw [rides_of_city_and_driver_append_ride, driver_name_at_first_ride_append_first calls ride h,
      h]
    simp [driver_by_city_increment_number_of_rides, driver_by_city_add_score,
      create_driver_by_city, hname]
  | some record =>
    rw [hl] at h
    simp only [driver_by_city_matches] at h ⊢
    obtain ⟨h1, h2, h3, h4, h5⟩ := h
    rw [rides_of_city_and_driver_append_ride,
      driver_name_at_first_ride_append_of_ne_nil calls _ _ _ h1]
    simp only [Option.getD_some, driver_by_city_increment_number_of_rides,
      driver_by_city_add_score, List.map_append, List.sum_append, List.map_cons, List.map_nil,
      List.sum_cons, List.sum_nil, List.length_append, List.length_singleton]
    refine ⟨by simp, h2, h3, by rw [h4, gint_wrap_add_left, add_zero], by rw [h5]; push_cast; ring⟩

theorem user_after_ride_username (user : User) (ride : Ride) :
    (user_after_ride user ride).username = user.username := by
  unfold user_after_ride user_register_ride_date
  split_ifs <;> rfl

theorem driver_after_ride_id (driver : Driver) (ride : Ride) :
    (driver_after_ride driver ride).id = driver.id := by
  unfold driver_after_ride driver_register_ride_date
  split_ifs <;> rfl

/-- The table of driver records of a city after the value of one city has been replaced by a
table. -/
theorem drivers_in_city_hash_of_insert (catalog next : Catalog) (city₀ city : String)
    (hash : GHashTable Int DriverbyCity)
    (h : next.drivers_in_city =
      g_hash_table_insert catalog.drivers_in_city city₀ (GHashArray.drivers_in_city_hash hash)) :
    drivers_in_city_hash_of next city =
      if city₀ = city then hash else drivers_in_city_hash_of catalog city := by
  unfold drivers_in_city_hash_of
  rw [h]
  by_cases hc : city₀ = city
  · subst hc
    rw [g_hash_table_lookup_insert_self]
    simp
  · rw [g_hash_table_lookup_insert_ne _ _ _ _ hc]
    simp [hc]

theorem historyInvariant_create_catalog : HistoryInvariant [] create_catalog where
  loading := loadingInvariant_create_catalog
  user_registered := by
    intro username
    simp [catalog_get_user, create_catalog, g_hash_table_lookup, usernames_of_calls]
  user_object := by
    intro username pointer h
    simp [catalog_get_user, create_catalog, g_hash_table_lookup] at h
  driver_registered := by
    intro id
    simp [catalog_get_driver, create_catalog, g_hash_table_lookup, driver_ids_of_calls]
  driver_object := by
    intro id pointer h
    simp [catalog_get_driver, create_catalog, g_hash_table_lookup] at h
  records := by
    intro city id
    simp [drivers_in_city_hash_of, create_catalog, g_hash_table_lookup, driver_by_city_matches,
      rides_of_city_and_driver, rides_of_calls]

theorem historyInvariant_register_user (calls : List Registration) (catalog : Catalog)
    (user : User) (inv : HistoryInvariant calls catalog) :
    HistoryInvariant (calls ++ [Registration.user user]) (register_user catalog user) where
  loading := loadingInvariant_register_user catalog user inv.loading
  user_registered := by
    intro username
    rw [usernames_of_calls_append]
    simp only [catalog_get_user, register_user, usernames_of_calls, List.mem_append,
      List.mem_singleton]
    by_cases hk : user.username = username
    · subst hk
      rw [g_hash_table_lookup_insert_self]
      simp
    · rw [g_hash_table_lookup_insert_ne _ _ _ _ hk]
      have := inv.user_registered username
      simp only [catalog_get_user] at this
      rw [this]
      constructor
      · intro h
        exact Or.inl h
      · rintro (h | h)
        · exact h
        · exact absurd h.symm hk
  user_object := by
    intro username pointer h
    simp only [catalog_get_user, register_user] at h ⊢
    by_cases hk : user.username = username
    · subst hk
      rw [g_hash_table_lookup_insert_self] at h
      cases h
      exact ⟨user, by simp, rfl⟩
    · rw [g_hash_table_lookup_insert_ne _ _ _ _ hk] at h
      obtain ⟨u, hu, hname⟩ := inv.user_object username pointer h
      have hlt := (List.getElem?_eq_some.mp hu).1
      exact ⟨u, by rw [List.getElem?_append_left hlt]; exact hu, hname⟩
  driver_registered := by
    intro id
    rw [driver_ids_of_calls_append]
    simpa [driver_ids_of_calls] using inv.driver_registered id
  driver_object := by
    intro id pointer h
    rw [latest_driver_name_append_singleton]
    exact inv.driver_object id pointer h
  records := by
    intro city id
    exact driver_by_city_matches_append_of_not calls _ city id _ rfl (inv.records city id)

theorem historyInvariant_register_driver (calls : List Registration) (catalog : Catalog)
    (driver : Driver) (inv : HistoryInvariant calls catalog) :
    HistoryInvariant (calls ++ [Registration.driver driver]) (register_driver catalog driver) where
  loading := loadingInvariant_register_driver catalog driver inv.loading
  user_registered := by
    intro username
    rw [usernames_of_calls_append]
    simpa [usernames_of_calls] using inv.user_registered username
  user_object := inv.user_object
  driver_registered := by
    intro id
    rw [driver_ids_of_calls_append]
    simp only [catalog_get_driver, register_driver, driver_ids_of_calls, List.mem_append,
      List.mem_singleton]
    by_cases hk : driver.id = id
    · subst hk
      rw [g_hash_table_lookup_insert_self]
      simp
    · rw [g_hash_table_lookup_insert_ne _ _ _ _ hk]
      have := inv.driver_registered id
      simp only [catalog_get_driver] at this
      rw [this]
      constructor
      · intro h
        exact Or.inl h
      · rintro (h | h)
        · exact h
        · exact absurd h.symm hk
  driver_object := by
    intro id pointer h
    rw [latest_driver_name_append_singleton]
    simp only [catalog_get_driver, register_driver, latest_driver_name_step] at h ⊢
    by_cases hk : driver.id = id
    · subst hk
      rw [g_hash_table_lookup_insert_self] at h
      cases h
      exact ⟨driver, by simp, rfl, by simp⟩
    · rw [g_hash_table_lookup_insert_ne _ _ _ _ hk] at h
      obtain ⟨d, hd, hid, hname⟩ := inv.driver_object id pointer h
      have hlt := (List.getElem?_eq_some.mp hd).1
      exact ⟨d, by rw [List.getElem?_append_left hlt]; exact hd, hid, by simp [hk, hname]⟩
  records := by
    intro city id
    exact driver_by_city_matches_append_of_not calls _ city id _ rfl (inv.records city id)

/-- A ride whose user and driver are registered is registered without a fault, and the
invariant holds for the calls with the ride added. -/
theorem historyInvariant_register_ride (compute_price : Int → CarClass → ℚ)
    (calls : List Registration) (catalog : Catalog) (ride : Ride)
    (inv : HistoryInvariant calls catalog)
    (huser : ride.user_username ∈ usernames_of_calls calls)
    (hdriver : ride.driver_id ∈ driver_ids_of_calls calls) :
    ∃ next, register_ride compute_price catalog ride = some next ∧
      HistoryInvariant (calls ++ [Registration.ride ride]) next := by
  have hds := (inv.driver_registered ride.driver_id).mpr hdriver
  have hus := (inv.user_registered ride.user_username).mpr huser
  obtain ⟨driver_pointer, hp⟩ := Option.isSome_iff_exists.mp hds
  obtain ⟨user_pointer, hu⟩ := Option.isSome_iff_exists.mp hus
  obtain ⟨driver, hd, hdid, hdname⟩ := inv.driver_object _ _ hp
  obtain ⟨user, hud, huname⟩ := inv.user_object _ _ hu
  have hdlt := (List.getElem?_eq_some.mp hd).1
  have hult := (List.getElem?_eq_some.mp hud).1
  have heq := register_ride_eq compute_price catalog ride driver_pointer user_pointer driver
    user hp hd hu hud (inv.loading.drivers_in_city_hash ride.city)
  obtain ⟨next, _, hnext, hload, _, _, _⟩ :=
    loadingInvariant_register_ride compute_price catalog ride inv.loading hds hus
  rw [heq] at hnext
  refine ⟨_, heq, ?_⟩
  have hload' := hload
  rw [← Option.some.inj hnext] at hload'
  constructor
  · exact hload'
  · intro username
    rw [usernames_of_calls_append]
    simpa [usernames_of_calls, catalog_get_user] using inv.user_registered username
  · intro username pointer h
    obtain ⟨u, hu', hname⟩ := inv.user_object username pointer h
    simp only [List.getElem?_set]
    by_cases hpp : user_pointer = pointer
    · subst hpp
      rw [hud] at hu'
      cases hu'
      exact ⟨user_after_ride user (priced_ride compute_price driver ride), by simp [hult],
        by rw [user_after_ride_username]; exact hname⟩
    · exact ⟨u, by simp [hpp, hu'], hname⟩
  · intro id
    rw [driver_ids_of_calls_append]
    simpa [driver_ids_of_calls, catalog_get_driver] using inv.driver_registered id
  · intro id pointer h
    rw [latest_driver_name_append_singleton]
    obtain ⟨d, hd', hid, hname⟩ := inv.driver_object id pointer h
    simp only [List.getElem?_set, latest_driver_name_step]
    by_cases hpp : driver_pointer = pointer
    · subst hpp
      rw [hd] at hd'
      cases hd'
      exact ⟨driver_after_ride driver (priced_ride compute_price driver ride), by simp [hdlt],
        by rw [driver_after_ride_id]; exact hid,
        by rw [driver_after_ride_name]; exact hname⟩
    · exact ⟨d, by simp [hpp, hd'], hid, hname⟩
  · intro city id
    rw [drivers_in_city_hash_of_insert catalog _ ride.city city _ rfl]
    by_cases hc : ride.city = city
    · subst hc
      rw [if_pos rfl]
      by_cases hi : ride.driver_id = id
      · subst hi
        rw [g_hash_table_lookup_insert_self]
        exact driver_by_city_matches_append_ride calls ride _ driver.name hdname
          (inv.records ride.city ride.driver_id)
      · rw [g_hash_table_lookup_insert_ne _ _ _ _ hi]
        exact driver_by_city_matches_append_of_not calls _ ride.city id _
          (by simp [is_ride_of, hi]) (inv.records ride.city id)
    · rw [if_neg hc]
      exact driver_by_city_matches_append_of_not calls _ city id _
        (by simp [is_ride_of, hc]) (inv.records city id)

/-- Every loading phase in which each ride refers to an already registered user and driver runs
without a fault and ends in a catalog for which the invariant holds. -/
theorem register_all_history (compute_price : Int → CarClass → ℚ) (calls : List Registration) :
    references_registered calls = true →
      ∃ catalog, register_all compute_price create_catalog calls = some catalog ∧
        HistoryInvariant calls catalog := by
  induction calls using List.reverseRecOn with
  | nil =>
    intro _
    exact ⟨create_catalog, rfl, historyInvariant_create_catalog⟩
  | append_singleton calls call ih =>
    intro href
    unfold references_registered at href ih
    rw [references_registered_from_append_singleton] at href
    obtain ⟨hprev, hcall⟩ := href
    obtain ⟨catalog, hrun, inv⟩ := ih hprev
    rw [register_all_append, hrun]
    cases call with
    | user user =>
      exact ⟨_, rfl, historyInvariant_register_user calls catalog user inv⟩
    | driver driver =>
      exact ⟨_, rfl, historyInvariant_register_driver calls catalog driver inv⟩
    | ride ride =>
      obtain ⟨h1, h2⟩ := hcall ride rfl
      have hu : ride.user_username ∈ usernames_of_calls calls := by
        rcases h1 with h | h
        · exact h
        · cases h
      have hd : ride.driver_id ∈ driver_ids_of_calls calls := by
        rcases h2 with h | h
        · exact h
        · cases h
      obtain ⟨next, hnext, hinv⟩ :=
        historyInvariant_register_ride compute_price calls catalog ride inv hu hd
      exact ⟨next, by simp [register_all, register, hnext], hinv⟩

/-- Claim C12. After every loading phase on a fresh catalog in which each ride refers to an
already registered user and driver, and for every city and driver id: the driver map of the
city holds a record for the id exactly when at least one registered ride has that city and
driver; the record has that id, its ride count is the number of those rides, its accumulated
score is the sum of their driver scores as the 32 bits of the `int` field keep it, which is
the sum itself whenever the sum is in the range of an `int`, and its name is the name of the
driver registered last under the id before the first of those rides. -/
theorem C12_driver_city_records (compute_price : Int → CarClass → ℚ)
    (calls : List Registration) (href : references_registered calls = true) (city : String)
    (id : Int) :
    ∃ catalog, register_all compute_price create_catalog calls = some catalog ∧
      ((g_hash_table_lookup (drivers_in_city_hash_of catalog city) id).isSome = true ↔
        ∃ ride ∈ rides_of_calls calls, ride.city = city ∧ ride.driver_id = id) ∧
      ∀ record, g_hash_table_lookup (drivers_in_city_hash_of catalog city) id = some record →
        record.id = id ∧
          record.amount_rides = ((rides_of_city_and_driver calls city id).length : Int) ∧
          record.accumulated_score =
            gint_wrap ((rides_of_city_and_driver calls city id).map
              (fun ride => ride.score_driver)).sum ∧
          (-(2 ^ 31) ≤ ((rides_of_city_and_driver calls city id).map
                (fun ride => ride.score_driver)).sum →
            ((rides_of_city_and_driver calls city id).map
                (fun ride => ride.score_driver)).sum < 2 ^ 31 →
            record.accumulated_score =
              ((rides_of_city_and_driver calls city id).map
                (fun ride => ride.score_driver)).sum) ∧
          some record.name = driver_name_at_first_ride calls city id := by
  obtain ⟨catalog, hrun, inv⟩ := register_all_history compute_price calls href
  have hrec := inv.records city id
  have hex : rides_of_city_and_driver calls city id ≠ [] ↔
      ∃ ride ∈ rides_of_calls calls, ride.city = city ∧ ride.driver_id = id := by
    unfold rides_of_city_and_driver
    rw [ne_eq, List.filter_eq_nil_iff]
    simp only [Bool.and_eq_true, decide_eq_true_eq, not_forall, Classical.not_imp, not_not,
      exists_prop]
  refine ⟨catalog, hrun, ?_, ?_⟩
  · cases hl : g_hash_table_lookup (drivers_in_city_hash_of catalog city) id with
    | none =>
      rw [hl] at hrec
      simp only [driver_by_city_matches] at hrec
      rw [← hex]
      simp [hrec]
    | some record =>
      rw [hl] at hrec
      simp only [driver_by_city_matches] at hrec
      rw [← hex]
      simp [hrec.1]
  · intro record hl
    rw [hl] at hrec
    simp only [driver_by_city_matches] at hrec
    exact ⟨hrec.2.1, hrec.2.2.2.2, hrec.2.2.2.1,
      fun h1 h2 => hrec.2.2.2.1.trans (gint_wrap_of_bounds _ h1 h2), hrec.2.2.1⟩

/-- Witness of C12: the driver id 1 is registered as Eva, has a ride in Porto, is registered
again as Ema and has a second ride in Porto; the name at the first ride is Eva, and two
rides with a driver score of 5 each count for the record. -/
theorem C12_driver_city_records_witness :
    driver_name_at_first_ride renamed_driver_calls "Porto" 1 = some "Eva" ∧
      ((rides_of_city_and_driver renamed_driver_calls "Porto" 1).map
        (fun ride => ride.score_driver)).sum = 10 ∧
      ∃ catalog,
        register_all sample_compute_price create_catalog renamed_driver_calls = some catalog ∧
        ((g_hash_table_lookup (drivers_in_city_hash_of catalog "Porto") 1).isSome = true ↔
          ∃ ride ∈ rides_of_calls renamed_driver_calls, ride.city = "Porto" ∧
            ride.driver_id = 1) ∧
        ∀ record, g_hash_table_lookup (drivers_in_city_hash_of catalog "Porto") 1 =
            some record →
          record.id = 1 ∧
            record.amount_rides =
              ((rides_of_city_and_driver renamed_driver_calls "Porto" 1).length : Int) ∧
            record.accumulated_score =
              gint_wrap ((rides_of_city_and_driver renamed_driver_calls "Porto" 1).map
                (fun ride => ride.score_driver)).sum ∧
            (-(2 ^ 31) ≤ ((rides_of_city_and_driver renamed_driver_calls "Porto" 1).map
                  (fun ride => ride.score_driver)).sum →
              ((rides_of_city_and_driver renamed_driver_calls "Porto" 1).map
                  (fun ride => ride.score_driver)).sum < 2 ^ 31 →
              record.accumulated_score =
                ((rides_of_city_and_driver renamed_driver_calls "Porto" 1).map
                  (fun ride => ride.score_driver)).sum) ∧
            some record.name = driver_name_at_first_ride renamed_driver_calls "Porto" 1 :=
  ⟨by decide, by decide,
    C12_driver_city_records sample_compute_price renamed_driver_calls (by decide) "Porto" 1⟩

/-- A username that the catalog does not know makes `execute_query_find_user_by_name` return
after the debug message. -/
theorem execute_query_find_user_by_name_of_absent (debug : Bool) (get_age : Date → Int)
    (catalog : Catalog) (username : String)
    (h : g_hash_table_lookup catalog.user_from_username_hashtable username = none) :
    execute_query_find_user_by_name debug get_age catalog username =
      some (fprintf_debug debug ("User " ++ username ++ " not found\n")) := by
  unfold execute_query_find_user_by_name catalog_get_user
  rw [h]

/-- Claim C13. After every loading phase on a fresh catalog in which each ride refers to an
already registered user and driver (in particular after calls of `register_user` and
`register_driver` only): `catalog_get_user` returns a pointer to a user with the given username
when a user with that username was registered and `NULL` otherwise, and likewise
`catalog_get_driver` for driver ids; for a username that was not registered
`execute_query_find_user_by_name` returns normally, writes no result line (the debug message
only) and its outcome does not depend on the objects of the catalog. -/
theorem C13_lookups_and_absent_user (compute_price : Int → CarClass → ℚ)
    (calls : List Registration) (href : references_registered calls = true)
    (username : String) (id : Int) (debug : Bool) (get_age : Date → Int) :
    ∃ catalog, register_all compute_price create_catalog calls = some catalog ∧
      (username ∈ usernames_of_calls calls →
        ∃ pointer user, catalog_get_user catalog username = some pointer ∧
          catalog.user_heap[pointer]? = some user ∧ user.username = username) ∧
      (username ∉ usernames_of_calls calls →
        catalog_get_user catalog username = none ∧
          execute_query_find_user_by_name debug get_age catalog username =
            some (fprintf_debug debug ("User " ++ username ++ " not found\n")) ∧
          (∀ line ∈ fprintf_debug debug ("User " ++ username ++ " not found\n"),
            line.is_result = false) ∧
          ∀ other : Catalog,
            other.user_from_username_hashtable = catalog.user_from_username_hashtable →
            execute_query_find_user_by_name debug get_age other username =
              execute_query_find_user_by_name debug get_age catalog username) ∧
      (id ∈ driver_ids_of_calls calls →
        ∃ pointer driver, catalog_get_driver catalog id = some pointer ∧
          catalog.driver_heap[pointer]? = some driver ∧ driver.id = id) ∧
      (id ∉ driver_ids_of_calls calls → catalog_get_driver catalog id = none) := by
  obtain ⟨catalog, hrun, inv⟩ := register_all_history compute_price calls href
  refine ⟨catalog, hrun, ?_, ?_, ?_, ?_⟩
  · intro hmem
    obtain ⟨pointer, hp⟩ :=
      Option.isSome_iff_exists.mp ((inv.user_registered username).mpr hmem)
    obtain ⟨user, hu, hname⟩ := inv.user_object username pointer hp
    exact ⟨pointer, user, hp, hu, hname⟩
  · intro hnot
    have hnone : catalog_get_user catalog username = none := by
      cases h : catalog_get_user catalog username with
      | none => rfl
      | some pointer =>
        exact absurd ((inv.user_registered username).mp (by rw [h]; rfl)) hnot
    refine ⟨hnone, execute_query_find_user_by_name_of_absent debug get_age catalog username
      hnone, ?_, ?_⟩
    · intro line hline
      unfold fprintf_debug at hline
      split_ifs at hline
      · rw [List.mem_singleton] at hline
        rw [hline]
        rfl
      · cases hline
    · intro other hother
      rw [execute_query_find_user_by_name_of_absent debug get_age catalog username hnone,
        execute_query_find_user_by_name_of_absent debug get_age other username
          (by rw [hother]; exact hnone)]
  · intro hmem
    obtain ⟨pointer, hp⟩ :=
      Option.isSome_iff_exists.mp ((inv.driver_registered id).mpr hmem)
    obtain ⟨driver, hd, hid, _⟩ := inv.driver_object id pointer hp
    exact ⟨pointer, driver, hp, hd, hid⟩
  · intro hnot
    cases h : catalog_get_driver catalog id with
    | none => rfl
    | some pointer =>
      exact absurd ((inv.driver_registered id).mp (by rw [h]; rfl)) hnot

/-- Witness of C13: after the sample loading phase the username "bea" is not registered, and
the query for it, without `DEBUG`, writes nothing; the driver id 2 is registered. -/
theorem C13_lookups_and_absent_user_witness :
    ∃ catalog, register_all sample_compute_price create_catalog sample_calls = some catalog ∧
      catalog_get_user catalog "bea" = none ∧
      execute_query_find_user_by_name false (fun _ => 30) catalog "bea" = some [] ∧
      ∃ pointer driver, catalog_get_driver catalog 2 = some pointer ∧
        catalog.driver_heap[pointer]? = some driver ∧ driver.id = 2 := by
  obtain ⟨catalog, hrun, _, habsent, hdriver, _⟩ :=
    C13_lookups_and_absent_user sample_compute_price sample_calls (by decide) "bea" 2 false
      (fun _ => 30)
  obtain ⟨h1, h2, _, _⟩ := habsent (by decide)
  exact ⟨catalog, hrun, h1, h2, hdriver (by decide)⟩

/-! ## The comparison of driver ids -/

/-- Counterexample to C26 as stated: for the ids 2147483647 and -1 the difference 2147483648
does not fit 32 bits; `compare_driver_in_city_by_id` gives -2147483648, a negative value,
although the first id is the greater one. -/
theorem C26_subtraction_wraps_counterexample :
    compare_driver_in_city_by_id (driver_by_city_with_id 2147483647)
        (driver_by_city_with_id (-1)) = -2147483648 ∧
      ¬ (compare_driver_in_city_by_id (driver_by_city_with_id 2147483647)
          (driver_by_city_with_id (-1)) < 0 ↔
        (driver_by_city_with_id 2147483647).id < (driver_by_city_with_id (-1)).id) := by
  decide

/-- Claim C26, amended. For all driver ids `a` and `b` whose difference fits 32 bits, and so for
all non-negative 32-bit ids, the result of `compare_driver_in_city_by_id` is negative exactly
when `a < b`, zero exactly when `a = b` and positive exactly when `a > b`. -/
theorem C26_compare_by_id_sign (a b : DriverbyCity)
    (hfit : -(2 ^ 31) ≤ a.id - b.id ∧ a.id - b.id < 2 ^ 31) :
    (compare_driver_in_city_by_id a b < 0 ↔ a.id < b.id) ∧
      (compare_driver_in_city_by_id a b = 0 ↔ a.id = b.id) ∧
      (0 < compare_driver_in_city_by_id a b ↔ b.id < a.id) ∧
      (∀ x y : DriverbyCity, 0 ≤ x.id → x.id < 2 ^ 31 → 0 ≤ y.id → y.id < 2 ^ 31 →
        -(2 ^ 31) ≤ x.id - y.id ∧ x.id - y.id < 2 ^ 31) := by
  have h : compare_driver_in_city_by_id a b = a.id - b.id := by
    unfold compare_driver_in_city_by_id driver_by_city_get_id
    exact gint_wrap_of_bounds _ hfit.1 hfit.2
  rw [h]
  refine ⟨by omega, by omega, by omega, ?_⟩
  intro x y h1 h2 h3 h4
  omega

/-- Witness of C26 as amended: the ids 7 and 12. -/
theorem C26_compare_by_id_sign_witness :
    compare_driver_in_city_by_id (driver_by_city_with_id 7) (driver_by_city_with_id 12) < 0 :=
  (C26_compare_by_id_sign (driver_by_city_with_id 7) (driver_by_city_with_id 12)
    (by decide)).1.mpr (by decide)

/-! ## Duplicate registration -/

theorem getElem?_append_pair_first {α : Type} (l : List α) (a b : α) :
    (l ++ [a, b])[l.length]? = some a := by
  rw [List.getElem?_append_right (le_refl _)]
  simp

theorem getElem?_append_pair_second {α : Type} (l : List α) (a b : α) :
    (l ++ [a, b])[l.length + 1]? = some b := by
  rw [List.getElem?_append_right (Nat.le_add_right _ _)]
  simp

/-- Claim C24. Duplicate registration overwrites the lookup but not the collection: after
`register_user` is called with two users that share a username, `users_array` has grown by
the pointers to both users, in order, and `catalog_get_user` for that username returns the
pointer to the user registered last; the same holds for `register_driver` and
`catalog_get_driver` with a shared id. -/
theorem C24_duplicate_registration (catalog : Catalog) (first second : User)
    (first_driver second_driver : Driver) (hname : first.username = second.username)
    (hid : first_driver.id = second_driver.id) :
    ((register_user (register_user catalog first) second).users_array =
        catalog.users_array ++ [catalog.user_heap.length, catalog.user_heap.length + 1] ∧
      (register_user (register_user catalog first) second).users_array.length =
        catalog.users_array.length + 2 ∧
      (register_user (register_user catalog first) second).user_heap[
        catalog.user_heap.length]? = some first ∧
      (register_user (register_user catalog first) second).user_heap[
        catalog.user_heap.length + 1]? = some second ∧
      catalog_get_user (register_user (register_user catalog first) second) first.username =
        some (catalog.user_heap.length + 1)) ∧
    ((register_driver (register_driver catalog first_driver) second_driver).drivers_array =
        catalog.drivers_array ++ [catalog.driver_heap.length, catalog.driver_heap.length + 1] ∧
      (register_driver (register_driver catalog first_driver) second_driver).drivers_array.length
        = catalog.drivers_array.length + 2 ∧
      (register_driver (register_driver catalog first_driver) second_driver).driver_heap[
        catalog.driver_heap.length]? = some first_driver ∧
      (register_driver (register_driver catalog first_driver) second_driver).driver_heap[
        catalog.driver_heap.length + 1]? = some second_driver ∧
      catalog_get_driver (register_driver (register_driver catalog first_driver) second_driver)
        first_driver.id = some (catalog.driver_heap.length + 1)) := by
  constructor
  · refine ⟨by simp [register_user, g_ptr_array_add], by simp [register_user, g_ptr_array_add],
      ?_, ?_, ?_⟩
    · have h : (register_user (register_user catalog first) second).user_heap =
          catalog.user_heap ++ [first, second] := by simp [register_user]
      rw [h]
      exact getElem?_append_pair_first _ _ _
    · have h : (register_user (register_user catalog first) second).user_heap =
          catalog.user_heap ++ [first, second] := by simp [register_user]
      rw [h]
      exact getElem?_append_pair_second _ _ _
    · simp only [catalog_get_user, register_user, hname, List.length_append,
        List.length_singleton]
      exact g_hash_table_lookup_insert_self _ _ _
  · refine ⟨by simp [register_driver, g_ptr_array_add],
      by simp [register_driver, g_ptr_array_add], ?_, ?_, ?_⟩
    · have h : (register_driver (register_driver catalog first_driver) second_driver).driver_heap
          = catalog.driver_heap ++ [first_driver, second_driver] := by simp [register_driver]
      rw [h]
      exact getElem?_append_pair_first _ _ _
    · have h : (register_driver (register_driver catalog first_driver) second_driver).driver_heap
          = catalog.driver_heap ++ [first_driver, second_driver] := by simp [register_driver]
      rw [h]
      exact getElem?_append_pair_second _ _ _
    · simp only [catalog_get_driver, register_driver, hid, List.length_append,
        List.length_singleton]
      exact g_hash_table_lookup_insert_self _ _ _

/-- Witness of C24: two users with the username "ana" and two drivers with the id 1, registered
on the fresh catalog. -/
theorem C24_duplicate_registration_witness :
    (register_user (register_user create_catalog (sample_user "ana"))
        { sample_user "ana" with name := "Ana Maria" }).users_array = [0, 1] ∧
      catalog_get_user
        (register_user (register_user create_catalog (sample_user "ana"))
          { sample_user "ana" with name := "Ana Maria" }) "ana" = some 1 ∧
      catalog_get_driver
        (register_driver (register_driver create_catalog (sample_driver 1 "Eva"))
          (sample_driver 1 "Ema")) 1 = some 1 :=
  have h := C24_duplicate_registration create_catalog (sample_user "ana")
    { sample_user "ana" with name := "Ana Maria" } (sample_driver 1 "Eva")
    (sample_driver 1 "Ema") rfl rfl
  ⟨h.1.1, h.1.2.2.2.2, h.2.2.2.2.2⟩

/-! ## Termination and bounds of the binary search -/

/-- The binary search on any sequence, started with `low ≤ high ≤ length`: the recorded run has
the result of the loop, ends with an index between `low` and `high`, reads only at indices
`mid` with `low ≤ mid < high` inside the bounds it started from, and every iteration has a
smaller `high - low` than the iterations before it. -/
theorem ride_array_find_date_lower_bound_trace_spec (array : List Ride) (date : Date) :
    ∀ (n low high : Nat), high - low = n → low ≤ high → high ≤ array.length →
      (ride_array_find_date_lower_bound_trace array date low high).2 =
          ride_array_find_date_lower_bound_loop array date low high ∧
        (∃ i, (ride_array_find_date_lower_bound_trace array date low high).2 = some i ∧
          low ≤ i ∧ i ≤ high) ∧
        (∀ e ∈ (ride_array_find_date_lower_bound_trace array date low high).1,
          low ≤ e.1 ∧ e.1 ≤ e.2.1 ∧ e.2.1 < e.2.2 ∧ e.2.2 ≤ high) ∧
        List.Pairwise (fun a b => b.2.2 - b.1 < a.2.2 - a.1)
          (ride_array_find_date_lower_bound_trace array date low high).1 ∧
        (ride_array_find_date_lower_bound_trace array date low high).1.length ≤ high - low := by
  intro n
  induction n using Nat.strong_induction_on with
  | _ n ih =>
    intro low high hn hle hlen
    rw [ride_array_find_date_lower_bound_trace, ride_array_find_date_lower_bound_loop]
    by_cases hlt : low < high
    · have hmid : low + (high - low) / 2 < array.length := by omega
      simp only [hlt, if_true, g_ptr_array_index, List.getElem?_eq_getElem hmid]
      by_cases hc : date_compare date array[low + (high - low) / 2].date ≤ 0
      · simp only [hc, if_true]
        obtain ⟨h1, ⟨i, hi, hi1, hi2⟩, h3, h4, h5⟩ :=
          ih (low + (high - low) / 2 - low) (by omega) low (low + (high - low) / 2) rfl
            (by omega) (by omega)
        refine ⟨h1, ⟨i, hi, hi1, by omega⟩, ?_, ?_, ?_⟩
        · intro e he
          rcases List.mem_cons.mp he with he | he
          · subst he
            exact ⟨le_refl _, by simp, by simp; omega, by simp⟩
          · obtain ⟨a, b, c, d⟩ := h3 e he
            exact ⟨a, b, c, by omega⟩
        · refine List.pairwise_cons.mpr ⟨?_, h4⟩
          intro e he
          obtain ⟨a, b, c, d⟩ := h3 e he
          simp only
          omega
        · simp only [List.length_cons]
          omega
      · simp only [hc, if_false]
        obtain ⟨h1, ⟨i, hi, hi1, hi2⟩, h3, h4, h5⟩ :=
          ih (high - (low + (high - low) / 2 + 1)) (by omega) (low + (high - low) / 2 + 1) high
            rfl (by omega) hlen
        refine ⟨h1, ⟨i, hi, by omega, hi2⟩, ?_, ?_, ?_⟩
        · intro e he
          rcases List.mem_cons.mp he with he | he
          · subst he
            exact ⟨le_refl _, by simp, by simp; omega, by simp⟩
          · obtain ⟨a, b, c, d⟩ := h3 e he
            exact ⟨by omega, b, c, d⟩
        · refine List.pairwise_cons.mpr ⟨?_, h4⟩
          intro e he
          obtain ⟨a, b, c, d⟩ := h3 e he
          simp only
          omega
        · simp only [List.length_cons]
          omega
    · simp only [hlt, if_false]
      exact ⟨trivial, ⟨low, rfl, le_refl _, hle⟩, by simp, List.Pairwise.nil, by simp⟩

/-- Claim C25. For every ride sequence, sorted or not, and every target date the binary search
of `ride_array_find_date_lower_bound` terminates with a value that is at most the length
(0 for the empty sequence); in its run `high - low` is smaller in every iteration than in
the iterations before it, at most `length` iterations are made, and the array is read only
at indices `mid` with `low ≤ mid < high ≤ length`. -/
theorem C25_binary_search_terminates_in_bounds (array : List Ride) (date : Date) :
    (ride_array_find_date_lower_bound_trace array date 0 array.length).2 =
        ride_array_find_date_lower_bound array date ∧
      (∃ i, ride_array_find_date_lower_bound array date = some i ∧ i ≤ array.length) ∧
      ride_array_find_date_lower_bound [] date = some 0 ∧
      (∀ e ∈ (ride_array_find_date_lower_bound_trace array date 0 array.length).1,
        e.1 ≤ e.2.1 ∧ e.2.1 < e.2.2 ∧ e.2.2 ≤ array.length) ∧
      List.Pairwise (fun a b => b.2.2 - b.1 < a.2.2 - a.1)
        (ride_array_find_date_lower_bound_trace array date 0 array.length).1 ∧
      (ride_array_find_date_lower_bound_trace array date 0 array.length).1.length ≤
        array.length := by
  obtain ⟨h1, ⟨i, hi, _, hi2⟩, h3, h4, h5⟩ :=
    ride_array_find_date_lower_bound_trace_spec array date array.length 0 array.length rfl
      (Nat.zero_le _) le_rfl
  refine ⟨h1, ⟨i, ?_, hi2⟩, ?_, ?_, h4, h5⟩
  · rw [← hi, h1]
    rfl
  · unfold ride_array_find_date_lower_bound
    rw [ride_array_find_date_lower_bound_loop]
    simp
  · intro e he
    exact (h3 e he).2

/-! ## The aggregates of users and drivers -/

theorem driver_after_ride_aggregates (driver : Driver) (ride : Ride) :
    (driver_after_ride driver ride).number_of_rides = driver.number_of_rides + 1 ∧
      (driver_after_ride driver ride).accumulated_score =
        driver.accumulated_score + ride.score_driver ∧
      (driver_after_ride driver ride).total_earned =
        driver.total_earned + (ride.tip + ride.price) := by
  unfold driver_after_ride driver_register_ride_date
  split_ifs <;> exact ⟨rfl, rfl, rfl⟩

theorem user_after_ride_aggregates (user : User) (ride : Ride) :
    (user_after_ride user ride).number_of_rides = user.number_of_rides + 1 ∧
      (user_after_ride user ride).accumulated_score =
        user.accumulated_score + ride.score_user ∧
      (user_after_ride user ride).total_spent = user.total_spent + (ride.tip + ride.price) ∧
      (user_after_ride user ride).total_distance = user.total_distance + ride.distance := by
  unfold user_after_ride user_register_ride_date
  split_ifs <;> exact ⟨rfl, rfl, rfl, rfl⟩

/-- Claim C23. For a ride whose driver id and username the catalog knows, with `driver` and
`user` the objects that the two lookups point to, `register_ride` returns normally; it
increases the ride count of the driver by 1, its accumulated score by the driver score of
the ride and its earnings by price + tip, where the price is the price computed for the
distance of the ride and the car class of the driver; it increases the ride count of the
user by 1, its accumulated score by the user score of the ride, its total spent by the same
price + tip and its total distance by the distance of the ride; every other user and driver
object is left as it was. -/
theorem C23_register_ride_aggregates (compute_price : Int → CarClass → ℚ) (catalog : Catalog)
    (ride : Ride) (driver_pointer user_pointer : Nat) (driver : Driver) (user : User)
    (hp : catalog_get_driver catalog ride.driver_id = some driver_pointer)
    (hd : catalog.driver_heap[driver_pointer]? = some driver)
    (hu : catalog_get_user catalog ride.user_username = some user_pointer)
    (hud : catalog.user_heap[user_pointer]? = some user)
    (hhash : ∀ array, g_hash_table_lookup catalog.drivers_in_city ride.city ≠
      some (GHashArray.drivers_in_city_array array)) :
    ∃ next driver_after user_after,
      register_ride compute_price catalog ride = some next ∧
      next.driver_heap[driver_pointer]? = some driver_after ∧
      driver_after.number_of_rides = driver.number_of_rides + 1 ∧
      driver_after.accumulated_score = driver.accumulated_score + ride.score_driver ∧
      driver_after.total_earned =
        driver.total_earned + (ride.tip + compute_price ride.distance driver.car_class) ∧
      next.user_heap[user_pointer]? = some user_after ∧
      user_after.number_of_rides = user.number_of_rides + 1 ∧
      user_after.accumulated_score = user.accumulated_score + ride.score_user ∧
      user_after.total_spent =
        user.total_spent + (ride.tip + compute_price ride.distance driver.car_class) ∧
      user_after.total_distance = user.total_distance + ride.distance ∧
      (∀ pointer, pointer ≠ driver_pointer →
        next.driver_heap[pointer]? = catalog.driver_heap[pointer]?) ∧
      (∀ pointer, pointer ≠ user_pointer →
        next.user_heap[pointer]? = catalog.user_heap[pointer]?) := by
  have hdlt := (List.getElem?_eq_some.mp hd).1
  have hult := (List.getElem?_eq_some.mp hud).1
  obtain ⟨d1, d2, d3⟩ := driver_after_ride_aggregates driver (priced_ride compute_price driver ride)
  obtain ⟨u1, u2, u3, u4⟩ := user_after_ride_aggregates user (priced_ride compute_price driver ride)
  refine ⟨_, driver_after_ride driver (priced_ride compute_price driver ride),
    user_after_ride user (priced_ride compute_price driver ride),
    register_ride_eq compute_price catalog ride driver_pointer user_pointer driver user hp hd
      hu hud hhash, ?_, d1, d2, d3, ?_, u1, u2, u3, u4, ?_, ?_⟩
  · simp [List.getElem?_set, hdlt]
  · simp [List.getElem?_set, hult]
  · intro pointer hne
    simp [List.getElem?_set, Ne.symm hne]
  · intro pointer hne
    simp [List.getElem?_set, Ne.symm hne]

/-- Witness of C23: the ride of the user "ana" with the driver 1 on a catalog that holds the
two; the price of the distance 8 is 8 and the tip is 1. -/
theorem C23_register_ride_aggregates_witness :
    ∃ next driver_after user_after,
      register_ride sample_compute_price
        (register_driver (register_user create_catalog (sample_user "ana"))
          (sample_driver 1 "Eva")) (sample_ride 1 1 1 "ana" "Porto") = some next ∧
      next.driver_heap[0]? = some driver_after ∧
      driver_after.number_of_rides = 1 ∧ driver_after.accumulated_score = 5 ∧
      driver_after.total_earned = 9 ∧
      next.user_heap[0]? = some user_after ∧
      user_after.number_of_rides = 1 ∧ user_after.accumulated_score = 4 ∧
      user_after.total_spent = 9 ∧ user_after.total_distance = 8 := by
  obtain ⟨next, driver_after, user_after, h1, h2, h3, h4, h5, h6, h7, h8, h9, h10, _, _⟩ :=
    C23_register_ride_aggregates sample_compute_price
      (register_driver (register_user create_catalog (sample_user "ana"))
        (sample_driver 1 "Eva")) (sample_ride 1 1 1 "ana" "Porto") 0 0
      (sample_driver 1 "Eva") (sample_user "ana") rfl rfl rfl rfl
      (by
        intro array h
        simp [register_driver, register_user, create_catalog, g_hash_table_lookup] at h)
  refine ⟨next, driver_after, user_after, h1, h2, ?_, ?_, ?_, h6, ?_, ?_, ?_, ?_⟩
  · rw [h3]; rfl
  · rw [h4]; rfl
  · rw [h5]
    simp [sample_driver, sample_ride, sample_compute_price]
    norm_num
  · rw [h7]; rfl
  · rw [h8]; rfl
  · rw [h9]
    simp [sample_driver, sample_user, sample_ride, sample_compute_price]
    norm_num
  · rw [h10]; rfl

/-! ## Catalogs reached by registrations -/

theorem mem_of_g_hash_table_lookup {K V : Type} [DecidableEq K] :
    ∀ (t : GHashTable K V) (k : K) (v : V), g_hash_table_lookup t k = some v → (k, v) ∈ t
  | [], k, v, h => by simp [g_hash_table_lookup] at h
  | (k₀, v₀) :: rest, k, v, h => by
    by_cases hk : k₀ = k
    · simp only [g_hash_table_lookup, hk, if_true, Option.some.injEq] at h
      subst hk
      subst h
      exact List.mem_cons_self _ _
    · simp only [g_hash_table_lookup, hk, if_false] at h
      exact List.mem_cons_of_mem _ (mem_of_g_hash_table_lookup rest k v h)

/-- A call of `register_ride` that returns has found the driver and the user of the ride, and
the value of `drivers_in_city` for the city, if any, is a table. -/
theorem register_ride_some (compute_price : Int → CarClass → ℚ) (catalog : Catalog)
    (ride : Ride) (next : Catalog) (h : register_ride compute_price catalog ride = some next) :
    ∃ driver_pointer user_pointer driver user,
      catalog_get_driver catalog ride.driver_id = some driver_pointer ∧
      catalog.driver_heap[driver_pointer]? = some driver ∧
      catalog_get_user catalog ride.user_username = some user_pointer ∧
      catalog.user_heap[user_pointer]? = some user ∧
      ∀ array, g_hash_table_lookup catalog.drivers_in_city ride.city ≠
        some (GHashArray.drivers_in_city_array array) := by
  unfold register_ride at h
  simp only [Option.bind_eq_bind] at h
  obtain ⟨driver_pointer, hp, h⟩ := Option.bind_eq_some.mp h
  obtain ⟨driver, hd, h⟩ := Option.bind_eq_some.mp h
  obtain ⟨user_pointer, hu, h⟩ := Option.bind_eq_some.mp h
  obtain ⟨user, hud, h⟩ := Option.bind_eq_some.mp h
  refine ⟨driver_pointer, user_pointer, driver, user, hp, hd, hu, hud, ?_⟩
  intro array harray
  rw [catalog_ride_index_city_eq] at h
  unfold catalog_add_driver_by_city at h
  simp only [harray] at h
  cases h

/-- A property of catalogs that holds for the fresh catalog and is kept by every registration
that returns holds for every catalog that a list of registrations produces. -/
theorem register_all_preserves (compute_price : Int → CarClass → ℚ) (P : Catalog → Prop)
    (huser : ∀ catalog user, P catalog → P (register_user catalog user))
    (hdriver : ∀ catalog driver, P catalog → P (register_driver catalog driver))
    (hride : ∀ catalog ride next, P catalog →
      register_ride compute_price catalog ride = some next → P next) :
    ∀ (calls : List Registration) (start final : Catalog), P start →
      register_all compute_price start calls = some final → P final
  | [], start, final, hstart, hrun => by
    simp only [register_all, Option.some.injEq] at hrun
    rw [← hrun]
    exact hstart
  | call :: rest, start, final, hstart, hrun => by
    simp only [register_all] at hrun
    cases hstep : register compute_price start call with
    | none => rw [hstep] at hrun; cases hrun
    | some next =>
      rw [hstep] at hrun
      refine register_all_preserves compute_price P huser hdriver hride rest next final ?_ hrun
      cases call with
      | user user =>
        simp only [register, Option.some.injEq] at hstep
        rw [← hstep]
        exact huser start user hstart
      | driver driver =>
        simp only [register, Option.some.injEq] at hstep
        rw [← hstep]
        exact hdriver start driver hstart
      | ride ride => exact hride start ride next hstart hstep

theorem records_have_rides_register_ride (compute_price : Int → CarClass → ℚ)
    (catalog : Catalog) (ride : Ride) (next : Catalog) (hP : records_have_rides catalog)
    (h : register_ride compute_price catalog ride = some next) : records_have_rides next := by
  obtain ⟨driver_pointer, user_pointer, driver, user, hp, hd, hu, hud, hhash⟩ :=
    register_ride_some compute_price catalog ride next h
  rw [register_ride_eq compute_price catalog ride driver_pointer user_pointer driver user hp hd
    hu hud hhash] at h
  have hold : ∀ id record, (id, record) ∈ drivers_in_city_hash_of catalog ride.city →
      1 ≤ record.amount_rides := by
    intro id record hmem
    unfold drivers_in_city_hash_of at hmem
    cases hl : g_hash_table_lookup catalog.drivers_in_city ride.city with
    | none => rw [hl] at hmem; cases hmem
    | some value =>
      cases value with
      | drivers_in_city_hash hash =>
        rw [hl] at hmem
        exact hP ride.city _ (mem_of_g_hash_table_lookup _ _ _ hl) hash rfl id record hmem
      | drivers_in_city_array array => rw [hl] at hmem; cases hmem
  rw [← Option.some.inj h]
  intro city value hmem hash hvalue id record hrec
  rcases mem_g_hash_table_insert _ _ _ _ hmem with hmem' | hnew
  · exact hP city value hmem' hash hvalue id record hrec
  · simp only [Prod.mk.injEq] at hnew
    obtain ⟨_, hv⟩ := hnew
    rw [hv] at hvalue
    simp only [GHashArray.drivers_in_city_hash.injEq] at hvalue
    rw [← hvalue] at hrec
    rcases mem_g_hash_table_insert _ _ _ _ hrec with hrec' | hrec'
    · exact hold id record hrec'
    · simp only [Prod.mk.injEq] at hrec'
      obtain ⟨_, hr⟩ := hrec'
      rw [hr]
      unfold driver_by_city_after_ride driver_by_city_increment_number_of_rides
        driver_by_city_add_score
      simp only
      cases hl : g_hash_table_lookup (drivers_in_city_hash_of catalog ride.city) ride.driver_id with
      | none => simp [create_driver_by_city]
      | some old =>
        have := hold _ _ (mem_of_g_hash_table_lookup _ _ _ hl)
        simp only [Option.getD_some]
        omega

theorem records_have_rides_of_register_all (compute_price : Int → CarClass → ℚ)
    (calls : List Registration) (catalog : Catalog)
    (hrun : register_all compute_price create_catalog calls = some catalog) :
    records_have_rides catalog :=
  register_all_preserves compute_price records_have_rides
    (fun _ _ h => h) (fun _ _ h => h)
    (fun c r next hP h => records_have_rides_register_ride compute_price c r next hP h)
    calls create_catalog catalog
    (by intro city value hmem; simp [create_catalog] at hmem) hrun

/-- Claim C21. Invariant of the building phase: in every catalog that registrations produce from
the catalog of `create_catalog`, every record stored in the driver map of any city has
`amount_rides ≥ 1`, so that its average score is a finite quotient, never a division by a
zero ride count. -/
theorem C21_stored_records_have_rides (compute_price : Int → CarClass → ℚ)
    (calls : List Registration) (catalog : Catalog)
    (hrun : register_all compute_price create_catalog calls = some catalog) :
    ∀ city value, (city, value) ∈ catalog.drivers_in_city →
      ∀ hash, value = GHashArray.drivers_in_city_hash hash →
        ∀ id record, (id, record) ∈ hash →
          1 ≤ record.amount_rides ∧
            driver_by_city_get_average_score record =
              Double.finite ((record.accumulated_score : ℚ) / (record.amount_rides : ℚ)) := by
  intro city value hmem hash hvalue id record hrec
  have h := records_have_rides_of_register_all compute_price calls catalog hrun city value hmem
    hash hvalue id record hrec
  exact ⟨h, driver_by_city_get_average_score_of_pos record (by omega)⟩

/-- Witness of C21: the catalog at the end of the sample loading phase, with two rides of the
driver 1 in Porto and one ride of the driver 2 in Braga. -/
theorem C21_stored_records_have_rides_witness :
    loaded_sample_catalog.drivers_in_city =
        [("Porto", GHashArray.drivers_in_city_hash
            [(1, { id := 1, name := "Eva", accumulated_score := 10, amount_rides := 2 })]),
          ("Braga", GHashArray.drivers_in_city_hash
            [(2, { id := 2, name := "Ivo", accumulated_score := 5, amount_rides := 1 })])] ∧
      ∀ city value, (city, value) ∈ loaded_sample_catalog.drivers_in_city →
        ∀ hash, value = GHashArray.drivers_in_city_hash hash →
          ∀ id record, (id, record) ∈ hash →
            1 ≤ record.amount_rides ∧
              driver_by_city_get_average_score record =
                Double.finite ((record.accumulated_score : ℚ) / (record.amount_rides : ℚ)) :=
  ⟨rfl, C21_stored_records_have_rides sample_compute_price sample_calls loaded_sample_catalog
    rfl⟩

/-- After a loading phase with at least one ride `notify_stop_registering` does not return:
the city of the ride has a driver map that is not empty. -/
theorem notify_stop_registering_none_of_ride (compute_price : Int → CarClass → ℚ)
    (calls : List Registration) (href : references_registered calls = true)
    (hride : rides_of_calls calls ≠ []) :
    ∃ catalog, register_all compute_price create_catalog calls = some catalog ∧
      ∀ (fuel : Nat) (key_read : Int) (compare_drivers : Driver → Driver → Int)
        (compare_users : User → User → Int) (compare_rides : Ride → Ride → Int),
        notify_stop_registering fuel key_read compare_drivers compare_users compare_rides
          catalog = none := by
  obtain ⟨catalog, hrun, inv⟩ := register_all_history compute_price calls href
  refine ⟨catalog, hrun, ?_⟩
  obtain ⟨ride, hmem⟩ := List.exists_mem_of_ne_nil _ hride
  have hne : rides_of_city_and_driver calls ride.city ride.driver_id ≠ [] := by
    unfold rides_of_city_and_driver
    intro hnil
    have := List.filter_eq_nil_iff.mp hnil ride hmem
    simp at this
  have hrec := inv.records ride.city ride.driver_id
  cases hl : g_hash_table_lookup (drivers_in_city_hash_of catalog ride.city) ride.driver_id with
  | none =>
    rw [hl] at hrec
    exact absurd hrec hne
  | some record =>
    have hhash : drivers_in_city_hash_of catalog ride.city ≠ [] := by
      intro hnil
      rw [hnil] at hl
      simp [g_hash_table_lookup] at hl
    intro fuel key_read compare_drivers compare_users compare_rides
    unfold drivers_in_city_hash_of at hhash
    cases hv : g_hash_table_lookup catalog.drivers_in_city ride.city with
    | none => rw [hv] at hhash; exact absurd rfl hhash
    | some value =>
      cases value with
      | drivers_in_city_hash hash =>
        rw [hv] at hhash
        exact notify_stop_registering_none fuel key_read compare_drivers compare_users
          compare_rides catalog ride.city hash (mem_of_g_hash_table_lookup _ _ _ hv) hhash
      | drivers_in_city_array array => rw [hv] at hhash; exact absurd rfl hhash

/-- Behaviour of the code for C22: after every loading phase with at least one ride, and so
after the sample loading phase, `notify_stop_registering` does not return however many
iterations of the conversion loop are followed; the loop of `alter_hash_to_gptr_array` has
not ended after any number of iterations when the map has a key, so its iterations are not
bounded by the number of keys. On the fresh catalog, which has no driver map, the function
returns. -/
theorem C22_notify_stop_registering_does_not_terminate :
    (∀ (compute_price : Int → CarClass → ℚ) (calls : List Registration),
        references_registered calls = true → rides_of_calls calls ≠ [] →
        ∃ catalog, register_all compute_price create_catalog calls = some catalog ∧
          ∀ (fuel : Nat) (key_read : Int) (compare_drivers : Driver → Driver → Int)
            (compare_users : User → User → Int) (compare_rides : Ride → Ride → Int),
            notify_stop_registering fuel key_read compare_drivers compare_users compare_rides
              catalog = none) ∧
      (∀ (fuel : Nat) (key_read : Int) (compare_drivers : Driver → Driver → Int)
        (compare_users : User → User → Int) (compare_rides : Ride → Ride → Int),
        notify_stop_registering fuel key_read compare_drivers compare_users compare_rides
          loaded_sample_catalog = none) ∧
      (∀ (hastable : GHashTable Int DriverbyCity) (keys : List Int) (key_read : Int),
        keys.length ≠ 0 → ∀ (fuel i : Nat) (values : List (Option DriverbyCity)),
          alter_hash_to_gptr_array_loop hastable keys key_read fuel i values = none) ∧
      (∀ (fuel : Nat) (key_read : Int) (compare_drivers : Driver → Driver → Int)
        (compare_users : User → User → Int) (compare_rides : Ride → Ride → Int),
        notify_stop_registering fuel key_read compare_drivers compare_users compare_rides
          create_catalog = some create_catalog) := by
  refine ⟨notify_stop_registering_none_of_ride, ?_, alter_hash_to_gptr_array_loop_none, ?_⟩
  · intro fuel key_read compare_drivers compare_users compare_rides
    exact notify_stop_registering_none fuel key_read compare_drivers compare_users
      compare_rides loaded_sample_catalog "Porto"
      [(1, { id := 1, name := "Eva", accumulated_score := 10, amount_rides := 2 })]
      (List.mem_cons_self _ _) (by simp)
  · intro fuel key_read compare_drivers compare_users compare_rides
    rfl

/-! ## Average price of a city at the end of a loading phase -/

/-- Claim C18, amended. `driver_by_city_get_average_score` divides without a guard, and its
divisor is not zero for the records it can be given: the record that `create_driver_by_city`
returns gets the score of its first ride and the ride count 1 from `add_score_to_driver_city`
before it is stored, its average then being that score (as the 32 bits of the field keep
it); and in every catalog that registrations produce from the catalog of `create_catalog`
every record that the driver map of a city holds has at least one recorded ride, its
average score is the finite quotient of its accumulated score and its ride count, not NaN,
and is 0 when its accumulated score is 0. -/
theorem C18_average_score_of_stored_record (compute_price : Int → CarClass → ℚ)
    (calls : List Registration) (catalog : Catalog)
    (hrun : register_all compute_price create_catalog calls = some catalog) :
    (∀ (id : Int) (name : String) (score : Int),
        (driver_by_city_increment_number_of_rides
          (driver_by_city_add_score (create_driver_by_city id name) score)).amount_rides = 1 ∧
        driver_by_city_get_average_score
          (driver_by_city_increment_number_of_rides
            (driver_by_city_add_score (create_driver_by_city id name) score)) =
          Double.finite (gint_wrap score)) ∧
      ∀ (city : String) (id : Int) (record : DriverbyCity),
        g_hash_table_lookup (drivers_in_city_hash_of catalog city) id = some record →
        1 ≤ record.amount_rides ∧
          driver_by_city_get_average_score record =
            Double.finite ((record.accumulated_score : ℚ) / (record.amount_rides : ℚ)) ∧
          driver_by_city_get_average_score record ≠ Double.nan ∧
          (record.accumulated_score = 0 →
            driver_by_city_get_average_score record = Double.finite 0) := by
  refine ⟨?_, ?_⟩
  · intro id name score
    refine ⟨by simp [driver_by_city_increment_number_of_rides, driver_by_city_add_score,
      create_driver_by_city], ?_⟩
    rw [driver_by_city_get_average_score_of_pos _ (by
      simp [driver_by_city_increment_number_of_rides, driver_by_city_add_score,
        create_driver_by_city])]
    simp [driver_by_city_increment_number_of_rides, driver_by_city_add_score,
      create_driver_by_city]
  · intro city id record hl
    have hmem := mem_of_g_hash_table_lookup _ _ _ hl
    have hrides : 1 ≤ record.amount_rides := by
      unfold drivers_in_city_hash_of at hmem
      cases hc : g_hash_table_lookup catalog.drivers_in_city city with
      | none => rw [hc] at hmem; cases hmem
      | some value =>
        cases value with
        | drivers_in_city_hash hash =>
          rw [hc] at hmem
          exact records_have_rides_of_register_all compute_price calls catalog hrun city _
            (mem_of_g_hash_table_lookup _ _ _ hc) hash rfl id record hmem
        | drivers_in_city_array array => rw [hc] at hmem; cases hmem
    have havg := driver_by_city_get_average_score_of_pos record (by omega)
    refine ⟨hrides, havg, ?_, ?_⟩
    · rw [havg]
      simp
    · intro hzero
      rw [havg, hzero]
      simp

/-- Witness of C18: at the end of the sample loading phase the record of the driver 1 in Porto
has two rides and the accumulated score 10, and its average score is 10 / 2 = 5. -/
theorem C18_average_score_of_stored_record_witness :
    register_all sample_compute_price create_catalog sample_calls =
        some loaded_sample_catalog ∧
      g_hash_table_lookup (drivers_in_city_hash_of loaded_sample_catalog "Porto") 1 =
        some { id := 1, name := "Eva", accumulated_score := 10, amount_rides := 2 } ∧
      driver_by_city_get_average_score
          { id := 1, name := "Eva", accumulated_score := 10, amount_rides := 2 } =
        Double.finite 5 :=
  ⟨rfl, rfl,
    (((C18_average_score_of_stored_record sample_compute_price sample_calls
      loaded_sample_catalog rfl).2 "Porto" 1
      { id := 1, name := "Eva", accumulated_score := 10, amount_rides := 2 } rfl).2.1).trans
      (by norm_num)⟩

/-! ## The queries and the memory -/

/-- What the loop of `catalog_get_top_drivers_with_best_score` appends does not depend on
what the result array holds. -/
theorem catalog_get_top_drivers_with_best_score_loop_append (drivers_array : List Nat)
    (length : Int) :
    ∀ (k i : Nat) (result : List Nat), (length - i).toNat = k →
      catalog_get_top_drivers_with_best_score_loop drivers_array length i result =
        (catalog_get_top_drivers_with_best_score_loop drivers_array length i []).map
          (fun added => result ++ added) := by
  intro k
  induction k with
  | zero =>
    intro i result hk
    have h : ¬ (i : Int) < length := by omega
    rw [catalog_get_top_drivers_with_best_score_loop,
      catalog_get_top_drivers_with_best_score_loop]
    simp [h]
  | succ k ih =>
    intro i result hk
    rw [catalog_get_top_drivers_with_best_score_loop,
      catalog_get_top_drivers_with_best_score_loop]
    have h : (i : Int) < length := by omega
    simp only [h, if_true]
    cases hidx : g_ptr_array_index drivers_array i with
    | none => rfl
    | some driver =>
      simp only
      rw [ih (i + 1) (g_ptr_array_add result driver) (by omega),
        ih (i + 1) (g_ptr_array_add [] driver) (by omega), Option.map_map]
      congr 1
      funext added
      simp [g_ptr_array_add]

/-- The loop of `catalog_get_top_drivers_with_best_score` on the memory, with `result`
pointing to the array of the caller, changes that array only, as the loop on the values
does. -/
theorem catalog_get_top_drivers_with_best_score_on_memory_loop_caller (length : Int) :
    ∀ (k i : Nat) (memory : Memory), (length - i).toNat = k →
      catalog_get_top_drivers_with_best_score_on_memory_loop length ResultPointer.caller i
          memory =
        (catalog_get_top_drivers_with_best_score_loop memory.catalog.drivers_array length i
          memory.result).map (fun result => { memory with result := result }) := by
  intro k
  induction k with
  | zero =>
    intro i memory hk
    have h : ¬ (i : Int) < length := by omega
    rw [catalog_get_top_drivers_with_best_score_on_memory_loop,
      catalog_get_top_drivers_with_best_score_loop]
    simp [h]
  | succ k ih =>
    intro i memory hk
    rw [catalog_get_top_drivers_with_best_score_on_memory_loop,
      catalog_get_top_drivers_with_best_score_loop]
    have h : (i : Int) < length := by omega
    simp only [h, if_true]
    cases hidx : g_ptr_array_index memory.catalog.drivers_array i with
    | none => rfl
    | some driver =>
      simp only
      rw [ih (i + 1) _ (by omega)]
      rfl

/-- The function `catalog_get_top_drivers_with_best_score` on the memory, with `result`
pointing to the array of the caller. -/
theorem catalog_get_top_drivers_with_best_score_on_memory_caller (memory : Memory) (n : Int) :
    catalog_get_top_drivers_with_best_score_on_memory memory n ResultPointer.caller =
      (catalog_get_top_drivers_with_best_score_loop memory.catalog.drivers_array
        (min n (gint_of_guint memory.catalog.drivers_array.length)) 0 []).map
        (fun added => ({ memory with result := memory.result ++ added },
          min n (gint_of_guint memory.catalog.drivers_array.length))) := by
  unfold catalog_get_top_drivers_with_best_score_on_memory
  simp only [Option.bind_eq_bind]
  rw [catalog_get_top_drivers_with_best_score_on_memory_loop_caller _ _ 0 memory rfl,
    catalog_get_top_drivers_with_best_score_loop_append _ _ _ 0 memory.result rfl]
  cases catalog_get_top_drivers_with_best_score_loop memory.catalog.drivers_array
    (min n (gint_of_guint memory.catalog.drivers_array.length)) 0 [] <;> rfl

/-- What the loop of `catalog_get_top_users_with_longest_total_distance` appends does not
depend on what the result array holds. -/
theorem catalog_get_top_users_with_longest_total_distance_loop_append (users_array : List Nat)
    (n : Int) :
    ∀ (k i : Nat) (result : List Nat), (n - i).toNat = k →
      catalog_get_top_users_with_longest_total_distance_loop users_array n i result =
        (catalog_get_top_users_with_longest_total_distance_loop users_array n i []).map
          (fun added => result ++ added) := by
  intro k
  induction k with
  | zero =>
    intro i result hk
    have h : ¬ (i : Int) < n := by omega
    rw [catalog_get_top_users_with_longest_total_distance_loop,
      catalog_get_top_users_with_longest_total_distance_loop]
    simp [h]
  | succ k ih =>
    intro i result hk
    rw [catalog_get_top_users_with_longest_total_distance_loop,
      catalog_get_top_users_with_longest_total_distance_loop]
    have h : (i : Int) < n := by omega
    simp only [h, if_true]
    cases hidx : g_ptr_array_index users_array i with
    | none => rfl
    | some user =>
      simp only
      rw [ih (i + 1) (g_ptr_array_add result user) (by omega),
        ih (i + 1) (g_ptr_array_add [] user) (by omega), Option.map_map]
      congr 1
      funext added
      simp [g_ptr_array_add]

/-- The loop of `catalog_get_top_users_with_longest_total_distance` on the memory, with
`result` pointing to the array of the caller, changes that array only, as the loop on the
values does. -/
theorem catalog_get_top_users_with_longest_total_distance_on_memory_loop_caller (n : Int) :
    ∀ (k i : Nat) (memory : Memory), (n - i).toNat = k →
      catalog_get_top_users_with_longest_total_distance_on_memory_loop n ResultPointer.caller
          i memory =
        (catalog_get_top_users_with_longest_total_distance_loop memory.catalog.users_array n i
          memory.result).map (fun result => { memory with result := result }) := by
  intro k
  induction k with
  | zero =>
    intro i memory hk
    have h : ¬ (i : Int) < n := by omega
    rw [catalog_get_top_users_with_longest_total_distance_on_memory_loop,
      catalog_get_top_users_with_longest_total_distance_loop]
    simp [h]
  | succ k ih =>
    intro i memory hk
    rw [catalog_get_top_users_with_longest_total_distance_on_memory_loop,
      catalog_get_top_users_with_longest_total_distance_loop]
    have h : (i : Int) < n := by omega
    simp only [h, if_true]
    cases hidx : g_ptr_array_index memory.catalog.users_array i with
    | none => rfl
    | some user =>
      simp only
      rw [ih (i + 1) _ (by omega)]
      rfl

/-- The function `catalog_get_top_users_with_longest_total_distance` on the memory, with
`result` pointing to the array of the caller. -/
theorem catalog_get_top_users_with_longest_total_distance_on_memory_caller (memory : Memory)
    (n : Int) :
    catalog_get_top_users_with_longest_total_distance_on_memory memory n
        ResultPointer.caller =
      (catalog_get_top_users_with_longest_total_distance_loop memory.catalog.users_array n 0
        []).map
        (fun added => ({ memory with result := memory.result ++ added },
          min n (gint_of_guint memory.catalog.users_array.length))) := by
  unfold catalog_get_top_users_with_longest_total_distance_on_memory
  simp only [Option.bind_eq_bind]
  rw [catalog_get_top_users_with_longest_total_distance_on_memory_loop_caller _ _ 0 memory rfl,
    catalog_get_top_users_with_longest_total_distance_loop_append _ _ _ 0 memory.result rfl]
  cases catalog_get_top_users_with_longest_total_distance_loop memory.catalog.users_array n 0
    [] <;> rfl

/-- What the loop of `catalog_get_top_n_drivers_in_city` appends does not depend on what the
result array holds. -/
theorem catalog_get_top_n_drivers_in_city_loop_append (top_drivers_in_city : List Ride)
    (bound : Nat) :
    ∀ (k i : Nat) (result : List gpointer), bound - i = k →
      catalog_get_top_n_drivers_in_city_loop top_drivers_in_city bound i result =
        (catalog_get_top_n_drivers_in_city_loop top_drivers_in_city bound i []).map
          (fun added => result ++ added) := by
  intro k
  induction k with
  | zero =>
    intro i result hk
    have h : ¬ i < bound := by omega
    rw [catalog_get_top_n_drivers_in_city_loop, catalog_get_top_n_drivers_in_city_loop]
    simp [h]
  | succ k ih =>
    intro i result hk
    rw [catalog_get_top_n_drivers_in_city_loop, catalog_get_top_n_drivers_in_city_loop]
    have h : i < bound := by omega
    simp only [h, if_true]
    cases hidx : g_ptr_array_index top_drivers_in_city i with
    | none => rfl
    | some driver =>
      simp only
      rw [ih (i + 1) (g_ptr_array_add result (gpointer.ride driver)) (by omega),
        ih (i + 1) (g_ptr_array_add [] (gpointer.ride driver)) (by omega), Option.map_map]
      congr 1
      funext added
      simp [g_ptr_array_add]

/-- The loop of `catalog_get_top_n_drivers_in_city` on the memory, with `result` pointing to
the array of the caller, changes that array only, as the loop on the values does. -/
theorem catalog_get_top_n_drivers_in_city_on_memory_loop_caller (city : String) (bound : Nat)
    (top_drivers_in_city : List Ride) :
    ∀ (k i : Nat) (memory : Memory), bound - i = k →
      g_hash_table_lookup memory.catalog.rides_in_city_hashtable city =
        some top_drivers_in_city →
      catalog_get_top_n_drivers_in_city_on_memory_loop city bound ResultInCityPointer.caller i
          memory =
        (catalog_get_top_n_drivers_in_city_loop top_drivers_in_city bound i
          memory.result_in_city).map
          (fun result => { memory with result_in_city := result }) := by
  intro k
  induction k with
  | zero =>
    intro i memory hk _
    have h : ¬ i < bound := by omega
    rw [catalog_get_top_n_drivers_in_city_on_memory_loop,
      catalog_get_top_n_drivers_in_city_loop]
    simp [h]
  | succ k ih =>
    intro i memory hk hl
    rw [catalog_get_top_n_drivers_in_city_on_memory_loop,
      catalog_get_top_n_drivers_in_city_loop]
    have h : i < bound := by omega
    simp only [h, if_true, hl]
    cases hidx : g_ptr_array_index top_drivers_in_city i with
    | none => rfl
    | some driver =>
      simp only
      rw [ih (i + 1) (memory_g_ptr_array_add_in_city memory ResultInCityPointer.caller driver)
        (by omega) hl]
      rfl

/-- The function `catalog_get_top_n_drivers_in_city` on the memory, with `result` pointing to
the array of the caller. -/
theorem catalog_get_top_n_drivers_in_city_on_memory_caller (memory : Memory) (n : Int)
    (city : String) :
    catalog_get_top_n_drivers_in_city_on_memory memory n city ResultInCityPointer.caller =
      (catalog_get_top_n_drivers_in_city memory.catalog n city []).map
        (fun added =>
          ({ memory with result_in_city := memory.result_in_city ++ added }, ())) := by
  unfold catalog_get_top_n_drivers_in_city_on_memory catalog_get_top_n_drivers_in_city
  cases hl : g_hash_table_lookup memory.catalog.rides_in_city_hashtable city with
  | none => simp
  | some top_drivers_in_city =>
    simp only [Option.bind_eq_bind]
    rw [catalog_get_top_n_drivers_in_city_on_memory_loop_caller city _ top_drivers_in_city _ 0
      memory rfl hl,
      catalog_get_top_n_drivers_in_city_loop_append _ _ _ 0 memory.result_in_city rfl]
    cases catalog_get_top_n_drivers_in_city_loop top_drivers_in_city (guint_of_gint n) 0
      [] <;> rfl

/-- The function `catalog_get_user` on the memory returns what the function on the catalog
returns. -/
theorem catalog_get_user_on_memory_eq (memory : Memory) (username : String) :
    catalog_get_user_on_memory memory username =
      some (memory, catalog_get_user memory.catalog username) :=
  rfl

/-- The function `catalog_get_driver` on the memory returns what the function on the catalog
returns. -/
theorem catalog_get_driver_on_memory_eq (memory : Memory) (id : Int) :
    catalog_get_driver_on_memory memory id =
      some (memory, catalog_get_driver memory.catalog id) :=
  rfl

/-- The function `catalog_get_average_price_in_city` on the memory returns what the function
on the catalog returns. -/
theorem catalog_get_average_price_in_city_on_memory_eq (memory : Memory) (city : String) :
    catalog_get_average_price_in_city_on_memory memory city =
      (catalog_get_average_price_in_city memory.catalog city).map
        (fun answer => (memory, answer)) := by
  unfold catalog_get_average_price_in_city_on_memory catalog_get_average_price_in_city
  cases g_hash_table_lookup memory.catalog.rides_in_city_hashtable city with
  | none => rfl
  | some rides =>
    simp only [Option.bind_eq_bind]
    cases catalog_get_average_price_in_city_loop rides 0 0 <;> rfl

/-- The function `catalog_get_average_price_in_date_range` on the memory returns what the
function on the catalog returns. -/
theorem catalog_get_average_price_in_date_range_on_memory_eq (memory : Memory)
    (start_date end_date : Date) :
    catalog_get_average_price_in_date_range_on_memory memory start_date end_date =
      (catalog_get_average_price_in_date_range memory.catalog start_date end_date).map
        (fun answer => (memory, answer)) := by
  unfold catalog_get_average_price_in_date_range_on_memory
    catalog_get_average_price_in_date_range
  simp only [Option.bind_eq_bind]
  cases ride_array_find_date_lower_bound memory.catalog.rides_array start_date with
  | none => rfl
  | some current_value_index =>
    simp only [Option.some_bind]
    cases catalog_get_average_price_in_date_range_loop memory.catalog.rides_array end_date
      current_value_index 0 0 <;> rfl

/-- The function `catalog_get_average_distance_in_city_by_date` on the memory returns what the
function on the catalog returns. -/
theorem catalog_get_average_distance_in_city_by_date_on_memory_eq (memory : Memory)
    (start_date end_date : Date) (city : String) :
    catalog_get_average_distance_in_city_by_date_on_memory memory start_date end_date city =
      (catalog_get_average_distance_in_city_by_date memory.catalog start_date end_date
        city).map (fun answer => (memory, answer)) := by
  unfold catalog_get_average_distance_in_city_by_date_on_memory
    catalog_get_average_distance_in_city_by_date
  cases g_hash_table_lookup memory.catalog.rides_in_city_hashtable city with
  | none => rfl
  | some rides_in_city =>
    simp only [Option.bind_eq_bind]
    cases ride_array_find_date_lower_bound rides_in_city start_date with
    | none => rfl
    | some current_value_index =>
      simp only [Option.some_bind]
      cases catalog_get_average_distance_in_city_by_date_loop rides_in_city end_date
        current_value_index 0 0 <;> rfl

/-- A query that returns the memory it was given, with an answer that it reads from the
catalog, only reads. -/
theorem reads_only_of_eq {α : Type} (query : Memory → Option (Memory × α))
    (value : Catalog → Option α)
    (h : ∀ memory, query memory = (value memory.catalog).map (fun answer => (memory, answer))) :
    reads_only query := by
  intro memory after answer hq
  have hq' := hq
  rw [h] at hq'
  obtain ⟨a, _, heq⟩ := Option.map_eq_some'.mp hq'
  simp only [Prod.mk.injEq] at heq
  obtain ⟨h1, _⟩ := heq
  subst h1
  exact ⟨rfl, hq⟩

/-- Claim C17. The queries have no side effects on the catalog. As operations on the memory,
`catalog_get_user`, `catalog_get_driver`, `catalog_get_average_price_in_city`,
`catalog_get_average_price_in_date_range` and `catalog_get_average_distance_in_city_by_date`
only read: whenever one of them returns, the memory is as it was before the call, and the
same call returns the same answer again. The top-N functions, given the array of the caller
as `result`, store to that array only: whenever one of them returns, the catalog is as it
was before the call, and the same call on the memory that it has left returns the same
answer, leaves the catalog as it was and adds the same elements to the array once more. -/
theorem C17_queries_leave_catalog_unchanged :
    (∀ username : String,
        reads_only (fun memory => catalog_get_user_on_memory memory username)) ∧
      (∀ id : Int, reads_only (fun memory => catalog_get_driver_on_memory memory id)) ∧
      (∀ city : String,
        reads_only (fun memory => catalog_get_average_price_in_city_on_memory memory city)) ∧
      (∀ start_date end_date : Date,
        reads_only (fun memory =>
          catalog_get_average_price_in_date_range_on_memory memory start_date end_date)) ∧
      (∀ (start_date end_date : Date) (city : String),
        reads_only (fun memory =>
          catalog_get_average_distance_in_city_by_date_on_memory memory start_date end_date
            city)) ∧
      (∀ n : Int,
        adds_to_result_only (fun memory => memory.result) (fun memory =>
          catalog_get_top_drivers_with_best_score_on_memory memory n ResultPointer.caller)) ∧
      (∀ n : Int,
        adds_to_result_only (fun memory => memory.result) (fun memory =>
          catalog_get_top_users_with_longest_total_distance_on_memory memory n
            ResultPointer.caller)) ∧
      (∀ (n : Int) (city : String),
        adds_to_result_only (fun memory => memory.result_in_city) (fun memory =>
          catalog_get_top_n_drivers_in_city_on_memory memory n city
            ResultInCityPointer.caller)) := by
  refine ⟨?_, ?_, ?_, ?_, ?_, ?_, ?_, ?_⟩
  · intro username
    exact reads_only_of_eq _ (fun catalog => some (catalog_get_user catalog username))
      (fun memory => rfl)
  · intro id
    exact reads_only_of_eq _ (fun catalog => some (catalog_get_driver catalog id))
      (fun memory => rfl)
  · intro city
    exact reads_only_of_eq _ (fun catalog => catalog_get_average_price_in_city catalog city)
      (fun memory => catalog_get_average_price_in_city_on_memory_eq memory city)
  · intro start_date end_date
    exact reads_only_of_eq _
      (fun catalog => catalog_get_average_price_in_date_range catalog start_date end_date)
      (fun memory =>
        catalog_get_average_price_in_date_range_on_memory_eq memory start_date end_date)
  · intro start_date end_date city
    exact reads_only_of_eq _
      (fun catalog =>
        catalog_get_average_distance_in_city_by_date catalog start_date end_date city)
      (fun memory =>
        catalog_get_average_distance_in_city_by_date_on_memory_eq memory start_date end_date
          city)
  · intro n memory after answer h
    simp only [catalog_get_top_drivers_with_best_score_on_memory_caller] at h
    obtain ⟨added, hadd, heq⟩ := Option.map_eq_some'.mp h
    simp only [Prod.mk.injEq] at heq
    obtain ⟨h1, h2⟩ := heq
    subst h1
    subst h2
    refine ⟨rfl, added, { memory with result := (memory.result ++ added) ++ added }, rfl, ?_,
      rfl, rfl⟩
    simp only [catalog_get_top_drivers_with_best_score_on_memory_caller, hadd, Option.map_some']
  · intro n memory after answer h
    simp only [catalog_get_top_users_with_longest_total_distance_on_memory_caller] at h
    obtain ⟨added, hadd, heq⟩ := Option.map_eq_some'.mp h
    simp only [Prod.mk.injEq] at heq
    obtain ⟨h1, h2⟩ := heq
    subst h1
    subst h2
    refine ⟨rfl, added, { memory with result := (memory.result ++ added) ++ added }, rfl, ?_,
      rfl, rfl⟩
    simp only [catalog_get_top_users_with_longest_total_distance_on_memory_caller, hadd,
      Option.map_some']
  · intro n city memory after answer h
    simp only [catalog_get_top_n_drivers_in_city_on_memory_caller] at h
    obtain ⟨added, hadd, heq⟩ := Option.map_eq_some'.mp h
    simp only [Prod.mk.injEq] at heq
    obtain ⟨h1, _⟩ := heq
    subst h1
    refine ⟨rfl, added,
      { memory with result_in_city := (memory.result_in_city ++ added) ++ added }, rfl, ?_,
      rfl, rfl⟩
    simp only [catalog_get_top_n_drivers_in_city_on_memory_caller, hadd, Option.map_some']

/-- Witness of C17: on the memory at the end of the sample loading phase the request for the two
best drivers returns 2 and adds the two drivers to the array of the caller; the catalog is
as before, and the same request on the memory that is left returns 2 again and adds the two
drivers once more. -/
theorem C17_queries_leave_catalog_unchanged_witness :
    catalog_get_top_drivers_with_best_score_on_memory loaded_sample_memory 2
        ResultPointer.caller =
        some ({ loaded_sample_memory with result := [0, 1] }, 2) ∧
      ∃ added again, [0, 1] = [] ++ added ∧
        catalog_get_top_drivers_with_best_score_on_memory
          { loaded_sample_memory with result := [0, 1] } 2 ResultPointer.caller =
          some (again, 2) ∧
        again.catalog = loaded_sample_catalog ∧ again.result = [0, 1] ++ added := by
  have harray : loaded_sample_catalog.drivers_array = [0, 1] := rfl
  have heval : catalog_get_top_drivers_with_best_score_on_memory loaded_sample_memory 2
      ResultPointer.caller = some ({ loaded_sample_memory with result := [0, 1] }, 2) := by
    rw [catalog_get_top_drivers_with_best_score_on_memory_caller]
    simp [loaded_sample_memory, harray, catalog_get_top_drivers_with_best_score_loop,
      g_ptr_array_index, g_ptr_array_add, gint_of_guint]
  exact ⟨heval,
    (C17_queries_leave_catalog_unchanged.2.2.2.2.2.1 2 loaded_sample_memory _ 2 heval).2⟩

/-- The argument `result` decides where a top-N function stores: given `drivers_array` of the
catalog itself instead of an array of the caller, the request for the best driver adds
an element to that array of the catalog. -/
theorem catalog_get_top_drivers_with_best_score_on_memory_alias :
    loaded_sample_memory.catalog.drivers_array = [0, 1] ∧
      ∃ after, catalog_get_top_drivers_with_best_score_on_memory loaded_sample_memory 1
          ResultPointer.drivers_array = some (after, 1) ∧
        after.catalog.drivers_array = [0, 1, 0] ∧
        after.catalog ≠ loaded_sample_memory.catalog := by
  have harray : loaded_sample_catalog.drivers_array = [0, 1] := rfl
  refine ⟨harray, memory_g_ptr_array_add loaded_sample_memory ResultPointer.drivers_array 0,
    ?_, ?_, ?_⟩
  · simp [catalog_get_top_drivers_with_best_score_on_memory,
      catalog_get_top_drivers_with_best_score_on_memory_loop, loaded_sample_memory, harray,
      g_ptr_array_index, gint_of_guint]
  · simp [memory_g_ptr_array_add, loaded_sample_memory, harray, g_ptr_array_add]
  · intro h
    have h2 := congrArg (fun catalog : Catalog => catalog.drivers_array.length) h
    simp [memory_g_ptr_array_add, loaded_sample_memory, harray, g_ptr_array_add] at h2

end LI3
